import Mathlib

/-!
# The generic tagged-value stack of `genericStack.h`

A shallow embedding of `src/3rdparty/github/genericStack/include/genericStack.h`.

* A stack is a record of the C structure's fields.  The pointer `items` is kept as a
  designator of the block it points to (the embedded `defaultItems` array, the heap block
  owned by `heapItems`, `NULL`, or a block that has been freed).
* A block is a list of items; its length is the number of items the C object holds.  An
  access outside the block, through `NULL` or through a freed pointer has no defined
  result (`Outcome.undefined`).
* `size_t` values are natural numbers, reduced modulo `2 ^ sizeBits` wherever the C code
  computes; `int` values are integers, converted with two's complement wrap-around.
* `malloc` and `realloc` are an oracle: the Boolean `allocOk` says whether the one
  allocation a call may perform succeeds.  The block obtained holds as many whole items as
  the byte count `heapl * sizeof(genericStackItem_t)`, computed in `size_t`, has room for.
  `memcpy` and `memset` move whole items: a range inside a block cannot have a wrapping
  byte count, since a block has fewer than `2 ^ sizeBits` bytes.  `errno` is not part of
  the model.
* The doubling loop of `_GENERICSTACK_EXTEND` runs on fuel (one unit per iteration), since
  the default build has no exit from it once the candidate has wrapped to zero.
* The preprocessor switches are the fields of `genericStackConfig`; two builds of the same
  code are two configurations that differ in one field.
* A call of an operation with its arguments is an `Operation`; `Operation.run` gives the
  state after it, whatever it returned.  The states a program can reach are the relation
  `reachableBy`, which starts from the four constructions (`constructed`).
-/

/-- Build and platform configuration: the preprocessor switches of `genericStack.h`, the
width of `size_t` and the size in bytes of one `genericStackItem_t`. -/
structure genericStackConfig where
  sizeBits : Nat
  sizeofItem : Nat
  GENERICSTACK_DEFAULT_LENGTH : Nat
  GENERICSTACK_PARANOID : Bool
  GENERICSTACK_ZERO_INT_IS_NOT_ZERO_BYTES : Bool
  deriving DecidableEq

/-- The header as shipped on an LP64 platform: 64-bit `size_t`, 32-byte items, default
length 128, `GENERICSTACK_PARANOID` and `GENERICSTACK_ZERO_INT_IS_NOT_ZERO_BYTES` undefined. -/
def defaultConfig : genericStackConfig :=
  { sizeBits := 64
    sizeofItem := 32
    GENERICSTACK_DEFAULT_LENGTH := 128
    GENERICSTACK_PARANOID := false
    GENERICSTACK_ZERO_INT_IS_NOT_ZERO_BYTES := false }

/-- Number of values of `size_t`: `SIZE_MAX + 1`. -/
def sizeModulus (cfg : genericStackConfig) : Nat := 2 ^ cfg.sizeBits

/-- Addition in `size_t`. -/
def sizeAdd (cfg : genericStackConfig) (a b : Nat) : Nat := (a + b) % sizeModulus cfg

/-- Subtraction in `size_t`. -/
def sizeSub (cfg : genericStackConfig) (a b : Nat) : Nat :=
  (a % sizeModulus cfg + (sizeModulus cfg - b % sizeModulus cfg)) % sizeModulus cfg

/-- Multiplication in `size_t`. -/
def sizeMul (cfg : genericStackConfig) (a b : Nat) : Nat := (a * b) % sizeModulus cfg

/-- Width of `int`. -/
def intBits : Nat := 32

/-- Conversion of an integer value to `int` (two's complement wrap-around). -/
def toInt (x : Int) : Int := (x + 2 ^ (intBits - 1)) % 2 ^ intBits - 2 ^ (intBits - 1)

/-- Conversion of an `int` to `size_t`, as the usual arithmetic conversions do when an
`int` meets a `size_t` operand. -/
def intToSize (cfg : genericStackConfig) (x : Int) : Nat := (x % (sizeModulus cfg : Int)).toNat

/-- The enumeration `genericStackItemType_t` (lines 105-131), with every conditional member. -/
inductive genericStackItemType
  | GENERICSTACKITEMTYPE_NA
  | GENERICSTACKITEMTYPE_CHAR
  | GENERICSTACKITEMTYPE_SHORT
  | GENERICSTACKITEMTYPE_INT
  | GENERICSTACKITEMTYPE_LONG
  | GENERICSTACKITEMTYPE_FLOAT
  | GENERICSTACKITEMTYPE_DOUBLE
  | GENERICSTACKITEMTYPE_PTR
  | GENERICSTACKITEMTYPE_ARRAY
  | GENERICSTACKITEMTYPE_LONG_LONG
  | GENERICSTACKITEMTYPE__BOOL
  | GENERICSTACKITEMTYPE_FLOAT__COMPLEX
  | GENERICSTACKITEMTYPE_DOUBLE__COMPLEX
  | GENERICSTACKITEMTYPE_LONG_DOUBLE__COMPLEX
  | GENERICSTACKITEMTYPE_CUSTOM
  | GENERICSTACKITEMTYPE_LONG_DOUBLE
  deriving DecidableEq

open genericStackItemType

/-- The members of the union `u` of `genericStackItem_t` (lines 140-164). -/
inductive genericStackItemMember
  | c | s | i | l | f | d | p | a | ll | b | fc | dc | ldc | custom | ld
  deriving DecidableEq

/-- Contents of the union `u`: never written, all bytes zero, or the member last assigned
together with the C value assigned to it.  The stack never computes with a payload, so
every C value is carried as an integer (the number itself for the integer types, the
object representation for floating, pointer, array and custom values). -/
inductive genericStackItemUnion
  | indeterminate
  | zeroBytes
  | stored (dst : genericStackItemMember) (var : Int)
  deriving DecidableEq

/-- One `genericStackItem_t`.  A `type` of `none` is an indeterminate discriminant: memory
that was never written. -/
structure genericStackItem where
  type : Option genericStackItemType
  u : genericStackItemUnion
  deriving DecidableEq

/-- An item of memory that was never written. -/
def freshItem : genericStackItem := { type := none, u := genericStackItemUnion.indeterminate }

/-- An item whose bytes are all zero: the discriminant is `GENERICSTACKITEMTYPE_NA`, which
the enumeration declares as 0. -/
def zeroItem : genericStackItem :=
  { type := some GENERICSTACKITEMTYPE_NA, u := genericStackItemUnion.zeroBytes }

/-- What the pointer `items` designates. -/
inductive genericStackItemsPtr
  | NULL
  | defaultItems
  | heapItems
  | freed
  deriving DecidableEq

/-- The structure `genericStack_t` (lines 170-181).  `heapItems` is `none` for `NULL` and
otherwise holds the heap block. -/
structure genericStack where
  items : genericStackItemsPtr
  defaultItems : List genericStackItem
  heapItems : Option (List genericStackItem)
  initialLengthl : Nat
  heapl : Nat
  lengthl : Nat
  usedl : Nat
  errori : Int
  deriving DecidableEq

/-- Result of running a piece of the C code: a value, no defined result (an access outside
a block or through a dead pointer, a read of indeterminate memory or of a union member
that was not the one stored), or fuel exhausted inside the doubling loop. -/
inductive Outcome (α : Type)
  | ok (a : α)
  | undefined
  | outOfFuel
  deriving DecidableEq

/-- Sequencing of outcomes. -/
def Outcome.bind {α β : Type} (x : Outcome α) (f : α → Outcome β) : Outcome β :=
  match x with
  | Outcome.ok a => f a
  | Outcome.undefined => Outcome.undefined
  | Outcome.outOfFuel => Outcome.outOfFuel

/-- The block `items` points to, when it points to a live one. -/
def genericStack.block (s : genericStack) : Option (List genericStackItem) :=
  match s.items with
  | genericStackItemsPtr.defaultItems => some s.defaultItems
  | genericStackItemsPtr.heapItems => s.heapItems
  | genericStackItemsPtr.NULL => none
  | genericStackItemsPtr.freed => none

/-- Replace the contents of the block `items` points to. -/
def genericStack.setBlock (s : genericStack) (blk : List genericStackItem) : genericStack :=
  match s.items with
  | genericStackItemsPtr.defaultItems => { s with defaultItems := blk }
  | genericStackItemsPtr.heapItems => { s with heapItems := some blk }
  | genericStackItemsPtr.NULL => s
  | genericStackItemsPtr.freed => s

/-- The item `stackp->items[indexl]`. -/
def genericStack.load (s : genericStack) (indexl : Nat) : Outcome genericStackItem :=
  match s.block with
  | none => Outcome.undefined
  | some blk =>
    match blk[indexl]? with
    | some item => Outcome.ok item
    | none => Outcome.undefined

/-- Apply `f` to `stackp->items[indexl]` in place. -/
def genericStack.modify (s : genericStack) (indexl : Nat)
    (f : genericStackItem → genericStackItem) : Outcome genericStack :=
  match s.block with
  | none => Outcome.undefined
  | some blk =>
    match blk[indexl]? with
    | some item => Outcome.ok (s.setBlock (blk.set indexl (f item)))
    | none => Outcome.undefined

/-- Apply `f` to `count` consecutive items of a block, starting at `indicel`; `none` when
one of them lies outside the block. -/
def fillItems (f : genericStackItem → genericStackItem) :
    List genericStackItem → Nat → Nat → Option (List genericStackItem)
  | blk, _, 0 => some blk
  | blk, indicel, count + 1 =>
    match blk[indicel]? with
    | some item => fillItems f (blk.set indicel (f item)) (indicel + 1) count
    | none => none

/-- The function `_GENERICSTACK_NA_MEMSET` in its two variants.  With
`GENERICSTACK_ZERO_INT_IS_NOT_ZERO_BYTES` (lines 191-197) the loop
`for (indicel = startl; indicel <= endl; indicel++)` assigns the discriminant only;
otherwise (lines 236-238) `memset` zeroes `endl - startl + 1` whole items. -/
def _GENERICSTACK_NA_MEMSET (cfg : genericStackConfig) (s : genericStack) (startl endl : Nat) :
    Outcome genericStack :=
  match s.block with
  | none => Outcome.undefined
  | some blk =>
    let filled :=
      if cfg.GENERICSTACK_ZERO_INT_IS_NOT_ZERO_BYTES then
        fillItems (fun item => { item with type := some GENERICSTACKITEMTYPE_NA })
          blk startl (endl + 1 - startl)
      else
        fillItems (fun _ => zeroItem) blk startl (sizeAdd cfg (sizeSub cfg endl startl) 1)
    match filled with
    | some blk2 => Outcome.ok (s.setBlock blk2)
    | none => Outcome.undefined

/-- Number of whole items in a block of `heapl * sizeof(genericStackItem_t)` bytes, the
byte count being computed in `size_t`. -/
def allocItems (cfg : genericStackConfig) (heapl : Nat) : Nat :=
  sizeMul cfg heapl cfg.sizeofItem / cfg.sizeofItem

/-- The function `_GENERICSTACK_CREATE_HEAP` (lines 240-276; the `memcpy` is compiled only
when `GENERICSTACK_DEFAULT_LENGTH > 0`).  It is called with `heapItems == NULL` only. -/
def _GENERICSTACK_CREATE_HEAP (cfg : genericStackConfig) (allocOk : Bool) (s : genericStack)
    (heapl : Nat) : Outcome (Bool × genericStack) :=
  if allocOk then
    let blk := List.replicate (allocItems cfg heapl) freshItem
    if 0 < cfg.GENERICSTACK_DEFAULT_LENGTH ∧ 0 < s.usedl then
      if s.usedl ≤ s.defaultItems.length ∧ s.usedl ≤ blk.length then
        Outcome.ok (true,
          { s with
            items := genericStackItemsPtr.heapItems
            heapItems := some (s.defaultItems.take s.usedl ++ blk.drop s.usedl)
            lengthl := heapl
            heapl := heapl })
      else Outcome.undefined
    else
      Outcome.ok (true,
        { s with
          items := genericStackItemsPtr.heapItems
          heapItems := some blk
          lengthl := heapl
          heapl := heapl })
  else
    Outcome.ok (false, { s with heapItems := none, errori := 1 })

/-- The function `_GENERICSTACK_EXTEND_HEAP` (lines 279-297): `realloc` of `items`.  A
block can be reallocated only through a pointer `malloc` returned; `realloc(NULL, n)` is
`malloc(n)`.  On failure the old block is untouched and `heapItems` is set back to `items`. -/
def _GENERICSTACK_EXTEND_HEAP (cfg : genericStackConfig) (allocOk : Bool) (s : genericStack)
    (heapl : Nat) : Outcome (Bool × genericStack) :=
  match s.items with
  | genericStackItemsPtr.heapItems =>
    match s.heapItems with
    | none => Outcome.undefined
    | some blk =>
      if allocOk then
        Outcome.ok (true,
          { s with
            heapItems := some (blk.take (allocItems cfg heapl) ++
              List.replicate (allocItems cfg heapl - blk.length) freshItem)
            lengthl := heapl
            heapl := heapl })
      else
        Outcome.ok (false, { s with errori := 1 })
  | genericStackItemsPtr.NULL =>
    if allocOk then
      Outcome.ok (true,
        { s with
          items := genericStackItemsPtr.heapItems
          heapItems := some (List.replicate (allocItems cfg heapl) freshItem)
          lengthl := heapl
          heapl := heapl })
    else
      Outcome.ok (false, { s with heapItems := none, errori := 1 })
  | genericStackItemsPtr.defaultItems => Outcome.undefined
  | genericStackItemsPtr.freed => Outcome.undefined

/-- The loop `while (heapl < wantedl) heapl *= 2;` of `_GENERICSTACK_EXTEND` (lines
324-335), one unit of fuel per iteration.  With `GENERICSTACK_PARANOID` a product below
`previousHeapl` ends the loop with `heapl = 0`. -/
def doublingLoop (cfg : genericStackConfig) (wantedl : Nat) : Nat → Nat → Nat → Outcome Nat
  | 0, heapl, _ => if heapl < wantedl then Outcome.outOfFuel else Outcome.ok heapl
  | fuel + 1, heapl, previousHeapl =>
    if heapl < wantedl then
      if cfg.GENERICSTACK_PARANOID ∧ sizeMul cfg heapl 2 < previousHeapl then Outcome.ok 0
      else doublingLoop cfg wantedl fuel (sizeMul cfg heapl 2) (sizeMul cfg heapl 2)
    else Outcome.ok heapl

/-- The computation of the new heap length in `_GENERICSTACK_EXTEND` (lines 310-336):
`wantedl` itself when `!(wantedl & (wantedl - 1))`, otherwise the doubling loop from 1. -/
def newHeapl (cfg : genericStackConfig) (fuel : Nat) (wantedl : Nat) : Outcome Nat :=
  if wantedl &&& sizeSub cfg wantedl 1 = 0 then Outcome.ok wantedl
  else doublingLoop cfg wantedl fuel 1 1

/-- The first half of `_GENERICSTACK_EXTEND` (lines 302-346): the capacity decision. -/
def extendCapacity (cfg : genericStackConfig) (fuel : Nat) (allocOk : Bool) (s : genericStack)
    (wantedl : Nat) : Outcome (Bool × genericStack) :=
  if wantedl ≤ cfg.GENERICSTACK_DEFAULT_LENGTH then Outcome.ok (true, s)
  else if wantedl ≤ s.heapl then Outcome.ok (true, s)
  else
    (newHeapl cfg fuel wantedl).bind fun heapl =>
      if heapl = 0 then Outcome.ok (false, { s with errori := 1 })
      else if s.heapItems = none then _GENERICSTACK_CREATE_HEAP cfg allocOk s heapl
      else _GENERICSTACK_EXTEND_HEAP cfg allocOk s heapl

/-- The function `_GENERICSTACK_EXTEND` (lines 299-355): the capacity decision, then,
whatever its result, the sentinel fill of `[usedl, targetIndicel - 1]` when
`targetIndicel > usedl`. -/
def _GENERICSTACK_EXTEND (cfg : genericStackConfig) (fuel : Nat) (allocOk : Bool)
    (s : genericStack) (wantedl targetIndicel : Nat) : Outcome (Bool × genericStack) :=
  (extendCapacity cfg fuel allocOk s wantedl).bind fun r =>
    if r.2.usedl < targetIndicel then
      (_GENERICSTACK_NA_MEMSET cfg r.2 r.2.usedl (sizeSub cfg targetIndicel 1)).bind fun s2 =>
        Outcome.ok (r.1, s2)
    else Outcome.ok r

/-- The function `_GENERICSTACK_INIT` (lines 357-369), applied to the memory of a stack. -/
def _GENERICSTACK_INIT (cfg : genericStackConfig) (s : genericStack) : genericStack :=
  if 0 < cfg.GENERICSTACK_DEFAULT_LENGTH then
    { s with
      items := genericStackItemsPtr.defaultItems
      heapItems := none
      lengthl := cfg.GENERICSTACK_DEFAULT_LENGTH
      initialLengthl := cfg.GENERICSTACK_DEFAULT_LENGTH
      errori := 0
      usedl := 0
      heapl := 0 }
  else
    { s with
      items := genericStackItemsPtr.NULL
      heapItems := none
      lengthl := 0
      initialLengthl := 0
      errori := 0
      usedl := 0
      heapl := 0 }

/-- The memory `malloc(sizeof(genericStack_t))` returns: an embedded array of
`GENERICSTACK_DEFAULT_LENGTH` items that were never written.  The other fields are
indeterminate in C; `_GENERICSTACK_INIT` assigns every one of them. -/
def rawStack (cfg : genericStackConfig) : genericStack :=
  { items := genericStackItemsPtr.NULL
    defaultItems := List.replicate cfg.GENERICSTACK_DEFAULT_LENGTH freshItem
    heapItems := none
    initialLengthl := 0
    heapl := 0
    lengthl := 0
    usedl := 0
    errori := 0 }

/-- The function `_GENERICSTACK_NEW` (lines 403-411); `none` is the `NULL` returned when
`malloc` fails. -/
def _GENERICSTACK_NEW (cfg : genericStackConfig) (allocOk : Bool) : Option genericStack :=
  if allocOk then some (_GENERICSTACK_INIT cfg (rawStack cfg)) else none

/-- The function `_GENERICSTACK_INIT_SIZED` (lines 371-382). -/
def _GENERICSTACK_INIT_SIZED (cfg : genericStackConfig) (fuel : Nat) (allocOk : Bool)
    (s : genericStack) (lengthl : Nat) : Outcome (Bool × genericStack) :=
  (_GENERICSTACK_EXTEND cfg fuel allocOk (_GENERICSTACK_INIT cfg s) lengthl 0).bind fun r =>
    if r.1 then Outcome.ok (true, { r.2 with initialLengthl := lengthl })
    else Outcome.ok r

/-- The function `_GENERICSTACK_NEW_SIZED` (lines 413-426): `structOk` is the outcome of the
`malloc` of the structure, `allocOk` that of the heap block.  A result of `none` is `NULL`. -/
def _GENERICSTACK_NEW_SIZED (cfg : genericStackConfig) (fuel : Nat) (structOk allocOk : Bool)
    (lengthl : Nat) : Outcome (Option genericStack) :=
  if structOk then
    (_GENERICSTACK_EXTEND cfg fuel allocOk (_GENERICSTACK_INIT cfg (rawStack cfg)) lengthl 0).bind
      fun r => if r.1 then Outcome.ok (some r.2) else Outcome.ok none
  else Outcome.ok none

/-- The function `_GENERICSTACK_RESET` (lines 384-392) on a non-null stack.  The heap
block is freed and `heapItems` set to `NULL`; `items` is not assigned, so when it pointed
to the heap block it now points to freed memory. -/
def _GENERICSTACK_RESET (s : genericStack) : genericStack :=
  match s.heapItems with
  | some _ =>
    { s with
      items := if s.items = genericStackItemsPtr.heapItems then genericStackItemsPtr.freed
               else s.items
      heapItems := none
      usedl := 0
      heapl := 0
      lengthl := 0 }
  | none => { s with usedl := 0, heapl := 0, lengthl := 0 }

/-- The function `_GENERICSTACK_RELAX` (lines 428-432) on a non-null stack. -/
def _GENERICSTACK_RELAX (s : genericStack) : genericStack := { s with usedl := 0 }

/-- The functions `_GENERICSTACK_SET_##itemType` generated by `__GENERICSTACK_SET_BY_TYPE`
(lines 434-478; `__GENERICSTACK_SET_BY_TYPEP` differs only in taking `var` through a
pointer): `itemType` and `dst` are the parameters of the generating construct.  The header
instantiates it (lines 526-549) at `(CHAR, c)`, `(SHORT, s)`, `(INT, i)`, `(LONG, l)`,
`(LONG_DOUBLE, ld)`, `(FLOAT, f)`, `(DOUBLE, d)`, `(PTR, p)`, `(ARRAY, a)`, `(LONG_LONG, ll)`,
`(_BOOL, b)`, `(FLOAT__COMPLEX, fc)`, `(DOUBLE__COMPLEX, dc)`, `(LONG_DOUBLE__COMPLEX, ldc)`
and `(CUSTOM, custom)`. -/
def __GENERICSTACK_SET_BY_TYPE (cfg : genericStackConfig) (fuel : Nat) (allocOk : Bool)
    (itemType : genericStackItemType) (dst : genericStackItemMember)
    (s : genericStack) (var : Int) (indexl : Nat) : Outcome (Bool × genericStack) :=
  let lengthl := sizeAdd cfg indexl 1
  if cfg.GENERICSTACK_PARANOID ∧ lengthl < indexl then
    Outcome.ok (false, { s with errori := 1 })
  else
    (_GENERICSTACK_EXTEND cfg fuel allocOk s lengthl indexl).bind fun r =>
      if r.1 then
        let s2 := if r.2.usedl < lengthl then { r.2 with usedl := lengthl } else r.2
        (s2.modify indexl fun _ =>
            { type := some itemType, u := genericStackItemUnion.stored dst var }).bind
          fun s3 => Outcome.ok (true, s3)
      else Outcome.ok (false, r.2)

/-- The function `_GENERICSTACK_SET_NA` (lines 552-577): only the discriminant is assigned. -/
def _GENERICSTACK_SET_NA (cfg : genericStackConfig) (fuel : Nat) (allocOk : Bool)
    (s : genericStack) (indexl : Nat) : Outcome (Bool × genericStack) :=
  let lengthl := sizeAdd cfg indexl 1
  if cfg.GENERICSTACK_PARANOID ∧ lengthl < indexl then
    Outcome.ok (false, { s with errori := 1 })
  else
    (_GENERICSTACK_EXTEND cfg fuel allocOk s lengthl indexl).bind fun r =>
      if r.1 then
        let s2 := if r.2.usedl < lengthl then { r.2 with usedl := lengthl } else r.2
        (s2.modify indexl fun item => { item with type := some GENERICSTACKITEMTYPE_NA }).bind
          fun s3 => Outcome.ok (true, s3)
      else Outcome.ok (false, r.2)

/-- The instance `_GENERICSTACK_SET_INT` (line 528). -/
def _GENERICSTACK_SET_INT (cfg : genericStackConfig) (fuel : Nat) (allocOk : Bool)
    (s : genericStack) (var : Int) (indexl : Nat) : Outcome (Bool × genericStack) :=
  __GENERICSTACK_SET_BY_TYPE cfg fuel allocOk GENERICSTACKITEMTYPE_INT genericStackItemMember.i
    s var indexl

/-- The accessors `GENERICSTACK_ERROR`, `GENERICSTACK_INITIAL_LENGTH`,
`GENERICSTACK_HEAP_LENGTH`, `GENERICSTACK_LENGTH` and `GENERICSTACK_USED` (lines 582-587)
are the fields `errori`, `initialLengthl`, `heapl`, `lengthl` and `usedl`;
`GENERICSTACK_ERROR_RESET` (line 583) assigns 0 to `errori`. -/
def GENERICSTACK_ERROR_RESET (s : genericStack) : genericStack := { s with errori := 0 }

/-- Read of the member `dst` of a union: defined when `dst` is the member last stored. -/
def genericStackItemUnion.read (u : genericStackItemUnion) (dst : genericStackItemMember) :
    Outcome Int :=
  match u with
  | genericStackItemUnion.stored dst2 var => if dst2 = dst then Outcome.ok var else Outcome.undefined
  | genericStackItemUnion.indeterminate => Outcome.undefined
  | genericStackItemUnion.zeroBytes => Outcome.undefined

/-- The accessors `GENERICSTACK_GET_*` (lines 596-620): `items[indexl].u.dst`. -/
def GENERICSTACK_GET (s : genericStack) (dst : genericStackItemMember) (indexl : Nat) :
    Outcome Int :=
  (s.load indexl).bind fun item => item.u.read dst

/-- The accessor `GENERICSTACK_GET_INT` (line 598). -/
def GENERICSTACK_GET_INT (s : genericStack) (indexl : Nat) : Outcome Int :=
  GENERICSTACK_GET s genericStackItemMember.i indexl

/-- The accessor `GENERICSTACK_GET_NA` (line 622): the index itself, no memory access. -/
def GENERICSTACK_GET_NA (_s : genericStack) (indexl : Nat) : Nat := indexl

/-- The operations `GENERICSTACK_PUSH_*` (lines 657-681): the setter at index `usedl`. -/
def GENERICSTACK_PUSH (cfg : genericStackConfig) (fuel : Nat) (allocOk : Bool)
    (itemType : genericStackItemType) (dst : genericStackItemMember)
    (s : genericStack) (var : Int) : Outcome (Bool × genericStack) :=
  __GENERICSTACK_SET_BY_TYPE cfg fuel allocOk itemType dst s var s.usedl

/-- The operation `GENERICSTACK_PUSH_INT` (line 659). -/
def GENERICSTACK_PUSH_INT (cfg : genericStackConfig) (fuel : Nat) (allocOk : Bool)
    (s : genericStack) (var : Int) : Outcome (Bool × genericStack) :=
  _GENERICSTACK_SET_INT cfg fuel allocOk s var s.usedl

/-- The operation `GENERICSTACK_PUSH_NA` (line 682). -/
def GENERICSTACK_PUSH_NA (cfg : genericStackConfig) (fuel : Nat) (allocOk : Bool)
    (s : genericStack) : Outcome (Bool × genericStack) :=
  _GENERICSTACK_SET_NA cfg fuel allocOk s s.usedl

/-- The operations `GENERICSTACK_POP_*` (lines 687-709): `usedl` is decremented first, in
`size_t`, and the getter reads at the new `usedl`. -/
def GENERICSTACK_POP (cfg : genericStackConfig) (s : genericStack)
    (dst : genericStackItemMember) : Outcome (Int × genericStack) :=
  let s1 := { s with usedl := sizeSub cfg s.usedl 1 }
  (GENERICSTACK_GET s1 dst s1.usedl).bind fun var => Outcome.ok (var, s1)

/-- The operation `GENERICSTACK_POP_INT` (line 689). -/
def GENERICSTACK_POP_INT (cfg : genericStackConfig) (s : genericStack) :
    Outcome (Int × genericStack) :=
  GENERICSTACK_POP cfg s genericStackItemMember.i

/-- The operation `GENERICSTACK_POP_NA` (line 710). -/
def GENERICSTACK_POP_NA (cfg : genericStackConfig) (s : genericStack) : Nat × genericStack :=
  let s1 := { s with usedl := sizeSub cfg s.usedl 1 }
  (GENERICSTACK_GET_NA s1 s1.usedl, s1)

/-- The accessor `GENERICSTACKITEMTYPE` (line 724): `items[index].type`. -/
def GENERICSTACKITEMTYPE (s : genericStack) (index : Nat) : Outcome genericStackItemType :=
  (s.load index).bind fun item =>
    match item.type with
    | some t => Outcome.ok t
    | none => Outcome.undefined

/-- The predicate `GENERICSTACK_EXISTS` (line 759) on a non-null stack. -/
def GENERICSTACK_EXISTS (s : genericStack) (i : Nat) : Bool := decide (i < s.usedl)

/-- The predicates `GENERICSTACK_IS_*` (lines 760-783): the conjunction short-circuits, so
the discriminant is read only when the slot exists. -/
def GENERICSTACK_IS (s : genericStack) (itemType : genericStackItemType) (i : Nat) :
    Outcome Bool :=
  if GENERICSTACK_EXISTS s i then
    (GENERICSTACKITEMTYPE s i).bind fun t => Outcome.ok (decide (t = itemType))
  else Outcome.ok false

/-- The predicate `GENERICSTACK_IS_NA` (line 760). -/
def GENERICSTACK_IS_NA (s : genericStack) (i : Nat) : Outcome Bool :=
  GENERICSTACK_IS s GENERICSTACKITEMTYPE_NA i

/-- Index normalisation of `GENERICSTACK_SWITCH` (lines 849-857): the argument is cast to
`int`; when negative, `usedl` is added in `size_t` and the sum converted back to `int`. -/
def switchIndex (cfg : genericStackConfig) (s : genericStack) (i : Int) : Int :=
  if toInt i < 0 then toInt (sizeAdd cfg s.usedl (intToSize cfg (toInt i)) : Nat)
  else toInt i

/-- The statement `GENERICSTACK_SWITCH` (lines 848-871).  The range test compares each
`int` index with `usedl` after conversion to `size_t`. -/
def GENERICSTACK_SWITCH (cfg : genericStackConfig) (s : genericStack) (i1 i2 : Int) :
    Outcome genericStack :=
  let index1 := switchIndex cfg s i1
  let index2 := switchIndex cfg s i2
  if index1 < 0 ∨ s.usedl ≤ intToSize cfg index1 ∨ index2 < 0 ∨ s.usedl ≤ intToSize cfg index2 then
    Outcome.ok { s with errori := 1 }
  else if index1 ≠ index2 then
    (s.load index1.toNat).bind fun item =>
      (s.load index2.toNat).bind fun item2 =>
        (s.modify index1.toNat fun _ => item2).bind fun s2 =>
          s2.modify index2.toNat fun _ => item
  else Outcome.ok s

/-- The number `p` is the smallest power of two that is at least `n`. -/
def isSmallestPowerOfTwoGE (n p : Nat) : Prop :=
  (∃ m, p = 2 ^ m) ∧ n ≤ p ∧ ∀ m, n ≤ 2 ^ m → p ≤ 2 ^ m

/-- The representation invariant of a `genericStack_t` object: the embedded array has
`GENERICSTACK_DEFAULT_LENGTH` items, the size fields hold `size_t` values, and each block
is a C object, so it has fewer than `2 ^ sizeBits` items. -/
def genericStack.wellFormed (cfg : genericStackConfig) (s : genericStack) : Prop :=
  s.defaultItems.length = cfg.GENERICSTACK_DEFAULT_LENGTH ∧
  s.defaultItems.length < sizeModulus cfg ∧
  s.usedl < sizeModulus cfg ∧ s.lengthl < sizeModulus cfg ∧ s.heapl < sizeModulus cfg ∧
  s.initialLengthl < sizeModulus cfg ∧
  (s.heapItems.getD []).length < sizeModulus cfg

instance (cfg : genericStackConfig) (s : genericStack) : Decidable (s.wellFormed cfg) := by
  unfold genericStack.wellFormed
  infer_instance

/-- The populated slots lie within the capacity the growth decision of
`_GENERICSTACK_EXTEND` compares with: `usedl` is at most the larger of
`GENERICSTACK_DEFAULT_LENGTH` and `heapl`.  It follows from the invariants of the data
model (`used <= length`, and `length` is `DefaultLength` or `heapLength`). -/
def genericStack.withinCapacity (cfg : genericStackConfig) (s : genericStack) : Prop :=
  s.usedl ≤ max cfg.GENERICSTACK_DEFAULT_LENGTH s.heapl

instance (cfg : genericStackConfig) (s : genericStack) :
    Decidable (s.withinCapacity cfg) := by
  unfold genericStack.withinCapacity
  infer_instance

/-- A stack as `GENERICSTACK_NEW` returns it in the shipped configuration. -/
def newStack : genericStack := _GENERICSTACK_INIT defaultConfig (rawStack defaultConfig)

/-- The stack `newStack` after `GENERICSTACK_SET_INT(stackp, 42, 5)`. -/
def sparseStack : genericStack :=
  { items := genericStackItemsPtr.defaultItems
    defaultItems := List.replicate 5 zeroItem ++
      { type := some GENERICSTACKITEMTYPE_INT,
        u := genericStackItemUnion.stored genericStackItemMember.i 42 } ::
      List.replicate 122 freshItem
    heapItems := none
    initialLengthl := 128
    heapl := 0
    lengthl := 128
    usedl := 6
    errori := 0 }

/-- The stack `newStack` after `GENERICSTACK_PUSH_INT(stackp, 42)`. -/
def onePushStack : genericStack :=
  { items := genericStackItemsPtr.defaultItems
    defaultItems :=
      { type := some GENERICSTACKITEMTYPE_INT,
        u := genericStackItemUnion.stored genericStackItemMember.i 42 } ::
      List.replicate 127 freshItem
    heapItems := none
    initialLengthl := 128
    heapl := 0
    lengthl := 128
    usedl := 1
    errori := 0 }

/-- One push of a sequence: `payload` is `none` for `GENERICSTACK_PUSH_NA`, otherwise the
item type, union member and value of a typed push; `fuel` and `allocOk` are those of the call. -/
structure PushCall where
  fuel : Nat
  allocOk : Bool
  payload : Option (genericStackItemType × genericStackItemMember × Int)
  deriving DecidableEq

/-- Run one push. -/
def PushCall.run (cfg : genericStackConfig) (s : genericStack) (call : PushCall) :
    Outcome (Bool × genericStack) :=
  match call.payload with
  | none => GENERICSTACK_PUSH_NA cfg call.fuel call.allocOk s
  | some (itemType, dst, var) =>
    GENERICSTACK_PUSH cfg call.fuel call.allocOk itemType dst s var

/-- Run a sequence of pushes, collecting the return code of each. -/
def runPushes (cfg : genericStackConfig) :
    genericStack → List PushCall → Outcome (List Bool × genericStack)
  | s, [] => Outcome.ok ([], s)
  | s, call :: rest =>
    (call.run cfg s).bind fun r =>
      (runPushes cfg r.2 rest).bind fun q => Outcome.ok (r.1 :: q.1, q.2)

/-- A stack that lives in its embedded array and has never allocated. -/
def genericStack.inline (cfg : genericStackConfig) (s : genericStack) : Prop :=
  s.items = genericStackItemsPtr.defaultItems ∧ s.heapItems = none ∧ s.heapl = 0 ∧
  s.lengthl = cfg.GENERICSTACK_DEFAULT_LENGTH ∧
  s.defaultItems.length = cfg.GENERICSTACK_DEFAULT_LENGTH

/-- An `int` item of value `var`. -/
def intItem (var : Int) : genericStackItem :=
  { type := some GENERICSTACKITEMTYPE_INT,
    u := genericStackItemUnion.stored genericStackItemMember.i var }

/-- The call `GENERICSTACK_PUSH_INT(stackp, var)` with an allocator that succeeds. -/
def intPush (var : Int) : PushCall :=
  { fuel := 64
    allocOk := true
    payload := some (GENERICSTACKITEMTYPE_INT, genericStackItemMember.i, var) }

/-- The stack `newStack` after 128 pushes of the `int` 7: the embedded array is full. -/
def fullStack : genericStack :=
  { items := genericStackItemsPtr.defaultItems
    defaultItems := List.replicate 128 (intItem 7)
    heapItems := none
    initialLengthl := 128
    heapl := 0
    lengthl := 128
    usedl := 128
    errori := 0 }

/-- The stack `fullStack` after `_GENERICSTACK_EXTEND(stackp, 129, 128)`: migrated to a heap
block of 256 items, the first 128 copied. -/
def migratedStack : genericStack :=
  { items := genericStackItemsPtr.heapItems
    defaultItems := List.replicate 128 (intItem 7)
    heapItems := some (List.replicate 128 (intItem 7) ++ List.replicate 128 freshItem)
    initialLengthl := 128
    heapl := 256
    lengthl := 256
    usedl := 128
    errori := 0 }

/-- The stack `fullStack` after `GENERICSTACK_SET_INT(stackp, 42, 128)`. -/
def grownStack : genericStack :=
  { items := genericStackItemsPtr.heapItems
    defaultItems := List.replicate 128 (intItem 7)
    heapItems := some (List.replicate 128 (intItem 7) ++ intItem 42 ::
      List.replicate 127 freshItem)
    initialLengthl := 128
    heapl := 256
    lengthl := 256
    usedl := 129
    errori := 0 }

/-- The stack `sparseStack` after `GENERICSTACK_PUSH_INT(stackp, 9)`. -/
def pushedSparseStack : genericStack :=
  { items := genericStackItemsPtr.defaultItems
    defaultItems := List.replicate 5 zeroItem ++ intItem 42 :: intItem 9 ::
      List.replicate 121 freshItem
    heapItems := none
    initialLengthl := 128
    heapl := 0
    lengthl := 128
    usedl := 7
    errori := 0 }

/-- The value of `GENERICSTACK_HEAP_LENGTH` after each push of a sequence. -/
def heapLengthTrace (cfg : genericStackConfig) :
    genericStack → List PushCall → Outcome (List Nat)
  | _, [] => Outcome.ok []
  | s, call :: rest =>
    (call.run cfg s).bind fun r =>
      (heapLengthTrace cfg r.2 rest).bind fun t => Outcome.ok (r.2.heapl :: t)

/-- The index an argument of `Switch` stands for, in the words of the specification: `i`
itself when `i >= 0`, `used + i` when `i < 0`. -/
def normalisedIndex (usedl : Nat) (i : Int) : Int := if i < 0 then (usedl : Int) + i else i

/-- The stack `newStack` after pushing the `int` values 10, 20 and 30. -/
def threeStack : genericStack :=
  { items := genericStackItemsPtr.defaultItems
    defaultItems := intItem 10 :: intItem 20 :: intItem 30 :: List.replicate 125 freshItem
    heapItems := none
    initialLengthl := 128
    heapl := 0
    lengthl := 128
    usedl := 3
    errori := 0 }

/-- The stack `threeStack` after `GENERICSTACK_SWITCH(stackp, -1, -2)`. -/
def switchedStack : genericStack :=
  { items := genericStackItemsPtr.defaultItems
    defaultItems := intItem 10 :: intItem 30 :: intItem 20 :: List.replicate 125 freshItem
    heapItems := none
    initialLengthl := 128
    heapl := 0
    lengthl := 128
    usedl := 3
    errori := 0 }

/-- A stack of `2^31 + 1` items on a heap block of `2^32` items: slot `2^31`, the top, holds
the `int` 42 and every slot below it the `int` 7. -/
def hugeStack : genericStack :=
  { items := genericStackItemsPtr.heapItems
    defaultItems := List.replicate 128 freshItem
    heapItems := some (List.replicate 2147483648 (intItem 7) ++ intItem 42 ::
      List.replicate 2147483647 freshItem)
    initialLengthl := 128
    heapl := 4294967296
    lengthl := 4294967296
    usedl := 2147483649
    errori := 0 }

/-- The shipped configuration built with `GENERICSTACK_PARANOID` defined. -/
def paranoidConfig : genericStackConfig :=
  { sizeBits := 64
    sizeofItem := 32
    GENERICSTACK_DEFAULT_LENGTH := 128
    GENERICSTACK_PARANOID := true
    GENERICSTACK_ZERO_INT_IS_NOT_ZERO_BYTES := false }

/-- The shipped configuration built with `GENERICSTACK_DEFAULT_LENGTH` defined as 0: no
embedded array in the structure. -/
def zeroDefaultConfig : genericStackConfig :=
  { sizeBits := 64
    sizeofItem := 32
    GENERICSTACK_DEFAULT_LENGTH := 0
    GENERICSTACK_PARANOID := false
    GENERICSTACK_ZERO_INT_IS_NOT_ZERO_BYTES := false }

/-- One call of an operation that changes a stack, with its arguments: `fuel` and `allocOk`
are those of the call, as in the setters. -/
inductive Operation
  | set (fuel : Nat) (allocOk : Bool) (itemType : genericStackItemType)
      (dst : genericStackItemMember) (var : Int) (indexl : Nat)
  | setNA (fuel : Nat) (allocOk : Bool) (indexl : Nat)
  | push (fuel : Nat) (allocOk : Bool) (itemType : genericStackItemType)
      (dst : genericStackItemMember) (var : Int)
  | pushNA (fuel : Nat) (allocOk : Bool)
  | pop (dst : genericStackItemMember)
  | popNA
  | relax
  | reset
  | switch (i1 i2 : Int)
  deriving DecidableEq

/-- The stack after one operation, whatever the operation returned (success or failure). -/
def Operation.run (cfg : genericStackConfig) (s : genericStack) : Operation → Outcome genericStack
  | Operation.set fuel allocOk itemType dst var indexl =>
    (__GENERICSTACK_SET_BY_TYPE cfg fuel allocOk itemType dst s var indexl).bind fun r =>
      Outcome.ok r.2
  | Operation.setNA fuel allocOk indexl =>
    (_GENERICSTACK_SET_NA cfg fuel allocOk s indexl).bind fun r => Outcome.ok r.2
  | Operation.push fuel allocOk itemType dst var =>
    (GENERICSTACK_PUSH cfg fuel allocOk itemType dst s var).bind fun r => Outcome.ok r.2
  | Operation.pushNA fuel allocOk =>
    (GENERICSTACK_PUSH_NA cfg fuel allocOk s).bind fun r => Outcome.ok r.2
  | Operation.pop dst => (GENERICSTACK_POP cfg s dst).bind fun r => Outcome.ok r.2
  | Operation.popNA => Outcome.ok (GENERICSTACK_POP_NA cfg s).2
  | Operation.relax => Outcome.ok (_GENERICSTACK_RELAX s)
  | Operation.reset => Outcome.ok (_GENERICSTACK_RESET s)
  | Operation.switch i1 i2 => GENERICSTACK_SWITCH cfg s i1 i2

/-- The stack after a sequence of operations. -/
def runOperations (cfg : genericStackConfig) :
    genericStack → List Operation → Outcome genericStack
  | s, [] => Outcome.ok s
  | s, op :: rest => (op.run cfg s).bind fun s1 => runOperations cfg s1 rest

/-- The stack `newStack` after `GENERICSTACK_RESET` and `GENERICSTACK_PUSH_INT(stackp, 42)`:
one populated slot in the embedded array, and a length of 0. -/
def resetPushedStack : genericStack :=
  { items := genericStackItemsPtr.defaultItems
    defaultItems := intItem 42 :: List.replicate 127 freshItem
    heapItems := none
    initialLengthl := 128
    heapl := 0
    lengthl := 0
    usedl := 1
    errori := 0 }

/-- The stack `grownStack` after `GENERICSTACK_RESET`: the heap block is freed and `items`
still holds its address. -/
def resetGrownStack : genericStack :=
  { items := genericStackItemsPtr.freed
    defaultItems := List.replicate 128 (intItem 7)
    heapItems := none
    initialLengthl := 128
    heapl := 0
    lengthl := 0
    usedl := 0
    errori := 0 }

/-- A stack as `GENERICSTACK_NEW` returns it when `GENERICSTACK_DEFAULT_LENGTH` is 0. -/
def zeroDefaultStack : genericStack :=
  _GENERICSTACK_INIT zeroDefaultConfig (rawStack zeroDefaultConfig)

/-- The stack `resetGrownStack` after `GENERICSTACK_SET_INT(stackp, 42, 128)`: a fresh heap
block of 256 items, slots 0 to 127 zeroed by the sentinel fill. -/
def regrownStack : genericStack :=
  { items := genericStackItemsPtr.heapItems
    defaultItems := List.replicate 128 (intItem 7)
    heapItems := some (List.replicate 128 zeroItem ++ intItem 42 :: List.replicate 127 freshItem)
    initialLengthl := 128
    heapl := 256
    lengthl := 256
    usedl := 129
    errori := 0 }

/-- The stack `threeStack` after `GENERICSTACK_RELAX` and `GENERICSTACK_PUSH_INT(stackp, 42)`. -/
def relaxedPushedStack : genericStack :=
  { items := genericStackItemsPtr.defaultItems
    defaultItems := intItem 42 :: intItem 20 :: intItem 30 :: List.replicate 125 freshItem
    heapItems := none
    initialLengthl := 128
    heapl := 0
    lengthl := 128
    usedl := 1
    errori := 0 }

/-- The stack `threeStack` after the invalid `GENERICSTACK_SWITCH(stackp, 0, 7)`: the error
flag is set. -/
def erroredStack : genericStack :=
  { items := genericStackItemsPtr.defaultItems
    defaultItems := intItem 10 :: intItem 20 :: intItem 30 :: List.replicate 125 freshItem
    heapItems := none
    initialLengthl := 128
    heapl := 0
    lengthl := 128
    usedl := 3
    errori := 1 }

/-- A batch of successful operations of every kind. -/
def batchOperations : List Operation :=
  [Operation.push 64 true GENERICSTACKITEMTYPE_INT genericStackItemMember.i 40,
    Operation.switch (-1) (-2),
    Operation.pop genericStackItemMember.i,
    Operation.set 64 true GENERICSTACKITEMTYPE_INT genericStackItemMember.i 5 0,
    Operation.relax,
    Operation.pushNA 64 true,
    Operation.reset,
    Operation.push 64 true GENERICSTACKITEMTYPE_INT genericStackItemMember.i 9]

/-- The stack `erroredStack` after `batchOperations`. -/
def batchedStack : genericStack :=
  { items := genericStackItemsPtr.defaultItems
    defaultItems := intItem 9 :: intItem 20 :: intItem 40 :: intItem 30 ::
      List.replicate 124 freshItem
    heapItems := none
    initialLengthl := 128
    heapl := 0
    lengthl := 0
    usedl := 1
    errori := 1 }

/-- The stack `newStack` after `GENERICSTACK_SET_INT(stackp, 42, 128)` with a failing
`malloc`: the call returned failure, and the whole embedded array has been zeroed. -/
def failedFillStack : genericStack :=
  { items := genericStackItemsPtr.defaultItems
    defaultItems := List.replicate 128 zeroItem
    heapItems := none
    initialLengthl := 128
    heapl := 0
    lengthl := 128
    usedl := 0
    errori := 1 }

/-- The stack `newStack` after `GENERICSTACK_RESET`. -/
def resetNewStack : genericStack :=
  { items := genericStackItemsPtr.defaultItems
    defaultItems := List.replicate 128 freshItem
    heapItems := none
    initialLengthl := 128
    heapl := 0
    lengthl := 0
    usedl := 0
    errori := 0 }

/-- The stack `newStack` after `GENERICSTACK_INIT_SIZED(stackp, 10)`. -/
def initSizedStack : genericStack :=
  { items := genericStackItemsPtr.defaultItems
    defaultItems := List.replicate 128 freshItem
    heapItems := none
    initialLengthl := 10
    heapl := 0
    lengthl := 128
    usedl := 0
    errori := 0 }

/-- The heap block is present and `items` designates it: the heap block is the active
storage. -/
def genericStack.onHeap (s : genericStack) : Prop :=
  s.heapItems ≠ none ∧ s.items = genericStackItemsPtr.heapItems

/-- When the heap block is present, `items` designates it. -/
def genericStack.heapCoherent (s : genericStack) : Prop :=
  s.heapItems ≠ none → s.items = genericStackItemsPtr.heapItems

/-- The shape of the heap bookkeeping: `heapl` is 0 or a power of two above
`GENERICSTACK_DEFAULT_LENGTH`, and the heap block is present exactly when `heapl > 0`. -/
def genericStack.heapShape (cfg : genericStackConfig) (s : genericStack) : Prop :=
  (s.heapl = 0 ∨ ((∃ k, s.heapl = 2 ^ k) ∧ cfg.GENERICSTACK_DEFAULT_LENGTH < s.heapl)) ∧
  (s.heapItems ≠ none ↔ 0 < s.heapl)

/-- What a piece of code may do to the heap bookkeeping: leave the presence of the heap
block, `heapl` and `items` as they were, or end with a heap block that `items` designates
and whose `heapl` is a power of two above `GENERICSTACK_DEFAULT_LENGTH`. -/
def heapStep (cfg : genericStackConfig) (s s2 : genericStack) : Prop :=
  ((s2.heapItems = none ↔ s.heapItems = none) ∧ s2.heapl = s.heapl ∧ s2.items = s.items) ∨
  (s2.heapItems ≠ none ∧ s2.items = genericStackItemsPtr.heapItems ∧
    (∃ k, s2.heapl = 2 ^ k) ∧ cfg.GENERICSTACK_DEFAULT_LENGTH < s2.heapl)

/-- A stack as a successful construction leaves it: `GENERICSTACK_NEW`, `GENERICSTACK_INIT`
on the memory of a structure, or one of the sized constructions with a `size_t` length. -/
inductive constructed (cfg : genericStackConfig) : genericStack → Prop
  | new (s : genericStack) : _GENERICSTACK_NEW cfg true = some s → constructed cfg s
  | init (s0 : genericStack) :
      s0.defaultItems.length = cfg.GENERICSTACK_DEFAULT_LENGTH →
      constructed cfg (_GENERICSTACK_INIT cfg s0)
  | newSized (fuel : Nat) (allocOk : Bool) (lengthl : Nat) (s : genericStack) :
      lengthl < sizeModulus cfg →
      _GENERICSTACK_NEW_SIZED cfg fuel true allocOk lengthl = Outcome.ok (some s) →
      constructed cfg s
  | initSized (fuel : Nat) (allocOk : Bool) (lengthl : Nat) (s0 s : genericStack) :
      s0.defaultItems.length = cfg.GENERICSTACK_DEFAULT_LENGTH →
      lengthl < sizeModulus cfg →
      _GENERICSTACK_INIT_SIZED cfg fuel allocOk s0 lengthl = Outcome.ok (true, s) →
      constructed cfg s

/-- The states reachable from a successful construction by operations, each permitted in
the state it is applied to and running to a state (whatever it returned). -/
inductive reachableBy (cfg : genericStackConfig)
    (permitted : genericStack → Operation → Prop) : genericStack → Prop
  | start (s : genericStack) : constructed cfg s → reachableBy cfg permitted s
  | step (s s2 : genericStack) (op : Operation) :
      reachableBy cfg permitted s → permitted s op → op.run cfg s = Outcome.ok s2 →
      reachableBy cfg permitted s2

/-- The stack `GENERICSTACK_NEW_SIZED(stackp, 200)` returns in the shipped configuration. -/
def sizedStack : genericStack :=
  { items := genericStackItemsPtr.heapItems
    defaultItems := List.replicate 128 freshItem
    heapItems := some (List.replicate 256 freshItem)
    initialLengthl := 128
    heapl := 256
    lengthl := 256
    usedl := 0
    errori := 0 }

/-- The stack `sizedStack` after `GENERICSTACK_PUSH_INT(stackp, 42)`. -/
def sizedPushedStack : genericStack :=
  { items := genericStackItemsPtr.heapItems
    defaultItems := List.replicate 128 freshItem
    heapItems := some (intItem 42 :: List.replicate 255 freshItem)
    initialLengthl := 128
    heapl := 256
    lengthl := 256
    usedl := 1
    errori := 0 }

/-- The stack `grownStack` after `GENERICSTACK_SET_INT(stackp, 42, 256)` with a failing
`realloc`: failure is returned, and slots 129 to 255 of the heap block have been zeroed. -/
def failedGrowStack : genericStack :=
  { items := genericStackItemsPtr.heapItems
    defaultItems := List.replicate 128 (intItem 7)
    heapItems := some (List.replicate 128 (intItem 7) ++ intItem 42 ::
      List.replicate 127 zeroItem)
    initialLengthl := 128
    heapl := 256
    lengthl := 256
    usedl := 129
    errori := 1 }

/-- Every populated slot lies in the block `items` designates and holds a discriminant
that has been written (a member of the enumeration, not indeterminate memory). -/
def genericStack.populatedDefined (s : genericStack) : Prop :=
  ∀ j, j < s.usedl →
    ∃ (blk : List genericStackItem) (item : genericStackItem) (t : genericStackItemType),
      s.block = some blk ∧ blk[j]? = some item ∧ item.type = some t

/-- The calls the sequences of C24 are made of: any `Set`, `Push`, `Relax` or `Switch`, a
`Pop` when `usedl > 0`, no `Reset`; an index argument is a `size_t` value. -/
def permittedWithoutReset (cfg : genericStackConfig) (s : genericStack) : Operation → Prop
  | Operation.set _ _ _ _ _ indexl => indexl < sizeModulus cfg
  | Operation.setNA _ _ indexl => indexl < sizeModulus cfg
  | Operation.push _ _ _ _ _ => True
  | Operation.pushNA _ _ => True
  | Operation.pop _ => 0 < s.usedl
  | Operation.popNA => 0 < s.usedl
  | Operation.relax => True
  | Operation.reset => False
  | Operation.switch _ _ => True

/-- The stack `threeStack` after the loop variant of `_GENERICSTACK_NA_MEMSET(stackp, 0, 1)`:
the discriminants of slots 0 and 1 are NA, their payloads are kept. -/
def loopFilledStack : genericStack :=
  { items := genericStackItemsPtr.defaultItems
    defaultItems :=
      { type := some GENERICSTACKITEMTYPE_NA,
        u := genericStackItemUnion.stored genericStackItemMember.i 10 } ::
      { type := some GENERICSTACKITEMTYPE_NA,
        u := genericStackItemUnion.stored genericStackItemMember.i 20 } ::
      intItem 30 :: List.replicate 125 freshItem
    heapItems := none
    initialLengthl := 128
    heapl := 0
    lengthl := 128
    usedl := 3
    errori := 0 }

/-- The stack `threeStack` after the `memset` variant of
`_GENERICSTACK_NA_MEMSET(stackp, 0, 1)`: slots 0 and 1 are zero bytes. -/
def zeroFilledStack : genericStack :=
  { items := genericStackItemsPtr.defaultItems
    defaultItems := zeroItem :: zeroItem :: intItem 30 :: List.replicate 125 freshItem
    heapItems := none
    initialLengthl := 128
    heapl := 0
    lengthl := 128
    usedl := 3
    errori := 0 }

/-! ## Auxiliary lemmas -/

@[simp]
theorem Outcome.bind_ok {α β : Type} (a : α) (f : α → Outcome β) :
    (Outcome.ok a).bind f = f a := rfl

@[simp]
theorem Outcome.bind_undefined {α β : Type} (f : α → Outcome β) :
    (Outcome.undefined : Outcome α).bind f = Outcome.undefined := rfl

@[simp]
theorem Outcome.bind_outOfFuel {α β : Type} (f : α → Outcome β) :
    (Outcome.outOfFuel : Outcome α).bind f = Outcome.outOfFuel := rfl

theorem Outcome.bind_eq_ok {α β : Type} {x : Outcome α} {f : α → Outcome β} {b : β}
    (h : x.bind f = Outcome.ok b) : ∃ a, x = Outcome.ok a ∧ f a = Outcome.ok b := by
  cases x with
  | ok a => exact ⟨a, rfl, h⟩
  | undefined => simp at h
  | outOfFuel => simp at h

theorem genericStack.load_eq_ok {s : genericStack} {j : Nat} {item : genericStackItem} :
    s.load j = Outcome.ok item ↔ ∃ blk, s.block = some blk ∧ blk[j]? = some item := by
  unfold genericStack.load
  cases hb : s.block with
  | none => simp
  | some blk =>
    cases hj : blk[j]? with
    | none => simp [hj]
    | some it => simp [hj]

theorem genericStack.block_setBlock {s : genericStack} {blk blk2 : List genericStackItem}
    (h : s.block = some blk) : (s.setBlock blk2).block = some blk2 := by
  unfold genericStack.block at h
  unfold genericStack.setBlock genericStack.block
  cases hi : s.items <;> simp_all

theorem genericStack.setBlock_fields (s : genericStack) (blk2 : List genericStackItem) :
    (s.setBlock blk2).items = s.items ∧ (s.setBlock blk2).usedl = s.usedl ∧
    (s.setBlock blk2).lengthl = s.lengthl ∧ (s.setBlock blk2).heapl = s.heapl ∧
    (s.setBlock blk2).errori = s.errori ∧
    (s.setBlock blk2).initialLengthl = s.initialLengthl := by
  unfold genericStack.setBlock
  split <;> simp_all

theorem genericStack.modify_eq_ok {s s2 : genericStack} {i : Nat}
    {f : genericStackItem → genericStackItem} (h : s.modify i f = Outcome.ok s2) :
    ∃ blk item, s.block = some blk ∧ blk[i]? = some item ∧
      s2 = s.setBlock (blk.set i (f item)) := by
  unfold genericStack.modify at h
  cases hb : s.block with
  | none => simp [hb] at h
  | some blk =>
    cases hj : blk[i]? with
    | none => simp [hb, hj] at h
    | some it =>
      simp [hb, hj] at h
      exact ⟨blk, it, rfl, hj, h.symm⟩

theorem fillItems_spec (f : genericStackItem → genericStackItem) :
    ∀ (count : Nat) (blk blk2 : List genericStackItem) (start : Nat),
      fillItems f blk start count = some blk2 →
      blk2.length = blk.length ∧ (0 < count → start + count ≤ blk.length) ∧
      ∀ j, blk2[j]? = if start ≤ j ∧ j < start + count then (blk[j]?).map f else blk[j]? := by
  intro count
  induction count with
  | zero =>
    intro blk blk2 start h
    simp [fillItems] at h
    subst h
    refine ⟨rfl, by omega, ?_⟩
    intro j
    have hno : ¬ (start ≤ j ∧ j < start) := by omega
    simp [hno]
  | succ n ih =>
    intro blk blk2 start h
    unfold fillItems at h
    cases hj : blk[start]? with
    | none => simp [hj] at h
    | some it =>
      simp [hj] at h
      obtain ⟨hlen, hbound, hget⟩ := ih _ _ _ h
      have hstart : start < blk.length := by
        rcases List.getElem?_eq_some_iff.mp hj with ⟨hlt, _⟩
        exact hlt
      refine ⟨by simpa using hlen, ?_, ?_⟩
      · intro _
        rcases Nat.eq_zero_or_pos n with h0 | hpos
        · omega
        · have := hbound hpos
          simp at this
          omega
      · intro j
        rw [hget j]
        by_cases hjs : j = start
        · subst hjs
          have h1 : ¬ (j + 1 ≤ j ∧ j < j + 1 + n) := by omega
          have h2 : (j ≤ j ∧ j < j + (n + 1)) := by omega
          simp [h1, h2, hj, List.getElem?_set, hstart]
        · have hne : start ≠ j := fun e => hjs e.symm
          rw [List.getElem?_set_ne hne]
          by_cases hr : start + 1 ≤ j ∧ j < start + 1 + n
          · have h2 : (start ≤ j ∧ j < start + (n + 1)) := by omega
            simp [hr, h2]
          · have h2 : ¬ (start ≤ j ∧ j < start + (n + 1)) := by omega
            simp [hr, h2]

theorem sizeModulus_pos (cfg : genericStackConfig) : 0 < sizeModulus cfg := by
  unfold sizeModulus
  exact Nat.pow_pos (by decide)

theorem sizeAdd_of_lt {cfg : genericStackConfig} {a b : Nat} (h : a + b < sizeModulus cfg) :
    sizeAdd cfg a b = a + b := by
  unfold sizeAdd
  exact Nat.mod_eq_of_lt h

theorem sizeSub_of_le {cfg : genericStackConfig} {a b : Nat} (hba : b ≤ a)
    (ha : a < sizeModulus cfg) : sizeSub cfg a b = a - b := by
  unfold sizeSub
  have hb : b < sizeModulus cfg := lt_of_le_of_lt hba ha
  rw [Nat.mod_eq_of_lt ha, Nat.mod_eq_of_lt hb]
  have e : a + (sizeModulus cfg - b) = (a - b) + sizeModulus cfg := by omega
  rw [e, Nat.add_mod_right]
  exact Nat.mod_eq_of_lt (by omega)

theorem sizeAdd_lt (cfg : genericStackConfig) (a b : Nat) : sizeAdd cfg a b < sizeModulus cfg := by
  unfold sizeAdd
  exact Nat.mod_lt _ (sizeModulus_pos cfg)

theorem NA_MEMSET_ok {cfg : genericStackConfig} {s s2 : genericStack} {startl endl : Nat}
    (h : _GENERICSTACK_NA_MEMSET cfg s startl endl = Outcome.ok s2) :
    ∃ blk blk2 count, ∃ f : genericStackItem → genericStackItem,
      s.block = some blk ∧ s2 = s.setBlock blk2 ∧ blk2.length = blk.length ∧
      count = (if cfg.GENERICSTACK_ZERO_INT_IS_NOT_ZERO_BYTES then endl + 1 - startl
               else sizeAdd cfg (sizeSub cfg endl startl) 1) ∧
      (∀ item, (f item).type = some GENERICSTACKITEMTYPE_NA) ∧
      (0 < count → startl + count ≤ blk.length) ∧
      ∀ j, blk2[j]? = if startl ≤ j ∧ j < startl + count then (blk[j]?).map f else blk[j]? := by
  unfold _GENERICSTACK_NA_MEMSET at h
  cases hb : s.block with
  | none => simp [hb] at h
  | some blk =>
    simp only [hb] at h
    by_cases hz : cfg.GENERICSTACK_ZERO_INT_IS_NOT_ZERO_BYTES = true
    · simp only [hz, if_true] at h
      cases hf : fillItems (fun item => { item with type := some GENERICSTACKITEMTYPE_NA })
          blk startl (endl + 1 - startl) with
      | none => simp [hf] at h
      | some blk2 =>
        simp [hf] at h
        obtain ⟨h1, h2, h3⟩ := fillItems_spec _ _ _ _ _ hf
        exact ⟨blk, blk2, endl + 1 - startl, _, rfl, h.symm, h1, by simp [hz],
          fun _ => rfl, h2, h3⟩
    · simp only [hz] at h
      cases hf : fillItems (fun _ => zeroItem) blk startl
          (sizeAdd cfg (sizeSub cfg endl startl) 1) with
      | none => simp [hf] at h
      | some blk2 =>
        simp [hf] at h
        obtain ⟨h1, h2, h3⟩ := fillItems_spec _ _ _ _ _ hf
        exact ⟨blk, blk2, _, _, rfl, h.symm, h1, by simp [hz], fun _ => rfl, h2, h3⟩

theorem CREATE_HEAP_ok {cfg : genericStackConfig} {allocOk : Bool} {s s1 : genericStack}
    {heapl : Nat} {rcb : Bool} (hnone : s.heapItems = none)
    (h : _GENERICSTACK_CREATE_HEAP cfg allocOk s heapl = Outcome.ok (rcb, s1)) :
    s1.usedl = s.usedl ∧ s1.initialLengthl = s.initialLengthl ∧
    s1.defaultItems = s.defaultItems ∧
    (rcb = false → allocOk = false ∧ s1 = { s with errori := 1 }) ∧
    (rcb = true → allocOk = true ∧ s1.heapl = heapl ∧ s1.lengthl = heapl ∧
      s1.errori = s.errori ∧ s1.items = genericStackItemsPtr.heapItems ∧
      ∃ blk1, s1.heapItems = some blk1 ∧ blk1.length = allocItems cfg heapl ∧
        (s.defaultItems.length = cfg.GENERICSTACK_DEFAULT_LENGTH →
          ∀ j item, j < s.usedl → s.defaultItems[j]? = some item → blk1[j]? = some item)) := by
  unfold _GENERICSTACK_CREATE_HEAP at h
  by_cases ha : allocOk = true
  · simp only [ha, if_true] at h
    by_cases hc : 0 < cfg.GENERICSTACK_DEFAULT_LENGTH ∧ 0 < s.usedl
    · simp only [hc, and_self, if_true] at h
      by_cases hbd : s.usedl ≤ s.defaultItems.length ∧
          s.usedl ≤ (List.replicate (allocItems cfg heapl) freshItem).length
      · rw [if_pos hbd] at h
        simp only [Outcome.ok.injEq, Prod.mk.injEq] at h
        obtain ⟨h1, h2⟩ := h
        subst h2
        subst h1
        refine ⟨rfl, rfl, rfl, by simp, fun _ => ⟨ha, rfl, rfl, rfl, rfl, _, rfl, ?_, ?_⟩⟩
        · simp at hbd
          simp
          omega
        · intro _ j item hj hget
          have hlen : j < (List.take s.usedl s.defaultItems).length := by
            simp
            omega
          rw [List.getElem?_append_left hlen, List.getElem?_take_of_lt hj]
          exact hget
      · rw [if_neg hbd] at h
        simp at h
    · rw [if_neg hc] at h
      simp only [Outcome.ok.injEq, Prod.mk.injEq] at h
      obtain ⟨h1, h2⟩ := h
      subst h2
      subst h1
      refine ⟨rfl, rfl, rfl, by simp, fun _ => ⟨ha, rfl, rfl, rfl, rfl, _, rfl, by simp, ?_⟩⟩
      intro hdl j item hj hget
      have hpos : 0 < s.usedl := by omega
      have hzero : cfg.GENERICSTACK_DEFAULT_LENGTH = 0 := by
        by_contra hne
        exact hc ⟨Nat.pos_of_ne_zero hne, hpos⟩
      have hnil : s.defaultItems = [] := List.length_eq_zero.mp (by omega)
      rw [hnil] at hget
      simp at hget
  · have ha2 : allocOk = false := by simpa using ha
    simp only [ha2] at h
    simp only [Bool.false_eq_true, if_false, Outcome.ok.injEq, Prod.mk.injEq] at h
    obtain ⟨h1, h2⟩ := h
    subst h2
    subst h1
    refine ⟨rfl, rfl, rfl, fun _ => ⟨ha2, ?_⟩, by simp⟩
    cases s
    simp_all

theorem EXTEND_HEAP_ok {cfg : genericStackConfig} {allocOk : Bool} {s s1 : genericStack}
    {heapl : Nat} {rcb : Bool}
    (h : _GENERICSTACK_EXTEND_HEAP cfg allocOk s heapl = Outcome.ok (rcb, s1)) :
    s1.usedl = s.usedl ∧ s1.initialLengthl = s.initialLengthl ∧
    s1.defaultItems = s.defaultItems ∧
    (rcb = false → allocOk = false ∧ s1.heapl = s.heapl ∧ s1.lengthl = s.lengthl ∧
      s1.errori = 1 ∧ s1.items = s.items ∧ s1.block = s.block) ∧
    (rcb = true → allocOk = true ∧ s1.heapl = heapl ∧ s1.lengthl = heapl ∧
      s1.errori = s.errori ∧ s1.items = genericStackItemsPtr.heapItems ∧
      ∃ blk1, s1.heapItems = some blk1 ∧ blk1.length = allocItems cfg heapl ∧
        ∀ blk j item, s.block = some blk → j < blk1.length → blk[j]? = some item →
          blk1[j]? = some item) := by
  unfold _GENERICSTACK_EXTEND_HEAP at h
  cases hi : s.items with
  | heapItems =>
    simp only [hi] at h
    cases hh : s.heapItems with
    | none => simp [hh] at h
    | some blk0 =>
      simp only [hh] at h
      by_cases ha : allocOk = true
      · simp only [ha, if_true, Outcome.ok.injEq, Prod.mk.injEq] at h
        obtain ⟨h1, h2⟩ := h
        subst h2
        subst h1
        refine ⟨rfl, rfl, rfl, by simp, fun _ => ⟨ha, rfl, rfl, rfl, rfl, _, rfl, ?_, ?_⟩⟩
        · simp
          omega
        · intro blk j item hblk hj hget
          have hb : blk = blk0 := by
            unfold genericStack.block at hblk
            simp [hi, hh] at hblk
            exact hblk.symm
          subst hb
          have hjb : j < blk.length := by
            rcases List.getElem?_eq_some_iff.mp hget with ⟨hlt, _⟩
            exact hlt
          have hjn : j < allocItems cfg heapl := by
            simp at hj
            omega
          have hlen : j < (List.take (allocItems cfg heapl) blk).length := by
            simp
            omega
          rw [List.getElem?_append_left hlen, List.getElem?_take_of_lt hjn]
          exact hget
      · have ha2 : allocOk = false := by simpa using ha
        simp only [ha2, Bool.false_eq_true, if_false, Outcome.ok.injEq, Prod.mk.injEq] at h
        obtain ⟨h1, h2⟩ := h
        subst h2
        subst h1
        refine ⟨rfl, rfl, rfl, fun _ => ⟨ha2, rfl, rfl, rfl, by simp [hi], ?_⟩, by simp⟩
        unfold genericStack.block
        simp [hi, hh]
  | NULL =>
    simp only [hi] at h
    by_cases ha : allocOk = true
    · simp only [ha, if_true, Outcome.ok.injEq, Prod.mk.injEq] at h
      obtain ⟨h1, h2⟩ := h
      subst h2
      subst h1
      refine ⟨rfl, rfl, rfl, by simp, fun _ => ⟨ha, rfl, rfl, rfl, rfl, _, rfl, by simp, ?_⟩⟩
      intro blk j item hblk
      unfold genericStack.block at hblk
      simp [hi] at hblk
    · have ha2 : allocOk = false := by simpa using ha
      simp only [ha2, Bool.false_eq_true, if_false, Outcome.ok.injEq, Prod.mk.injEq] at h
      obtain ⟨h1, h2⟩ := h
      subst h2
      subst h1
      refine ⟨rfl, rfl, rfl, fun _ => ⟨ha2, rfl, rfl, rfl, by simp [hi], ?_⟩, by simp⟩
      unfold genericStack.block
      simp [hi]
  | defaultItems => simp [hi] at h
  | freed => simp [hi] at h

theorem testBit_top {x k : Nat} (h1 : 2 ^ k ≤ x) (h2 : x < 2 ^ (k + 1)) :
    x.testBit k = true := by
  rw [Nat.testBit_to_div_mod]
  have hdiv : x / 2 ^ k = 1 := by
    apply Nat.div_eq_of_lt_le
    · simpa using h1
    · rw [pow_succ] at h2
      omega
  simp [hdiv]

theorem pow_two_of_and_pred_eq_zero {n : Nat} (hpos : 0 < n) (h : n &&& (n - 1) = 0) :
    ∃ k, n = 2 ^ k := by
  have hne : n ≠ 0 := by omega
  have h1 : 2 ^ n.log2 ≤ n := Nat.log2_self_le hne
  have h2 : n < 2 ^ (n.log2 + 1) := Nat.lt_log2_self
  by_cases he : n = 2 ^ n.log2
  · exact ⟨_, he⟩
  · exfalso
    have h3 : 2 ^ n.log2 ≤ n - 1 := by omega
    have h4 : n - 1 < 2 ^ (n.log2 + 1) := by omega
    have hb : (n &&& (n - 1)).testBit n.log2 = true := by
      rw [Nat.testBit_and, testBit_top h1 h2, testBit_top h3 h4]
      rfl
    rw [h] at hb
    simp at hb

theorem doublingLoop_ok (cfg : genericStackConfig) (wantedl : Nat)
    (hw : wantedl ≤ 2 ^ (cfg.sizeBits - 1)) (hbits : 0 < cfg.sizeBits) :
    ∀ (fuel k : Nat), cfg.sizeBits - 1 ≤ k + fuel → k ≤ cfg.sizeBits - 1 →
      (k = 0 ∨ 2 ^ (k - 1) < wantedl) →
      ∃ m, doublingLoop cfg wantedl fuel (2 ^ k) (2 ^ k) = Outcome.ok (2 ^ m) ∧
        wantedl ≤ 2 ^ m ∧ (m = 0 ∨ 2 ^ (m - 1) < wantedl) ∧ m ≤ cfg.sizeBits - 1 := by
  intro fuel
  induction fuel with
  | zero =>
    intro k hk hkw hprev
    have hkeq : k = cfg.sizeBits - 1 := by omega
    have hge : ¬ (2 ^ k < wantedl) := by
      rw [hkeq]
      omega
    exact ⟨k, by simp [doublingLoop, hge], by omega, hprev, hkw⟩
  | succ fuel ih =>
    intro k hk hkw hprev
    by_cases hlt : 2 ^ k < wantedl
    · have hk1 : k < cfg.sizeBits - 1 := by
        by_contra hcon
        have hkeq : k = cfg.sizeBits - 1 := by omega
        rw [hkeq] at hlt
        omega
      have hpow : 2 ^ (k + 1) < sizeModulus cfg := by
        unfold sizeModulus
        exact Nat.pow_lt_pow_right (by decide) (by omega)
      have hmul : sizeMul cfg (2 ^ k) 2 = 2 ^ (k + 1) := by
        unfold sizeMul
        rw [← pow_succ]
        exact Nat.mod_eq_of_lt hpow
      have hnot : ¬ (2 ^ (k + 1) < 2 ^ k) := by
        have : 2 ^ k ≤ 2 ^ (k + 1) := Nat.pow_le_pow_right (by decide) (by omega)
        omega
      obtain ⟨m, hm1, hm2, hm3, hm4⟩ := ih (k + 1) (by omega) (by omega) (Or.inr (by simpa using hlt))
      refine ⟨m, ?_, hm2, hm3, hm4⟩
      unfold doublingLoop
      simp only [hlt, if_true, hmul, hnot, and_false, if_false]
      exact hm1
    · refine ⟨k, ?_, by omega, hprev, hkw⟩
      unfold doublingLoop
      simp [hlt]

theorem isSmallestPowerOfTwoGE_of_prev {n m : Nat} (h1 : n ≤ 2 ^ m)
    (h2 : m = 0 ∨ 2 ^ (m - 1) < n) : isSmallestPowerOfTwoGE n (2 ^ m) := by
  refine ⟨⟨m, rfl⟩, h1, ?_⟩
  intro q hq
  apply Nat.pow_le_pow_right (by decide)
  rcases h2 with h0 | hlt
  · omega
  · have hlt2 : 2 ^ (m - 1) < 2 ^ q := lt_of_lt_of_le hlt hq
    have := (Nat.pow_lt_pow_iff_right (by decide : 1 < 2)).mp hlt2
    omega

theorem newHeapl_ok (cfg : genericStackConfig) (fuel wantedl : Nat) (hpos : 0 < wantedl)
    (hw : wantedl ≤ 2 ^ (cfg.sizeBits - 1)) (hbits : 0 < cfg.sizeBits)
    (hfuel : cfg.sizeBits ≤ fuel) :
    ∃ p, newHeapl cfg fuel wantedl = Outcome.ok p ∧ isSmallestPowerOfTwoGE wantedl p ∧
      0 < p ∧ p ≤ 2 ^ (cfg.sizeBits - 1) := by
  have hM : wantedl < sizeModulus cfg := by
    unfold sizeModulus
    have : 2 ^ (cfg.sizeBits - 1) < 2 ^ cfg.sizeBits :=
      Nat.pow_lt_pow_right (by decide) (by omega)
    omega
  have hsub : sizeSub cfg wantedl 1 = wantedl - 1 := sizeSub_of_le hpos hM
  unfold newHeapl
  rw [hsub]
  by_cases ht : wantedl &&& (wantedl - 1) = 0
  · rw [if_pos ht]
    obtain ⟨k, hk⟩ := pow_two_of_and_pred_eq_zero hpos ht
    refine ⟨wantedl, rfl, ⟨⟨k, hk⟩, le_refl _, fun m hm => hm⟩, hpos, hw⟩
  · rw [if_neg ht]
    obtain ⟨m, hm1, hm2, hm3, hm4⟩ :=
      doublingLoop_ok cfg wantedl hw hbits fuel 0 (by omega) (by omega) (Or.inl rfl)
    refine ⟨2 ^ m, by simpa using hm1, isSmallestPowerOfTwoGE_of_prev hm2 hm3,
      Nat.pow_pos (by decide), Nat.pow_le_pow_right (by decide) hm4⟩

theorem extendCapacity_nogrow (cfg : genericStackConfig) (fuel : Nat) (allocOk : Bool)
    (s : genericStack) (wantedl : Nat)
    (h : wantedl ≤ cfg.GENERICSTACK_DEFAULT_LENGTH ∨ wantedl ≤ s.heapl) :
    extendCapacity cfg fuel allocOk s wantedl = Outcome.ok (true, s) := by
  unfold extendCapacity
  by_cases h1 : wantedl ≤ cfg.GENERICSTACK_DEFAULT_LENGTH
  · simp [h1]
  · have h2 : wantedl ≤ s.heapl := by
      rcases h with h | h
      · exact absurd h h1
      · exact h
    simp [h1, h2]

theorem extendCapacity_grow {cfg : genericStackConfig} {fuel : Nat} {allocOk : Bool}
    {s s1 : genericStack} {wantedl : Nat} {rcb : Bool}
    (hd : cfg.GENERICSTACK_DEFAULT_LENGTH < wantedl) (hh : s.heapl < wantedl)
    (h : extendCapacity cfg fuel allocOk s wantedl = Outcome.ok (rcb, s1)) :
    ∃ p, newHeapl cfg fuel wantedl = Outcome.ok p ∧
      ((p = 0 ∧ rcb = false ∧ s1 = { s with errori := 1 }) ∨
       (p ≠ 0 ∧ s.heapItems = none ∧
          _GENERICSTACK_CREATE_HEAP cfg allocOk s p = Outcome.ok (rcb, s1)) ∨
       (p ≠ 0 ∧ s.heapItems ≠ none ∧
          _GENERICSTACK_EXTEND_HEAP cfg allocOk s p = Outcome.ok (rcb, s1))) := by
  unfold extendCapacity at h
  rw [if_neg (by omega), if_neg (by omega)] at h
  obtain ⟨p, hp, hrest⟩ := Outcome.bind_eq_ok h
  refine ⟨p, hp, ?_⟩
  by_cases h0 : p = 0
  · rw [if_pos h0] at hrest
    simp only [Outcome.ok.injEq, Prod.mk.injEq] at hrest
    exact Or.inl ⟨h0, hrest.1.symm, hrest.2.symm⟩
  · rw [if_neg h0] at hrest
    by_cases hn : s.heapItems = none
    · rw [if_pos hn] at hrest
      exact Or.inr (Or.inl ⟨h0, hn, hrest⟩)
    · rw [if_neg hn] at hrest
      exact Or.inr (Or.inr ⟨h0, hn, hrest⟩)

theorem extendCapacity_ok {cfg : genericStackConfig} {fuel : Nat} {allocOk : Bool}
    {s s1 : genericStack} {wantedl : Nat} {rcb : Bool}
    (h : extendCapacity cfg fuel allocOk s wantedl = Outcome.ok (rcb, s1)) :
    s1.usedl = s.usedl ∧ s1.initialLengthl = s.initialLengthl ∧
    s1.defaultItems = s.defaultItems ∧
    (s.defaultItems.length = cfg.GENERICSTACK_DEFAULT_LENGTH →
      ∀ blk, s.block = some blk → ∃ blk1, s1.block = some blk1 ∧
        ∀ j item, j < s.usedl → j < blk1.length → blk[j]? = some item →
          blk1[j]? = some item) := by
  by_cases hng : wantedl ≤ cfg.GENERICSTACK_DEFAULT_LENGTH ∨ wantedl ≤ s.heapl
  · rw [extendCapacity_nogrow cfg fuel allocOk s wantedl hng] at h
    simp only [Outcome.ok.injEq, Prod.mk.injEq] at h
    obtain ⟨_, h2⟩ := h
    subst h2
    exact ⟨rfl, rfl, rfl, fun _ blk hb => ⟨blk, hb, fun _ _ _ _ hg => hg⟩⟩
  · have hd : cfg.GENERICSTACK_DEFAULT_LENGTH < wantedl := by omega
    have hh : s.heapl < wantedl := by omega
    obtain ⟨p, _, hcase⟩ := extendCapacity_grow hd hh h
    rcases hcase with ⟨_, _, hs⟩ | ⟨_, hn, hc⟩ | ⟨_, hn, he⟩
    · subst hs
      refine ⟨rfl, rfl, rfl, fun _ blk hb => ⟨blk, ?_, fun _ _ _ _ hg => hg⟩⟩
      unfold genericStack.block at hb ⊢
      exact hb
    · obtain ⟨hu, hi, hdf, hfalse, htrue⟩ := CREATE_HEAP_ok hn hc
      refine ⟨hu, hi, hdf, fun hlen blk hb => ?_⟩
      cases rcb with
      | false =>
        obtain ⟨_, hs⟩ := hfalse rfl
        subst hs
        refine ⟨blk, ?_, fun _ _ _ _ hg => hg⟩
        unfold genericStack.block at hb ⊢
        exact hb
      | true =>
        obtain ⟨_, _, _, _, hit, blk1, hblk1, _, hcopy⟩ := htrue rfl
        refine ⟨blk1, ?_, ?_⟩
        · unfold genericStack.block
          rw [hit]
          exact hblk1
        · intro j item hj _ hget
          have hbd : blk = s.defaultItems := by
            unfold genericStack.block at hb
            cases hitems : s.items <;> simp [hitems, hn] at hb
            exact hb.symm
          rw [hbd] at hget
          exact hcopy hlen j item hj hget
    · obtain ⟨hu, hi, hdf, hfalse, htrue⟩ := EXTEND_HEAP_ok he
      refine ⟨hu, hi, hdf, fun _ blk hb => ?_⟩
      cases rcb with
      | false =>
        obtain ⟨_, _, _, _, _, hblk⟩ := hfalse rfl
        exact ⟨blk, by rw [hblk]; exact hb, fun _ _ _ _ hg => hg⟩
      | true =>
        obtain ⟨_, _, _, _, hit, blk1, hblk1, _, hcopy⟩ := htrue rfl
        refine ⟨blk1, ?_, ?_⟩
        · unfold genericStack.block
          rw [hit]
          exact hblk1
        · intro j item _ hj hget
          exact hcopy blk j item hb hj hget

theorem EXTEND_ok {cfg : genericStackConfig} {fuel : Nat} {allocOk : Bool}
    {s s2 : genericStack} {wantedl targetIndicel : Nat} {rcb : Bool}
    (hM : targetIndicel < sizeModulus cfg)
    (h : _GENERICSTACK_EXTEND cfg fuel allocOk s wantedl targetIndicel = Outcome.ok (rcb, s2)) :
    ∃ s1, extendCapacity cfg fuel allocOk s wantedl = Outcome.ok (rcb, s1) ∧
      s2.usedl = s1.usedl ∧ s2.heapl = s1.heapl ∧ s2.lengthl = s1.lengthl ∧
      s2.errori = s1.errori ∧ s2.items = s1.items ∧ s2.initialLengthl = s1.initialLengthl ∧
      (¬ s1.usedl < targetIndicel → s2 = s1) ∧
      (s1.usedl < targetIndicel → ∃ blk1 blk2, s1.block = some blk1 ∧ s2.block = some blk2 ∧
        blk2.length = blk1.length ∧ targetIndicel ≤ blk1.length ∧
        (∀ j, j < s1.usedl ∨ targetIndicel ≤ j → blk2[j]? = blk1[j]?) ∧
        (∀ j, s1.usedl ≤ j → j < targetIndicel →
          ∃ item, blk2[j]? = some item ∧ item.type = some GENERICSTACKITEMTYPE_NA)) := by
  unfold _GENERICSTACK_EXTEND at h
  obtain ⟨r, hr, hrest⟩ := Outcome.bind_eq_ok h
  obtain ⟨r1, s1⟩ := r
  simp only at hrest
  by_cases ht : s1.usedl < targetIndicel
  · rw [if_pos ht] at hrest
    obtain ⟨s2b, hm, hfin⟩ := Outcome.bind_eq_ok hrest
    simp only [Outcome.ok.injEq, Prod.mk.injEq] at hfin
    obtain ⟨hr1, hs2⟩ := hfin
    subst hs2
    subst hr1
    obtain ⟨blk, blk2, count, f, hblk, hset, hlen, hcount, hf, hbound, hget⟩ := NA_MEMSET_ok hm
    have hfields := s1.setBlock_fields blk2
    rw [← hset] at hfields
    obtain ⟨f1, f2, f3, f4, f5, f6⟩ := hfields
    have hcnt : count = targetIndicel - s1.usedl := by
      have e1 : sizeSub cfg targetIndicel 1 = targetIndicel - 1 :=
        sizeSub_of_le (by omega) hM
      rw [hcount, e1]
      by_cases hz : cfg.GENERICSTACK_ZERO_INT_IS_NOT_ZERO_BYTES = true
      · simp only [hz, if_true]
        omega
      · simp only [hz]
        have e2 : sizeSub cfg (targetIndicel - 1) s1.usedl = targetIndicel - 1 - s1.usedl :=
          sizeSub_of_le (by omega) (by omega)
        rw [e2]
        simp only [Bool.false_eq_true, if_false]
        rw [sizeAdd_of_lt (by omega)]
        omega
    have hb := hbound (by omega)
    refine ⟨s1, hr, f2, f4, f3, f5, f1, f6, fun hn => absurd ht hn, fun _ => ?_⟩
    refine ⟨blk, blk2, hblk, ?_, hlen, by omega, ?_, ?_⟩
    · rw [hset]
      exact genericStack.block_setBlock hblk
    · intro j hj
      rw [hget j]
      have hno : ¬ (s1.usedl ≤ j ∧ j < s1.usedl + count) := by omega
      simp [hno]
    · intro j hj1 hj2
      have hjb : j < blk.length := by omega
      have hin : s1.usedl ≤ j ∧ j < s1.usedl + count := by omega
      refine ⟨f (blk[j]), ?_, hf _⟩
      rw [hget j, if_pos hin, List.getElem?_eq_getElem hjb]
      rfl
  · rw [if_neg ht] at hrest
    simp only [Outcome.ok.injEq, Prod.mk.injEq] at hrest
    obtain ⟨hr1, hs2⟩ := hrest
    subst hs2
    subst hr1
    exact ⟨s1, hr, rfl, rfl, rfl, rfl, rfl, rfl, fun _ => rfl, fun hn => absurd hn ht⟩

theorem SET_BY_TYPE_ok {cfg : genericStackConfig} {fuel : Nat} {allocOk : Bool}
    {itemType : genericStackItemType} {dst : genericStackItemMember}
    {s s3 : genericStack} {var : Int} {indexl : Nat}
    (h : __GENERICSTACK_SET_BY_TYPE cfg fuel allocOk itemType dst s var indexl =
      Outcome.ok (true, s3)) :
    ∃ s2 blk2,
      _GENERICSTACK_EXTEND cfg fuel allocOk s (sizeAdd cfg indexl 1) indexl =
        Outcome.ok (true, s2) ∧
      s2.block = some blk2 ∧ indexl < blk2.length ∧
      s3.block = some (blk2.set indexl
        { type := some itemType, u := genericStackItemUnion.stored dst var }) ∧
      s3.usedl = max s2.usedl (sizeAdd cfg indexl 1) ∧
      s3.heapl = s2.heapl ∧ s3.lengthl = s2.lengthl ∧ s3.errori = s2.errori ∧
      s3.items = s2.items ∧ s3.initialLengthl = s2.initialLengthl := by
  unfold __GENERICSTACK_SET_BY_TYPE at h
  simp only at h
  by_cases hp : cfg.GENERICSTACK_PARANOID = true ∧ sizeAdd cfg indexl 1 < indexl
  · rw [if_pos hp] at h
    simp at h
  · rw [if_neg hp] at h
    obtain ⟨r, hr, hrest⟩ := Outcome.bind_eq_ok h
    obtain ⟨rcb, s2⟩ := r
    cases rcb with
    | false => simp at hrest
    | true =>
      simp only [if_true] at hrest
      obtain ⟨s3b, hmod, hfin⟩ := Outcome.bind_eq_ok hrest
      simp only [Outcome.ok.injEq, Prod.mk.injEq, true_and] at hfin
      subst hfin
      obtain ⟨blk, item, hblk, hget, hs3⟩ := genericStack.modify_eq_ok hmod
      have hblk2 : s2.block = some blk := by
        by_cases hu : s2.usedl < sizeAdd cfg indexl 1
        · rw [if_pos hu] at hblk
          unfold genericStack.block at hblk ⊢
          exact hblk
        · rw [if_neg hu] at hblk
          exact hblk
      have hlt : indexl < blk.length := by
        rcases List.getElem?_eq_some_iff.mp hget with ⟨hlt, _⟩
        exact hlt
      have hfields := genericStack.setBlock_fields
        (if s2.usedl < sizeAdd cfg indexl 1 then { s2 with usedl := sizeAdd cfg indexl 1 } else s2)
        (blk.set indexl { type := some itemType, u := genericStackItemUnion.stored dst var })
      rw [← hs3] at hfields
      obtain ⟨f1, f2, f3, f4, f5, f6⟩ := hfields
      refine ⟨s2, blk, hr, hblk2, hlt, ?_, ?_, ?_, ?_, ?_, ?_, ?_⟩
      · rw [hs3]
        exact genericStack.block_setBlock hblk
      · rw [f2]
        by_cases hu : s2.usedl < sizeAdd cfg indexl 1
        · rw [if_pos hu]
          simp only
          omega
        · rw [if_neg hu]
          omega
      · rw [f4]
        split <;> rfl
      · rw [f3]
        split <;> rfl
      · rw [f5]
        split <;> rfl
      · rw [f1]
        split <;> rfl
      · rw [f6]
        split <;> rfl

theorem wellFormed_block {cfg : genericStackConfig} {s : genericStack}
    (hwf : s.wellFormed cfg) {blk : List genericStackItem} (hb : s.block = some blk) :
    blk.length < sizeModulus cfg := by
  obtain ⟨_, h2, _, _, _, _, h7⟩ := hwf
  unfold genericStack.block at hb
  cases hi : s.items <;> simp [hi] at hb
  · rw [← hb]
    exact h2
  · rw [hb] at h7
    simpa using h7

theorem allocItems_lt (cfg : genericStackConfig) (heapl : Nat) :
    allocItems cfg heapl < sizeModulus cfg := by
  unfold allocItems sizeMul
  exact lt_of_le_of_lt (Nat.div_le_self _ _) (Nat.mod_lt _ (sizeModulus_pos cfg))

theorem extendCapacity_block_length {cfg : genericStackConfig} {fuel : Nat} {allocOk : Bool}
    {s s1 : genericStack} {wantedl : Nat} {rcb : Bool} (hwf : s.wellFormed cfg)
    (h : extendCapacity cfg fuel allocOk s wantedl = Outcome.ok (rcb, s1))
    {blk1 : List genericStackItem} (hb : s1.block = some blk1) :
    blk1.length < sizeModulus cfg := by
  by_cases hng : wantedl ≤ cfg.GENERICSTACK_DEFAULT_LENGTH ∨ wantedl ≤ s.heapl
  · rw [extendCapacity_nogrow cfg fuel allocOk s wantedl hng] at h
    simp only [Outcome.ok.injEq, Prod.mk.injEq] at h
    obtain ⟨_, h2⟩ := h
    subst h2
    exact wellFormed_block hwf hb
  · have hd : cfg.GENERICSTACK_DEFAULT_LENGTH < wantedl := by omega
    have hh : s.heapl < wantedl := by omega
    obtain ⟨p, _, hcase⟩ := extendCapacity_grow hd hh h
    rcases hcase with ⟨_, _, hs⟩ | ⟨_, hn, hc⟩ | ⟨_, hn, he⟩
    · subst hs
      exact wellFormed_block hwf (show s.block = some blk1 from hb)
    · obtain ⟨_, _, _, hfalse, htrue⟩ := CREATE_HEAP_ok hn hc
      cases rcb with
      | false =>
        obtain ⟨_, hs⟩ := hfalse rfl
        subst hs
        exact wellFormed_block hwf (show s.block = some blk1 from hb)
      | true =>
        obtain ⟨_, _, _, _, hit, blk, hblk, hlen, _⟩ := htrue rfl
        unfold genericStack.block at hb
        rw [hit] at hb
        simp only at hb
        rw [hblk] at hb
        simp only [Option.some.injEq] at hb
        subst hb
        rw [hlen]
        exact allocItems_lt cfg p
    · obtain ⟨_, _, _, hfalse, htrue⟩ := EXTEND_HEAP_ok he
      cases rcb with
      | false =>
        obtain ⟨_, _, _, _, _, hblk⟩ := hfalse rfl
        rw [hblk] at hb
        exact wellFormed_block hwf hb
      | true =>
        obtain ⟨_, _, _, _, hit, blk, hblk, hlen, _⟩ := htrue rfl
        unfold genericStack.block at hb
        rw [hit] at hb
        simp only at hb
        rw [hblk] at hb
        simp only [Option.some.injEq] at hb
        subst hb
        rw [hlen]
        exact allocItems_lt cfg p

theorem EXTEND_block_length {cfg : genericStackConfig} {fuel : Nat} {allocOk : Bool}
    {s s2 : genericStack} {wantedl targetIndicel : Nat} {rcb : Bool} (hwf : s.wellFormed cfg)
    (h : _GENERICSTACK_EXTEND cfg fuel allocOk s wantedl targetIndicel = Outcome.ok (rcb, s2))
    {blk2 : List genericStackItem} (hb : s2.block = some blk2) :
    blk2.length < sizeModulus cfg := by
  unfold _GENERICSTACK_EXTEND at h
  obtain ⟨r, hr, hrest⟩ := Outcome.bind_eq_ok h
  obtain ⟨r1, s1⟩ := r
  simp only at hrest
  by_cases ht : s1.usedl < targetIndicel
  · rw [if_pos ht] at hrest
    obtain ⟨s2b, hm, hfin⟩ := Outcome.bind_eq_ok hrest
    simp only [Outcome.ok.injEq, Prod.mk.injEq] at hfin
    obtain ⟨_, hs2⟩ := hfin
    subst hs2
    obtain ⟨blk, blk2b, _, _, hblk, hset, hlen, _, _, _, _⟩ := NA_MEMSET_ok hm
    rw [hset, genericStack.block_setBlock hblk] at hb
    simp only [Option.some.injEq] at hb
    subst hb
    rw [hlen]
    exact extendCapacity_block_length hwf hr hblk
  · rw [if_neg ht] at hrest
    simp only [Outcome.ok.injEq, Prod.mk.injEq] at hrest
    obtain ⟨_, hs2⟩ := hrest
    subst hs2
    exact extendCapacity_block_length hwf hr hb

theorem SET_BY_TYPE_spec {cfg : genericStackConfig} {fuel : Nat} {allocOk : Bool}
    {itemType : genericStackItemType} {dst : genericStackItemMember}
    {s s3 : genericStack} {var : Int} {indexl : Nat} (hwf : s.wellFormed cfg)
    (h : __GENERICSTACK_SET_BY_TYPE cfg fuel allocOk itemType dst s var indexl =
      Outcome.ok (true, s3)) :
    ∃ (s1 : genericStack) (blk2 : List genericStackItem),
      extendCapacity cfg fuel allocOk s (indexl + 1) = Outcome.ok (true, s1) ∧
      indexl < blk2.length ∧ indexl + 1 < sizeModulus cfg ∧
      s3.block = some (blk2.set indexl
        { type := some itemType, u := genericStackItemUnion.stored dst var }) ∧
      s3.usedl = max s.usedl (indexl + 1) ∧
      s3.heapl = s1.heapl ∧ s3.lengthl = s1.lengthl ∧ s3.errori = s1.errori ∧
      s3.items = s1.items ∧ s3.initialLengthl = s.initialLengthl ∧
      (∀ blk j item, s.block = some blk → j < s.usedl → j < blk2.length →
        blk[j]? = some item → blk2[j]? = some item) ∧
      (∀ j, s.usedl ≤ j → j < indexl →
        ∃ item : genericStackItem,
          blk2[j]? = some item ∧ item.type = some GENERICSTACKITEMTYPE_NA) := by
  obtain ⟨s2, blk2, hext, hb2, hlt, hb3, hu, g1, g2, g3, g4, g5⟩ := SET_BY_TYPE_ok h
  have hlen := EXTEND_block_length hwf hext hb2
  have hM : indexl < sizeModulus cfg := by omega
  have hadd : sizeAdd cfg indexl 1 = indexl + 1 := sizeAdd_of_lt (by omega)
  rw [hadd] at hext hu
  obtain ⟨s1, hcap, e1, e2, e3, e4, e5, e6, hsame, hfill⟩ := EXTEND_ok hM hext
  obtain ⟨c1, c2, _, hcopy⟩ := extendCapacity_ok hcap
  refine ⟨s1, blk2, hcap, hlt, by omega, hb3, by rw [hu, e1, c1], by rw [g1, e2],
    by rw [g2, e3], by rw [g3, e4], by rw [g4, e5], by rw [g5, e6, c2], ?_, ?_⟩
  · intro blk j item hblk hj hjl hget
    obtain ⟨blk1, hblk1, hpres⟩ := hcopy hwf.1 blk hblk
    by_cases ht : s1.usedl < indexl
    · obtain ⟨blk1b, blk2b, hb1b, hb2b, hlenb, _, hkeep, _⟩ := hfill ht
      rw [hb1b] at hblk1
      rw [hb2b] at hb2
      simp only [Option.some.injEq] at hblk1 hb2
      subst hblk1
      subst hb2
      rw [hkeep j (Or.inl (by omega))]
      exact hpres j item hj (by omega) hget
    · have hs := hsame ht
      subst hs
      rw [hb2] at hblk1
      simp only [Option.some.injEq] at hblk1
      subst hblk1
      exact hpres j item hj hjl hget
  · intro j hj1 hj2
    have ht : s1.usedl < indexl := by omega
    obtain ⟨blk1b, blk2b, _, hb2b, _, _, _, hna⟩ := hfill ht
    rw [hb2b] at hb2
    simp only [Option.some.injEq] at hb2
    subst hb2
    exact hna j (by omega) hj2

theorem load_of_block {s : genericStack} {blk : List genericStackItem} {j : Nat}
    {item : genericStackItem} (hb : s.block = some blk) (hg : blk[j]? = some item) :
    s.load j = Outcome.ok item :=
  genericStack.load_eq_ok.mpr ⟨blk, hb, hg⟩

theorem typeOf_of_block {s : genericStack} {blk : List genericStackItem} {j : Nat}
    {item : genericStackItem} {t : genericStackItemType} (hb : s.block = some blk)
    (hg : blk[j]? = some item) (ht : item.type = some t) :
    GENERICSTACKITEMTYPE s j = Outcome.ok t := by
  unfold GENERICSTACKITEMTYPE
  rw [load_of_block hb hg]
  simp [ht]

theorem get_of_block {s : genericStack} {blk : List genericStackItem} {j : Nat}
    {t : Option genericStackItemType} {dst : genericStackItemMember} {var : Int}
    (hb : s.block = some blk)
    (hg : blk[j]? = some { type := t, u := genericStackItemUnion.stored dst var }) :
    GENERICSTACK_GET s dst j = Outcome.ok var := by
  unfold GENERICSTACK_GET
  rw [load_of_block hb hg]
  simp [genericStackItemUnion.read]

theorem doublingLoop_ge (cfg : genericStackConfig) (wantedl : Nat) :
    ∀ (fuel heapl previousHeapl p : Nat),
      doublingLoop cfg wantedl fuel heapl previousHeapl = Outcome.ok p → p = 0 ∨ wantedl ≤ p := by
  intro fuel
  induction fuel with
  | zero =>
    intro heapl prev p h
    unfold doublingLoop at h
    by_cases hlt : heapl < wantedl
    · simp [hlt] at h
    · simp [hlt] at h
      omega
  | succ fuel ih =>
    intro heapl prev p h
    unfold doublingLoop at h
    by_cases hlt : heapl < wantedl
    · rw [if_pos hlt] at h
      by_cases hp : cfg.GENERICSTACK_PARANOID = true ∧ sizeMul cfg heapl 2 < prev
      · rw [if_pos hp] at h
        simp at h
        exact Or.inl h.symm
      · rw [if_neg hp] at h
        exact ih _ _ _ h
    · rw [if_neg hlt] at h
      simp at h
      omega

theorem newHeapl_ge {cfg : genericStackConfig} {fuel wantedl p : Nat}
    (h : newHeapl cfg fuel wantedl = Outcome.ok p) : p = 0 ∨ wantedl ≤ p := by
  unfold newHeapl at h
  by_cases ht : wantedl &&& sizeSub cfg wantedl 1 = 0
  · rw [if_pos ht] at h
    simp at h
    omega
  · rw [if_neg ht] at h
    exact doublingLoop_ge cfg wantedl _ _ _ _ h

theorem extendCapacity_grow_true {cfg : genericStackConfig} {fuel : Nat} {allocOk : Bool}
    {s s1 : genericStack} {wantedl : Nat}
    (hd : cfg.GENERICSTACK_DEFAULT_LENGTH < wantedl) (hh : s.heapl < wantedl)
    (h : extendCapacity cfg fuel allocOk s wantedl = Outcome.ok (true, s1)) :
    ∃ p, newHeapl cfg fuel wantedl = Outcome.ok p ∧ wantedl ≤ p ∧ allocOk = true ∧
      s1.heapl = p ∧ s1.lengthl = p ∧ s1.errori = s.errori ∧
      s1.items = genericStackItemsPtr.heapItems ∧
      ∃ blk1, s1.heapItems = some blk1 ∧ blk1.length = allocItems cfg p := by
  obtain ⟨p, hp, hcase⟩ := extendCapacity_grow hd hh h
  rcases hcase with ⟨_, hf, _⟩ | ⟨h0, hn, hc⟩ | ⟨h0, _, he⟩
  · simp at hf
  · obtain ⟨_, _, _, _, htrue⟩ := CREATE_HEAP_ok hn hc
    obtain ⟨a1, a2, a3, a4, a5, blk1, a6, a7, _⟩ := htrue rfl
    rcases newHeapl_ge hp with hz | hle
    · exact absurd hz h0
    · exact ⟨p, hp, hle, a1, a2, a3, a4, a5, blk1, a6, a7⟩
  · obtain ⟨_, _, _, _, htrue⟩ := EXTEND_HEAP_ok he
    obtain ⟨a1, a2, a3, a4, a5, blk1, a6, a7, _⟩ := htrue rfl
    rcases newHeapl_ge hp with hz | hle
    · exact absurd hz h0
    · exact ⟨p, hp, hle, a1, a2, a3, a4, a5, blk1, a6, a7⟩

theorem EXTEND_inline_push (cfg : genericStackConfig) (fuel : Nat) (allocOk : Bool)
    (s : genericStack) (hroom : s.usedl < cfg.GENERICSTACK_DEFAULT_LENGTH) :
    _GENERICSTACK_EXTEND cfg fuel allocOk s (s.usedl + 1) s.usedl = Outcome.ok (true, s) := by
  unfold _GENERICSTACK_EXTEND
  rw [extendCapacity_nogrow cfg fuel allocOk s (s.usedl + 1) (Or.inl (by omega))]
  simp

theorem push_inline (cfg : genericStackConfig) (hcfg : cfg.GENERICSTACK_DEFAULT_LENGTH < sizeModulus cfg)
    (s : genericStack) (call : PushCall) (hin : s.inline cfg)
    (hroom : s.usedl < cfg.GENERICSTACK_DEFAULT_LENGTH) :
    ∃ s1, call.run cfg s = Outcome.ok (true, s1) ∧ s1.inline cfg ∧ s1.usedl = s.usedl + 1 := by
  obtain ⟨h1, h2, h3, h4, h5⟩ := hin
  have hadd : sizeAdd cfg s.usedl 1 = s.usedl + 1 := sizeAdd_of_lt (by omega)
  have hpar : ¬ (cfg.GENERICSTACK_PARANOID = true ∧ s.usedl + 1 < s.usedl) := by omega
  have hblk : s.block = some s.defaultItems := by
    unfold genericStack.block
    rw [h1]
  have hlt : s.usedl < s.defaultItems.length := by omega
  have hget : s.defaultItems[s.usedl]? = some (s.defaultItems[s.usedl]) :=
    List.getElem?_eq_getElem hlt
  unfold PushCall.run
  cases hp : call.payload with
  | none =>
    refine ⟨({ s with usedl := s.usedl + 1 } : genericStack).setBlock
      (s.defaultItems.set s.usedl
        { s.defaultItems[s.usedl] with type := some GENERICSTACKITEMTYPE_NA }), ?_, ?_, ?_⟩
    · simp only [GENERICSTACK_PUSH_NA, _GENERICSTACK_SET_NA, hadd, hpar, if_false,
        EXTEND_inline_push cfg _ _ s hroom, Outcome.bind_ok, if_true, Nat.lt_succ_self]
      unfold genericStack.modify
      have hblk2 : ({ s with usedl := s.usedl + 1 } : genericStack).block =
          some s.defaultItems := hblk
      rw [hblk2]
      simp only [hget, Outcome.bind_ok]
    · unfold genericStack.inline genericStack.setBlock
      simp [h1, h2, h3, h4, h5]
    · unfold genericStack.setBlock
      simp [h1]
  | some call3 =>
    obtain ⟨itemType, dst, var⟩ := call3
    refine ⟨({ s with usedl := s.usedl + 1 } : genericStack).setBlock
      (s.defaultItems.set s.usedl
        { type := some itemType, u := genericStackItemUnion.stored dst var }), ?_, ?_, ?_⟩
    · simp only [GENERICSTACK_PUSH, __GENERICSTACK_SET_BY_TYPE, hadd, hpar, if_false,
        EXTEND_inline_push cfg _ _ s hroom, Outcome.bind_ok, if_true, Nat.lt_succ_self]
      unfold genericStack.modify
      have hblk2 : ({ s with usedl := s.usedl + 1 } : genericStack).block =
          some s.defaultItems := hblk
      rw [hblk2]
      simp only [hget, Outcome.bind_ok]
    · unfold genericStack.inline genericStack.setBlock
      simp [h1, h2, h3, h4, h5]
    · unfold genericStack.setBlock
      simp [h1]

theorem runPushes_inline (cfg : genericStackConfig)
    (hcfg : cfg.GENERICSTACK_DEFAULT_LENGTH < sizeModulus cfg) :
    ∀ (calls : List PushCall) (s : genericStack), s.inline cfg →
      s.usedl + calls.length ≤ cfg.GENERICSTACK_DEFAULT_LENGTH →
      ∃ s1, runPushes cfg s calls = Outcome.ok (List.replicate calls.length true, s1) ∧
        s1.inline cfg ∧ s1.usedl = s.usedl + calls.length := by
  intro calls
  induction calls with
  | nil =>
    intro s hin _
    exact ⟨s, rfl, hin, rfl⟩
  | cons call rest ih =>
    intro s hin hlen
    simp only [List.length_cons] at hlen
    obtain ⟨s1, hrun, hin1, hu1⟩ := push_inline cfg hcfg s call hin (by omega)
    obtain ⟨s2, hrun2, hin2, hu2⟩ := ih s1 hin1 (by omega)
    refine ⟨s2, ?_, hin2, by rw [hu2, hu1, List.length_cons]; omega⟩
    unfold runPushes
    rw [hrun]
    simp only [Outcome.bind_ok, hrun2, List.length_cons, List.replicate_succ]

theorem EXTEND_fields {cfg : genericStackConfig} {fuel : Nat} {allocOk : Bool}
    {s s2 : genericStack} {wantedl targetIndicel : Nat} {rcb : Bool}
    (h : _GENERICSTACK_EXTEND cfg fuel allocOk s wantedl targetIndicel = Outcome.ok (rcb, s2)) :
    ∃ s1, extendCapacity cfg fuel allocOk s wantedl = Outcome.ok (rcb, s1) ∧
      s2.usedl = s1.usedl ∧ s2.heapl = s1.heapl ∧ s2.lengthl = s1.lengthl ∧
      s2.errori = s1.errori ∧ s2.items = s1.items ∧ s2.initialLengthl = s1.initialLengthl := by
  unfold _GENERICSTACK_EXTEND at h
  obtain ⟨r, hr, hrest⟩ := Outcome.bind_eq_ok h
  obtain ⟨r1, s1⟩ := r
  simp only at hrest
  by_cases ht : s1.usedl < targetIndicel
  · rw [if_pos ht] at hrest
    obtain ⟨s2b, hm, hfin⟩ := Outcome.bind_eq_ok hrest
    simp only [Outcome.ok.injEq, Prod.mk.injEq] at hfin
    obtain ⟨hr1, hs2⟩ := hfin
    subst hs2
    subst hr1
    obtain ⟨blk, blk2, _, _, _, hset, _, _, _, _, _⟩ := NA_MEMSET_ok hm
    have hfields := s1.setBlock_fields blk2
    rw [← hset] at hfields
    obtain ⟨f1, f2, f3, f4, f5, f6⟩ := hfields
    exact ⟨s1, hr, f2, f4, f3, f5, f1, f6⟩
  · rw [if_neg ht] at hrest
    simp only [Outcome.ok.injEq, Prod.mk.injEq] at hrest
    obtain ⟨hr1, hs2⟩ := hrest
    subst hs2
    subst hr1
    exact ⟨s1, hr, rfl, rfl, rfl, rfl, rfl, rfl⟩

theorem NA_MEMSET_ne_outOfFuel (cfg : genericStackConfig) (s : genericStack)
    (startl endl : Nat) : _GENERICSTACK_NA_MEMSET cfg s startl endl ≠ Outcome.outOfFuel := by
  unfold _GENERICSTACK_NA_MEMSET
  cases s.block with
  | none => simp
  | some blk =>
    simp only
    split <;> simp

theorem CREATE_HEAP_ne_outOfFuel (cfg : genericStackConfig) (allocOk : Bool)
    (s : genericStack) (heapl : Nat) :
    _GENERICSTACK_CREATE_HEAP cfg allocOk s heapl ≠ Outcome.outOfFuel := by
  unfold _GENERICSTACK_CREATE_HEAP
  split
  · simp only
    split
    · split <;> simp
    · simp
  · simp

theorem EXTEND_HEAP_ne_outOfFuel (cfg : genericStackConfig) (allocOk : Bool)
    (s : genericStack) (heapl : Nat) :
    _GENERICSTACK_EXTEND_HEAP cfg allocOk s heapl ≠ Outcome.outOfFuel := by
  unfold _GENERICSTACK_EXTEND_HEAP
  split
  · split
    · simp
    · split <;> simp
  · split <;> simp
  · simp
  · simp

theorem EXTEND_ne_outOfFuel {cfg : genericStackConfig} {fuel : Nat} {allocOk : Bool}
    {s : genericStack} {wantedl targetIndicel p : Nat}
    (hp : newHeapl cfg fuel wantedl = Outcome.ok p) :
    _GENERICSTACK_EXTEND cfg fuel allocOk s wantedl targetIndicel ≠ Outcome.outOfFuel := by
  have hcap : extendCapacity cfg fuel allocOk s wantedl ≠ Outcome.outOfFuel := by
    unfold extendCapacity
    split
    · simp
    · split
      · simp
      · rw [hp]
        simp only [Outcome.bind_ok]
        split
        · simp
        · split
          · exact CREATE_HEAP_ne_outOfFuel _ _ _ _
          · exact EXTEND_HEAP_ne_outOfFuel _ _ _ _
  unfold _GENERICSTACK_EXTEND
  cases hc : extendCapacity cfg fuel allocOk s wantedl with
  | outOfFuel => exact absurd hc hcap
  | undefined => simp
  | ok r =>
    simp only [Outcome.bind_ok]
    split
    · cases hm : _GENERICSTACK_NA_MEMSET cfg r.2 r.2.usedl (sizeSub cfg targetIndicel 1) with
      | outOfFuel => exact absurd hm (NA_MEMSET_ne_outOfFuel _ _ _ _)
      | undefined => simp
      | ok s2 => simp
    · simp

theorem allocItems_of_fit {cfg : genericStackConfig} {heapl : Nat}
    (hsz : 0 < cfg.sizeofItem) (hfit : heapl * cfg.sizeofItem < sizeModulus cfg) :
    allocItems cfg heapl = heapl := by
  unfold allocItems sizeMul
  rw [Nat.mod_eq_of_lt hfit]
  exact Nat.mul_div_cancel _ hsz

theorem isSmallestPowerOfTwoGE_129 : isSmallestPowerOfTwoGE 129 256 := by
  refine ⟨⟨8, by norm_num⟩, by norm_num, ?_⟩
  intro m hm
  by_contra hcon
  have hm7 : m ≤ 7 := by
    by_contra h8
    have : 2 ^ 8 ≤ 2 ^ m := Nat.pow_le_pow_right (by decide) (by omega)
    omega
  have : 2 ^ m ≤ 2 ^ 7 := Nat.pow_le_pow_right (by decide) hm7
  omega

theorem toInt_of_range {x : Int} (h1 : -2147483648 ≤ x) (h2 : x < 2147483648) : toInt x = x := by
  unfold toInt intBits
  norm_num
  omega

theorem toInt_add_mul (x k : Int) : toInt (x + 4294967296 * k) = toInt x := by
  unfold toInt intBits
  norm_num
  have e : x + 4294967296 * k + 2147483648 = x + 2147483648 + 4294967296 * k := by ring
  rw [e, Int.add_mul_emod_self_left]

theorem sizeModulus_eq_mul {cfg : genericStackConfig} (hW : intBits ≤ cfg.sizeBits) :
    sizeModulus cfg = 4294967296 * 2 ^ (cfg.sizeBits - 32) := by
  unfold intBits at hW
  unfold sizeModulus
  have e : cfg.sizeBits = 32 + (cfg.sizeBits - 32) := by omega
  conv_lhs => rw [e, pow_add]
  norm_num

theorem intToSize_of_nonneg {cfg : genericStackConfig} (hW : intBits ≤ cfg.sizeBits)
    {x : Int} (h1 : 0 ≤ x) (h2 : x < 2147483648) : intToSize cfg x = x.toNat := by
  unfold intToSize
  have hM := sizeModulus_eq_mul hW
  have hK : 0 < 2 ^ (cfg.sizeBits - 32) := Nat.pow_pos (by decide)
  have hlt : x < (sizeModulus cfg : Int) := by
    rw [hM]
    push_cast
    have : (0 : Int) < 2 ^ (cfg.sizeBits - 32) := by positivity
    nlinarith
  rw [Int.emod_eq_of_lt h1 hlt]

theorem switchIndex_of_nonneg (cfg : genericStackConfig) (s : genericStack) {i : Int}
    (h1 : 0 ≤ i) (h2 : i < 2147483648) : switchIndex cfg s i = i := by
  unfold switchIndex
  rw [toInt_of_range (by omega) h2, if_neg (by omega)]

theorem switchIndex_of_neg {cfg : genericStackConfig} (hW : intBits ≤ cfg.sizeBits)
    (s : genericStack) {i : Int} (h1 : -2147483648 ≤ i) (h2 : i < 0) :
    switchIndex cfg s i = toInt ((s.usedl : Int) + i) := by
  unfold switchIndex
  rw [toInt_of_range h1 (by omega), if_pos h2]
  unfold sizeAdd intToSize
  have hM := sizeModulus_eq_mul hW
  have hMpos : (0 : Int) < (sizeModulus cfg : Int) := by
    exact_mod_cast sizeModulus_pos cfg
  have hnn : 0 ≤ i % (sizeModulus cfg : Int) := Int.emod_nonneg _ (by omega)
  have hcast : (((s.usedl + (i % (sizeModulus cfg : Int)).toNat) % sizeModulus cfg : Nat) : Int) =
      ((s.usedl : Int) + i) % (sizeModulus cfg : Int) := by
    push_cast
    rw [Int.toNat_of_nonneg hnn, Int.add_emod_emod]
  rw [hcast, Int.emod_def]
  have hM2 : (sizeModulus cfg : Int) = 4294967296 * (2 ^ (cfg.sizeBits - 32) : Nat) := by
    rw [hM]
    push_cast
    ring
  have e : (s.usedl : Int) + i -
      (sizeModulus cfg : Int) * (((s.usedl : Int) + i) / (sizeModulus cfg : Int)) =
      (s.usedl : Int) + i + 4294967296 *
        (-(((2 ^ (cfg.sizeBits - 32) : Nat) : Int) *
          (((s.usedl : Int) + i) / (sizeModulus cfg : Int)))) := by
    rw [hM2]
    ring
  rw [e, toInt_add_mul]

theorem switchIndex_normalised {cfg : genericStackConfig} (hW : intBits ≤ cfg.sizeBits)
    (s : genericStack) (hused : s.usedl ≤ 2147483648) {i : Int}
    (h1 : -2147483648 ≤ i) (h2 : i < 2147483648) :
    switchIndex cfg s i = normalisedIndex s.usedl i := by
  unfold normalisedIndex
  by_cases hneg : i < 0
  · rw [if_pos hneg, switchIndex_of_neg hW s h1 hneg, toInt_of_range (by omega) (by omega)]
  · rw [if_neg hneg, switchIndex_of_nonneg cfg s (by omega) h2]

theorem switch_in_range_test {cfg : genericStackConfig} (hW : intBits ≤ cfg.sizeBits)
    (s : genericStack) (hused : s.usedl ≤ 2147483648) {n : Nat} (hn : n < s.usedl) :
    ¬ (((n : Int) < 0) ∨ s.usedl ≤ intToSize cfg (n : Int)) := by
  rw [intToSize_of_nonneg hW (by omega) (by omega)]
  simp
  omega

theorem switch_detects_out_of_range {cfg : genericStackConfig} (hW : intBits ≤ cfg.sizeBits)
    (s : genericStack) {i : Int} (h1 : -2147483648 ≤ i) (h2 : i < 2147483648)
    (hout : normalisedIndex s.usedl i < 0 ∨ (s.usedl : Int) ≤ normalisedIndex s.usedl i) :
    switchIndex cfg s i < 0 ∨ s.usedl ≤ intToSize cfg (switchIndex cfg s i) := by
  unfold normalisedIndex at hout
  by_cases hneg : i < 0
  · rw [if_pos hneg] at hout
    left
    rw [switchIndex_of_neg hW s h1 hneg, toInt_of_range (by omega) (by omega)]
    omega
  · rw [if_neg hneg] at hout
    right
    rw [switchIndex_of_nonneg cfg s (by omega) h2, intToSize_of_nonneg hW (by omega) h2]
    omega

theorem sizeMul_two_pow {cfg : genericStackConfig} {k : Nat} (hk : k + 1 < cfg.sizeBits) :
    sizeMul cfg (2 ^ k) 2 = 2 ^ (k + 1) := by
  unfold sizeMul sizeModulus
  rw [← pow_succ]
  exact Nat.mod_eq_of_lt (Nat.pow_lt_pow_right (by decide) hk)

theorem sizeMul_two_pow_top {cfg : genericStackConfig} {k : Nat} (hk : k + 1 = cfg.sizeBits) :
    sizeMul cfg (2 ^ k) 2 = 0 := by
  unfold sizeMul sizeModulus
  rw [← pow_succ, hk]
  exact Nat.mod_self _

theorem two_pow_le_half {cfg : genericStackConfig} {k : Nat} (hk : k ≤ cfg.sizeBits - 1) :
    2 ^ k ≤ 2 ^ (cfg.sizeBits - 1) :=
  Nat.pow_le_pow_right (by decide) hk

theorem doublingLoop_paranoid_wrap (cfg : genericStackConfig) (wantedl : Nat)
    (hpar : cfg.GENERICSTACK_PARANOID = true) (hbits : 0 < cfg.sizeBits)
    (hw : 2 ^ (cfg.sizeBits - 1) < wantedl) :
    ∀ (fuel k : Nat), cfg.sizeBits ≤ k + fuel → k ≤ cfg.sizeBits - 1 →
      doublingLoop cfg wantedl fuel (2 ^ k) (2 ^ k) = Outcome.ok 0 := by
  intro fuel
  induction fuel with
  | zero =>
    intro k hk hkw
    omega
  | succ fuel ih =>
    intro k hk hkw
    have hlt : 2 ^ k < wantedl := lt_of_le_of_lt (two_pow_le_half hkw) hw
    unfold doublingLoop
    rw [if_pos hlt]
    by_cases htop : k + 1 = cfg.sizeBits
    · have hmul := sizeMul_two_pow_top htop
      have hpos : 0 < 2 ^ k := Nat.pow_pos (by decide)
      rw [if_pos ⟨hpar, by rw [hmul]; exact hpos⟩]
    · have hmul : sizeMul cfg (2 ^ k) 2 = 2 ^ (k + 1) := sizeMul_two_pow (by omega)
      have hnot : ¬ (2 ^ (k + 1) < 2 ^ k) := by
        have : 2 ^ k ≤ 2 ^ (k + 1) := Nat.pow_le_pow_right (by decide) (by omega)
        omega
      rw [hmul, if_neg (fun h => hnot h.2)]
      exact ih (k + 1) (by omega) (by omega)

theorem doublingLoop_default_diverges (cfg : genericStackConfig) (wantedl : Nat)
    (hpar : cfg.GENERICSTACK_PARANOID = false) (hbits : 0 < cfg.sizeBits)
    (hw : 2 ^ (cfg.sizeBits - 1) < wantedl) :
    ∀ (fuel heapl previousHeapl : Nat),
      (heapl = 0 ∨ ∃ k, k ≤ cfg.sizeBits - 1 ∧ heapl = 2 ^ k) →
      doublingLoop cfg wantedl fuel heapl previousHeapl = Outcome.outOfFuel := by
  intro fuel
  induction fuel with
  | zero =>
    intro heapl prev hshape
    have hlt : heapl < wantedl := by
      rcases hshape with h0 | ⟨k, hk, hk2⟩
      · rw [h0]
        exact lt_of_le_of_lt (Nat.zero_le _) hw
      · rw [hk2]
        exact lt_of_le_of_lt (two_pow_le_half hk) hw
    unfold doublingLoop
    rw [if_pos hlt]
  | succ fuel ih =>
    intro heapl prev hshape
    have hlt : heapl < wantedl := by
      rcases hshape with h0 | ⟨k, hk, hk2⟩
      · rw [h0]
        exact lt_of_le_of_lt (Nat.zero_le _) hw
      · rw [hk2]
        exact lt_of_le_of_lt (two_pow_le_half hk) hw
    unfold doublingLoop
    rw [if_pos hlt, if_neg (by simp [hpar])]
    apply ih
    rcases hshape with h0 | ⟨k, hk, hk2⟩
    · left
      rw [h0]
      unfold sizeMul
      simp
    · by_cases htop : k + 1 = cfg.sizeBits
      · left
        rw [hk2]
        exact sizeMul_two_pow_top htop
      · right
        refine ⟨k + 1, by omega, ?_⟩
        rw [hk2]
        exact sizeMul_two_pow (by omega)

theorem not_pow_two_test {cfg : genericStackConfig} {wantedl : Nat}
    (hw : 2 ^ (cfg.sizeBits - 1) < wantedl) (hM : wantedl < sizeModulus cfg)
    (hbits : 0 < cfg.sizeBits) : ¬ (wantedl &&& sizeSub cfg wantedl 1 = 0) := by
  intro ht
  have hpos : 0 < wantedl := lt_of_le_of_lt (Nat.zero_le _) hw
  rw [sizeSub_of_le hpos hM] at ht
  obtain ⟨k, hk⟩ := pow_two_of_and_pred_eq_zero hpos ht
  rw [hk] at hw hM
  unfold sizeModulus at hM
  have h1 := (Nat.pow_lt_pow_iff_right (by decide : 1 < 2)).mp hw
  have h2 := (Nat.pow_lt_pow_iff_right (by decide : 1 < 2)).mp hM
  omega

theorem newHeapl_paranoid_wrap {cfg : genericStackConfig} {fuel wantedl : Nat}
    (hpar : cfg.GENERICSTACK_PARANOID = true) (hbits : 0 < cfg.sizeBits)
    (hw : 2 ^ (cfg.sizeBits - 1) < wantedl) (hM : wantedl < sizeModulus cfg)
    (hfuel : cfg.sizeBits ≤ fuel) : newHeapl cfg fuel wantedl = Outcome.ok 0 := by
  unfold newHeapl
  rw [if_neg (not_pow_two_test hw hM hbits)]
  have h := doublingLoop_paranoid_wrap cfg wantedl hpar hbits hw fuel 0 (by omega) (by omega)
  simpa using h

theorem newHeapl_default_diverges {cfg : genericStackConfig} (fuel : Nat) {wantedl : Nat}
    (hpar : cfg.GENERICSTACK_PARANOID = false) (hbits : 0 < cfg.sizeBits)
    (hw : 2 ^ (cfg.sizeBits - 1) < wantedl) (hM : wantedl < sizeModulus cfg) :
    newHeapl cfg fuel wantedl = Outcome.outOfFuel := by
  unfold newHeapl
  rw [if_neg (not_pow_two_test hw hM hbits)]
  exact doublingLoop_default_diverges cfg wantedl hpar hbits hw fuel 1 1
    (Or.inr ⟨0, by omega, by simp⟩)

theorem EXTEND_default_diverges {cfg : genericStackConfig} (fuel : Nat) (allocOk : Bool)
    (s : genericStack) {wantedl : Nat} (targetIndicel : Nat)
    (hpar : cfg.GENERICSTACK_PARANOID = false) (hbits : 0 < cfg.sizeBits)
    (hd : cfg.GENERICSTACK_DEFAULT_LENGTH < wantedl) (hh : s.heapl < wantedl)
    (hw : 2 ^ (cfg.sizeBits - 1) < wantedl) (hM : wantedl < sizeModulus cfg) :
    _GENERICSTACK_EXTEND cfg fuel allocOk s wantedl targetIndicel = Outcome.outOfFuel := by
  unfold _GENERICSTACK_EXTEND extendCapacity
  rw [if_neg (by omega), if_neg (by omega), newHeapl_default_diverges fuel hpar hbits hw hM]
  rfl

theorem sizeMul_two_pow_ge {cfg : genericStackConfig} {k : Nat} (hk : cfg.sizeBits ≤ k + 1) :
    sizeMul cfg (2 ^ k) 2 = 0 := by
  unfold sizeMul sizeModulus
  rw [← pow_succ]
  exact Nat.mod_eq_zero_of_dvd (Nat.pow_dvd_pow 2 hk)

theorem doublingLoop_paranoid_total (cfg : genericStackConfig) (wantedl : Nat)
    (hpar : cfg.GENERICSTACK_PARANOID = true) :
    ∀ (fuel k : Nat), cfg.sizeBits ≤ k + fuel → k < cfg.sizeBits →
      ∃ p, doublingLoop cfg wantedl fuel (2 ^ k) (2 ^ k) = Outcome.ok p := by
  intro fuel
  induction fuel with
  | zero =>
    intro k hk hkw
    omega
  | succ fuel ih =>
    intro k hk hkw
    unfold doublingLoop
    by_cases hlt : 2 ^ k < wantedl
    · rw [if_pos hlt]
      by_cases htop : k + 1 < cfg.sizeBits
      · have hmul : sizeMul cfg (2 ^ k) 2 = 2 ^ (k + 1) := sizeMul_two_pow htop
        have hnot : ¬ (2 ^ (k + 1) < 2 ^ k) := by
          have : 2 ^ k ≤ 2 ^ (k + 1) := Nat.pow_le_pow_right (by decide) (by omega)
          omega
        rw [hmul, if_neg (fun h => hnot h.2)]
        exact ih (k + 1) (by omega) htop
      · have hmul : sizeMul cfg (2 ^ k) 2 = 0 := sizeMul_two_pow_ge (by omega)
        have hpos : 0 < 2 ^ k := Nat.pow_pos (by decide)
        rw [if_pos ⟨hpar, by rw [hmul]; exact hpos⟩]
        exact ⟨0, rfl⟩
    · rw [if_neg hlt]
      exact ⟨2 ^ k, rfl⟩

theorem newHeapl_paranoid_total {cfg : genericStackConfig} {fuel : Nat} (wantedl : Nat)
    (hpar : cfg.GENERICSTACK_PARANOID = true) (hbits : 0 < cfg.sizeBits)
    (hfuel : cfg.sizeBits ≤ fuel) : ∃ p, newHeapl cfg fuel wantedl = Outcome.ok p := by
  unfold newHeapl
  by_cases ht : wantedl &&& sizeSub cfg wantedl 1 = 0
  · rw [if_pos ht]
    exact ⟨wantedl, rfl⟩
  · rw [if_neg ht]
    have h := doublingLoop_paranoid_total cfg wantedl hpar fuel 0 (by omega) hbits
    simpa using h

theorem EXTEND_ne_outOfFuel_of_nogrow {cfg : genericStackConfig} {fuel : Nat} {allocOk : Bool}
    {s : genericStack} {wantedl targetIndicel : Nat}
    (hng : wantedl ≤ cfg.GENERICSTACK_DEFAULT_LENGTH ∨ wantedl ≤ s.heapl) :
    _GENERICSTACK_EXTEND cfg fuel allocOk s wantedl targetIndicel ≠ Outcome.outOfFuel := by
  unfold _GENERICSTACK_EXTEND
  rw [extendCapacity_nogrow cfg fuel allocOk s wantedl hng]
  simp only [Outcome.bind_ok]
  split
  · cases hm : _GENERICSTACK_NA_MEMSET cfg s s.usedl (sizeSub cfg targetIndicel 1) with
    | outOfFuel => exact absurd hm (NA_MEMSET_ne_outOfFuel _ _ _ _)
    | undefined => simp
    | ok s2 => simp
  · simp

theorem EXTEND_terminates {cfg : genericStackConfig} {fuel : Nat} (allocOk : Bool)
    (s : genericStack) (wantedl targetIndicel : Nat) (hbits : 0 < cfg.sizeBits)
    (hfuel : cfg.sizeBits ≤ fuel)
    (hguard : cfg.GENERICSTACK_PARANOID = true ∨ wantedl ≤ 2 ^ (cfg.sizeBits - 1)) :
    _GENERICSTACK_EXTEND cfg fuel allocOk s wantedl targetIndicel ≠ Outcome.outOfFuel := by
  rcases hguard with hpar | hw
  · obtain ⟨p, hp⟩ := newHeapl_paranoid_total wantedl hpar hbits hfuel
    exact EXTEND_ne_outOfFuel hp
  · by_cases h0 : wantedl = 0
    · exact EXTEND_ne_outOfFuel_of_nogrow (Or.inl (by omega))
    · obtain ⟨p, hp, _⟩ := newHeapl_ok cfg fuel wantedl (by omega) hw hbits hfuel
      exact EXTEND_ne_outOfFuel hp

theorem bind_ne_outOfFuel {α β : Type} {x : Outcome α} {f : α → Outcome β}
    (hx : x ≠ Outcome.outOfFuel) (hf : ∀ a, f a ≠ Outcome.outOfFuel) :
    x.bind f ≠ Outcome.outOfFuel := by
  cases x with
  | ok a => exact hf a
  | undefined => simp
  | outOfFuel => exact absurd rfl hx

theorem modify_ne_outOfFuel (s : genericStack) (i : Nat)
    (f : genericStackItem → genericStackItem) : s.modify i f ≠ Outcome.outOfFuel := by
  unfold genericStack.modify
  split
  · simp
  · split <;> simp

theorem SET_BY_TYPE_ne_outOfFuel {cfg : genericStackConfig} {fuel : Nat} {allocOk : Bool}
    {s : genericStack} {indexl : Nat} (itemType : genericStackItemType)
    (dst : genericStackItemMember) (var : Int)
    (h : _GENERICSTACK_EXTEND cfg fuel allocOk s (sizeAdd cfg indexl 1) indexl ≠
      Outcome.outOfFuel) :
    __GENERICSTACK_SET_BY_TYPE cfg fuel allocOk itemType dst s var indexl ≠
      Outcome.outOfFuel := by
  unfold __GENERICSTACK_SET_BY_TYPE
  simp only
  split
  · simp
  · apply bind_ne_outOfFuel h
    intro r
    split
    · exact bind_ne_outOfFuel (modify_ne_outOfFuel _ _ _) (fun _ => by simp)
    · simp

theorem SET_NA_ne_outOfFuel {cfg : genericStackConfig} {fuel : Nat} {allocOk : Bool}
    {s : genericStack} {indexl : Nat}
    (h : _GENERICSTACK_EXTEND cfg fuel allocOk s (sizeAdd cfg indexl 1) indexl ≠
      Outcome.outOfFuel) :
    _GENERICSTACK_SET_NA cfg fuel allocOk s indexl ≠ Outcome.outOfFuel := by
  unfold _GENERICSTACK_SET_NA
  simp only
  split
  · simp
  · apply bind_ne_outOfFuel h
    intro r
    split
    · exact bind_ne_outOfFuel (modify_ne_outOfFuel _ _ _) (fun _ => by simp)
    · simp

theorem doublingLoop_zero (cfg : genericStackConfig) (wantedl : Nat) :
    ∀ (fuel previousHeapl p : Nat),
      doublingLoop cfg wantedl fuel 0 previousHeapl = Outcome.ok p → p = 0 := by
  intro fuel
  induction fuel with
  | zero =>
    intro prev p h
    unfold doublingLoop at h
    split at h
    · simp at h
    · simp only [Outcome.ok.injEq] at h
      exact h.symm
  | succ fuel ih =>
    intro prev p h
    unfold doublingLoop at h
    split at h
    · split at h
      · simp only [Outcome.ok.injEq] at h
        exact h.symm
      · have hz : sizeMul cfg 0 2 = 0 := by
          unfold sizeMul
          simp
        rw [hz] at h
        exact ih _ _ h
    · simp only [Outcome.ok.injEq] at h
      exact h.symm

theorem doublingLoop_pow (cfg : genericStackConfig) (wantedl : Nat) :
    ∀ (fuel k previousHeapl p : Nat), (k = 0 ∨ 2 ^ (k - 1) < wantedl) →
      doublingLoop cfg wantedl fuel (2 ^ k) previousHeapl = Outcome.ok p →
      p = 0 ∨ ∃ m, p = 2 ^ m ∧ wantedl ≤ 2 ^ m ∧ (m = 0 ∨ 2 ^ (m - 1) < wantedl) := by
  intro fuel
  induction fuel with
  | zero =>
    intro k prev p hk h
    unfold doublingLoop at h
    split at h
    · simp at h
    · rename_i hge
      simp only [Outcome.ok.injEq] at h
      exact Or.inr ⟨k, h.symm, by omega, hk⟩
  | succ fuel ih =>
    intro k prev p hk h
    unfold doublingLoop at h
    split at h
    · rename_i hlt
      split at h
      · simp only [Outcome.ok.injEq] at h
        exact Or.inl h.symm
      · by_cases htop : k + 1 < cfg.sizeBits
        · rw [sizeMul_two_pow htop] at h
          exact ih (k + 1) _ p (Or.inr (by simpa using hlt)) h
        · rw [sizeMul_two_pow_ge (by omega)] at h
          exact Or.inl (doublingLoop_zero cfg wantedl _ _ _ h)
    · rename_i hge
      simp only [Outcome.ok.injEq] at h
      exact Or.inr ⟨k, h.symm, by omega, hk⟩

theorem newHeapl_pow {cfg : genericStackConfig} {fuel wantedl p : Nat}
    (h : newHeapl cfg fuel wantedl = Outcome.ok p) (hpos : 0 < wantedl)
    (hM : wantedl < sizeModulus cfg) (hp : p ≠ 0) : isSmallestPowerOfTwoGE wantedl p := by
  unfold newHeapl at h
  by_cases ht : wantedl &&& sizeSub cfg wantedl 1 = 0
  · rw [if_pos ht] at h
    simp only [Outcome.ok.injEq] at h
    subst h
    rw [sizeSub_of_le hpos hM] at ht
    obtain ⟨k, hk⟩ := pow_two_of_and_pred_eq_zero hpos ht
    exact ⟨⟨k, hk⟩, le_refl _, fun m hm => hm⟩
  · rw [if_neg ht] at h
    have h1 : doublingLoop cfg wantedl fuel (2 ^ 0) 1 = Outcome.ok p := by simpa using h
    rcases doublingLoop_pow cfg wantedl fuel 0 1 p (Or.inl rfl) h1 with h0 | ⟨m, hm, hle, hprev⟩
    · exact absurd h0 hp
    · rw [hm]
      exact isSmallestPowerOfTwoGE_of_prev hle hprev

theorem RESET_fields (s : genericStack) :
    (_GENERICSTACK_RESET s).heapItems = none ∧ (_GENERICSTACK_RESET s).usedl = 0 ∧
    (_GENERICSTACK_RESET s).heapl = 0 ∧ (_GENERICSTACK_RESET s).lengthl = 0 ∧
    (_GENERICSTACK_RESET s).errori = s.errori := by
  unfold _GENERICSTACK_RESET
  split <;> simp_all

theorem set_first_slot_in_place (cfg : genericStackConfig) (fuel : Nat) (allocOk : Bool)
    (s : genericStack) (blk : List genericStackItem) (f : genericStackItem → genericStackItem)
    (hbits : 0 < cfg.sizeBits) (hu : s.usedl = 0) (hb : s.block = some blk)
    (hlen : 0 < blk.length)
    (hcap : 0 < cfg.GENERICSTACK_DEFAULT_LENGTH ∨ 0 < s.heapl) :
    extendCapacity cfg fuel allocOk s 1 = Outcome.ok (true, s) ∧
    ∃ s1, ((_GENERICSTACK_EXTEND cfg fuel allocOk s (sizeAdd cfg s.usedl 1) s.usedl).bind fun r =>
        if r.1 then
          ((if r.2.usedl < sizeAdd cfg s.usedl 1 then
              { r.2 with usedl := sizeAdd cfg s.usedl 1 } else r.2).modify s.usedl f).bind
            fun s3 => Outcome.ok (true, s3)
        else Outcome.ok (false, r.2)) = Outcome.ok (true, s1) ∧
      s1.heapl = s.heapl ∧ s1.lengthl = s.lengthl ∧ s1.items = s.items ∧
      s1.errori = s.errori ∧ s1.usedl = 1 ∧ s1.block = some (blk.set 0 (f blk[0])) := by
  have hM : 0 + 1 < sizeModulus cfg := by
    unfold sizeModulus
    exact Nat.one_lt_two_pow (by omega)
  have hadd : sizeAdd cfg 0 1 = 1 := sizeAdd_of_lt hM
  have hng : 1 ≤ cfg.GENERICSTACK_DEFAULT_LENGTH ∨ 1 ≤ s.heapl := by omega
  have hcapok := extendCapacity_nogrow cfg fuel allocOk s 1 hng
  have hext : _GENERICSTACK_EXTEND cfg fuel allocOk s 1 0 = Outcome.ok (true, s) := by
    unfold _GENERICSTACK_EXTEND
    rw [hcapok]
    simp
  have hblk2 : ({ s with usedl := 1 } : genericStack).block = some blk := hb
  have hget : blk[0]? = some blk[0] := List.getElem?_eq_getElem hlen
  refine ⟨hcapok, ({ s with usedl := 1 } : genericStack).setBlock (blk.set 0 (f blk[0])), ?_, ?_⟩
  · rw [hu, hadd, hext]
    simp only [Outcome.bind_ok, if_true, hu, Nat.lt_succ_self]
    unfold genericStack.modify
    rw [hblk2]
    simp only [hget, Outcome.bind_ok]
  · obtain ⟨a1, a2, a3, a4, a5, _⟩ :=
      genericStack.setBlock_fields ({ s with usedl := 1 } : genericStack) (blk.set 0 (f blk[0]))
    exact ⟨a4, a3, a1, a5, a2, genericStack.block_setBlock hblk2⟩

theorem extendCapacity_frame {cfg : genericStackConfig} {fuel : Nat} {allocOk : Bool}
    {s s1 : genericStack} {wantedl : Nat} {rcb : Bool}
    (h : extendCapacity cfg fuel allocOk s wantedl = Outcome.ok (rcb, s1)) :
    (s1.errori = s.errori ∨ s1.errori = 1) ∧ s.heapl ≤ s1.heapl ∧
    (s.lengthl ≤ max cfg.GENERICSTACK_DEFAULT_LENGTH s.heapl →
      s.lengthl ≤ s1.lengthl ∧ s1.lengthl ≤ max cfg.GENERICSTACK_DEFAULT_LENGTH s1.heapl) := by
  by_cases hng : wantedl ≤ cfg.GENERICSTACK_DEFAULT_LENGTH ∨ wantedl ≤ s.heapl
  · rw [extendCapacity_nogrow cfg fuel allocOk s wantedl hng] at h
    simp only [Outcome.ok.injEq, Prod.mk.injEq] at h
    obtain ⟨_, h2⟩ := h
    subst h2
    exact ⟨Or.inl rfl, le_refl _, fun hl => ⟨le_refl _, hl⟩⟩
  · have hd : cfg.GENERICSTACK_DEFAULT_LENGTH < wantedl := by omega
    have hh : s.heapl < wantedl := by omega
    cases rcb with
    | true =>
      obtain ⟨p, _, hle, _, g1, g2, g3, _⟩ := extendCapacity_grow_true hd hh h
      refine ⟨Or.inl g3, by omega, fun hl => ?_⟩
      rw [g1, g2]
      omega
    | false =>
      obtain ⟨p, _, hcase⟩ := extendCapacity_grow hd hh h
      rcases hcase with ⟨_, _, hs⟩ | ⟨_, hn, hc⟩ | ⟨_, _, he⟩
      · subst hs
        exact ⟨Or.inr rfl, le_refl _, fun hl => ⟨le_refl _, hl⟩⟩
      · obtain ⟨_, _, _, hfalse, _⟩ := CREATE_HEAP_ok hn hc
        obtain ⟨_, hs⟩ := hfalse rfl
        subst hs
        exact ⟨Or.inr rfl, le_refl _, fun hl => ⟨le_refl _, hl⟩⟩
      · obtain ⟨_, _, _, hfalse, _⟩ := EXTEND_HEAP_ok he
        obtain ⟨_, a1, a2, a3, _⟩ := hfalse rfl
        refine ⟨Or.inr a3, by omega, fun hl => ?_⟩
        rw [a1, a2]
        exact ⟨le_refl _, hl⟩

theorem setter_frame {cfg : genericStackConfig} {fuel : Nat} {allocOk : Bool}
    {s s3 : genericStack} {indexl : Nat} {rcb : Bool}
    (f : genericStackItem → genericStackItem)
    (h : (if cfg.GENERICSTACK_PARANOID ∧ sizeAdd cfg indexl 1 < indexl then
        Outcome.ok (false, { s with errori := 1 })
      else
        (_GENERICSTACK_EXTEND cfg fuel allocOk s (sizeAdd cfg indexl 1) indexl).bind fun r =>
          if r.1 then
            ((if r.2.usedl < sizeAdd cfg indexl 1 then
                { r.2 with usedl := sizeAdd cfg indexl 1 } else r.2).modify indexl f).bind
              fun s3 => Outcome.ok (true, s3)
          else Outcome.ok (false, r.2)) = Outcome.ok (rcb, s3)) :
    (s3.errori = s.errori ∨ s3.errori = 1) ∧ s.heapl ≤ s3.heapl ∧
    (s.lengthl ≤ max cfg.GENERICSTACK_DEFAULT_LENGTH s.heapl →
      s.lengthl ≤ s3.lengthl ∧ s3.lengthl ≤ max cfg.GENERICSTACK_DEFAULT_LENGTH s3.heapl) := by
  split at h
  · simp only [Outcome.ok.injEq, Prod.mk.injEq] at h
    obtain ⟨_, hs⟩ := h
    subst hs
    exact ⟨Or.inr rfl, le_refl _, fun hl => ⟨le_refl _, hl⟩⟩
  · obtain ⟨r, hr, hrest⟩ := Outcome.bind_eq_ok h
    obtain ⟨r1, s2⟩ := r
    obtain ⟨s1, hcap, _, e2, e3, e4, _⟩ := EXTEND_fields hr
    have hframe := extendCapacity_frame hcap
    rw [← e2, ← e3, ← e4] at hframe
    simp only at hrest
    split at hrest
    · obtain ⟨s3b, hm, hfin⟩ := Outcome.bind_eq_ok hrest
      simp only [Outcome.ok.injEq, Prod.mk.injEq] at hfin
      obtain ⟨_, hs⟩ := hfin
      subst hs
      obtain ⟨blk, item, _, _, hset⟩ := genericStack.modify_eq_ok hm
      obtain ⟨_, _, a3, a4, a5, _⟩ := genericStack.setBlock_fields
        (if s2.usedl < sizeAdd cfg indexl 1 then
          { s2 with usedl := sizeAdd cfg indexl 1 } else s2) (blk.set indexl (f item))
      rw [← hset] at a3 a4 a5
      have b3 : s3b.lengthl = s2.lengthl := by
        rw [a3]
        split <;> rfl
      have b4 : s3b.heapl = s2.heapl := by
        rw [a4]
        split <;> rfl
      have b5 : s3b.errori = s2.errori := by
        rw [a5]
        split <;> rfl
      rw [b3, b4, b5]
      exact hframe
    · simp only [Outcome.ok.injEq, Prod.mk.injEq] at hrest
      obtain ⟨_, hs⟩ := hrest
      subst hs
      exact hframe

theorem SWITCH_frame {cfg : genericStackConfig} {s s2 : genericStack} {i1 i2 : Int}
    (h : GENERICSTACK_SWITCH cfg s i1 i2 = Outcome.ok s2) :
    (s2.errori = s.errori ∨ s2.errori = 1) ∧ s2.heapl = s.heapl ∧ s2.lengthl = s.lengthl ∧
    s2.usedl = s.usedl ∧ s2.items = s.items := by
  unfold GENERICSTACK_SWITCH at h
  simp only at h
  split at h
  · simp only [Outcome.ok.injEq] at h
    subst h
    exact ⟨Or.inr rfl, rfl, rfl, rfl, rfl⟩
  · split at h
    · obtain ⟨item, _, h1⟩ := Outcome.bind_eq_ok h
      obtain ⟨item2, _, h2⟩ := Outcome.bind_eq_ok h1
      obtain ⟨sa, hma, hmb⟩ := Outcome.bind_eq_ok h2
      obtain ⟨blka, _, _, _, hsa⟩ := genericStack.modify_eq_ok hma
      obtain ⟨blkb, _, _, _, hsb⟩ := genericStack.modify_eq_ok hmb
      obtain ⟨a1, a2, a3, a4, a5, _⟩ := genericStack.setBlock_fields s (blka.set (switchIndex cfg s i1).toNat item2)
      rw [← hsa] at a1 a2 a3 a4 a5
      obtain ⟨b1, b2, b3, b4, b5, _⟩ := genericStack.setBlock_fields sa (blkb.set (switchIndex cfg s i2).toNat item)
      rw [← hsb] at b1 b2 b3 b4 b5
      exact ⟨Or.inl (by rw [b5, a5]), by rw [b4, a4], by rw [b3, a3], by rw [b2, a2],
        by rw [b1, a1]⟩
    · simp only [Outcome.ok.injEq] at h
      subst h
      exact ⟨Or.inl rfl, rfl, rfl, rfl, rfl⟩

theorem Operation.run_frame {cfg : genericStackConfig} {s s2 : genericStack} (op : Operation)
    (h : op.run cfg s = Outcome.ok s2) :
    (s2.errori = s.errori ∨ s2.errori = 1) ∧
    (op ≠ Operation.reset → s.heapl ≤ s2.heapl ∧
      (s.lengthl ≤ max cfg.GENERICSTACK_DEFAULT_LENGTH s.heapl →
        s.lengthl ≤ s2.lengthl ∧
          s2.lengthl ≤ max cfg.GENERICSTACK_DEFAULT_LENGTH s2.heapl)) := by
  cases op with
  | set fuel allocOk itemType dst var indexl =>
    unfold Operation.run at h
    obtain ⟨r, hr, hfin⟩ := Outcome.bind_eq_ok h
    obtain ⟨rcb, s3⟩ := r
    simp only [Outcome.ok.injEq] at hfin
    subst hfin
    have hf := setter_frame _ hr
    exact ⟨hf.1, fun _ => hf.2⟩
  | setNA fuel allocOk indexl =>
    unfold Operation.run at h
    obtain ⟨r, hr, hfin⟩ := Outcome.bind_eq_ok h
    obtain ⟨rcb, s3⟩ := r
    simp only [Outcome.ok.injEq] at hfin
    subst hfin
    have hf := setter_frame _ hr
    exact ⟨hf.1, fun _ => hf.2⟩
  | push fuel allocOk itemType dst var =>
    unfold Operation.run at h
    obtain ⟨r, hr, hfin⟩ := Outcome.bind_eq_ok h
    obtain ⟨rcb, s3⟩ := r
    simp only [Outcome.ok.injEq] at hfin
    subst hfin
    have hf := setter_frame _ hr
    exact ⟨hf.1, fun _ => hf.2⟩
  | pushNA fuel allocOk =>
    unfold Operation.run at h
    obtain ⟨r, hr, hfin⟩ := Outcome.bind_eq_ok h
    obtain ⟨rcb, s3⟩ := r
    simp only [Outcome.ok.injEq] at hfin
    subst hfin
    have hf := setter_frame _ hr
    exact ⟨hf.1, fun _ => hf.2⟩
  | pop dst =>
    unfold Operation.run GENERICSTACK_POP at h
    obtain ⟨r, hr, hfin⟩ := Outcome.bind_eq_ok h
    obtain ⟨var, hv, hr2⟩ := Outcome.bind_eq_ok hr
    simp only [Outcome.ok.injEq] at hr2 hfin
    subst hr2
    subst hfin
    exact ⟨Or.inl rfl, fun _ => ⟨le_refl _, fun hl => ⟨le_refl _, hl⟩⟩⟩
  | popNA =>
    unfold Operation.run GENERICSTACK_POP_NA at h
    simp only [Outcome.ok.injEq] at h
    subst h
    exact ⟨Or.inl rfl, fun _ => ⟨le_refl _, fun hl => ⟨le_refl _, hl⟩⟩⟩
  | relax =>
    unfold Operation.run _GENERICSTACK_RELAX at h
    simp only [Outcome.ok.injEq] at h
    subst h
    exact ⟨Or.inl rfl, fun _ => ⟨le_refl _, fun hl => ⟨le_refl _, hl⟩⟩⟩
  | reset =>
    unfold Operation.run at h
    simp only [Outcome.ok.injEq] at h
    subst h
    exact ⟨Or.inl (RESET_fields s).2.2.2.2, fun hne => absurd rfl hne⟩
  | switch i1 i2 =>
    unfold Operation.run at h
    obtain ⟨a1, a2, a3, _⟩ := SWITCH_frame h
    refine ⟨a1, fun _ => ⟨by omega, fun hl => ?_⟩⟩
    rw [a2, a3]
    exact ⟨le_refl _, hl⟩

theorem IS_iff (t : genericStack) (T : genericStackItemType) (i : Nat) :
    GENERICSTACK_IS t T i = Outcome.ok true ↔
      (i < t.usedl ∧ GENERICSTACKITEMTYPE t i = Outcome.ok T) := by
  unfold GENERICSTACK_IS GENERICSTACK_EXISTS
  by_cases hi : i < t.usedl
  · simp only [hi, decide_True, if_true, true_and]
    cases hty : GENERICSTACKITEMTYPE t i with
    | ok T2 => simp
    | undefined => simp
    | outOfFuel => simp
  · simp [hi]

theorem sizeSub_zero_one (cfg : genericStackConfig) :
    sizeSub cfg 0 1 = 2 ^ cfg.sizeBits - 1 := by
  unfold sizeSub sizeModulus
  by_cases hW : cfg.sizeBits = 0
  · rw [hW]
    simp
  · have hlt : 1 < 2 ^ cfg.sizeBits := Nat.one_lt_two_pow hW
    rw [Nat.zero_mod, Nat.mod_eq_of_lt hlt, Nat.zero_add]
    exact Nat.mod_eq_of_lt (by omega)

theorem INIT_fields (cfg : genericStackConfig) (s : genericStack) :
    (_GENERICSTACK_INIT cfg s).usedl = 0 ∧ (_GENERICSTACK_INIT cfg s).heapl = 0 ∧
    (_GENERICSTACK_INIT cfg s).heapItems = none ∧ (_GENERICSTACK_INIT cfg s).errori = 0 ∧
    (_GENERICSTACK_INIT cfg s).lengthl = cfg.GENERICSTACK_DEFAULT_LENGTH ∧
    (_GENERICSTACK_INIT cfg s).initialLengthl = cfg.GENERICSTACK_DEFAULT_LENGTH ∧
    (_GENERICSTACK_INIT cfg s).defaultItems = s.defaultItems ∧
    (_GENERICSTACK_INIT cfg s).items ≠ genericStackItemsPtr.heapItems ∧
    (_GENERICSTACK_INIT cfg s).items ≠ genericStackItemsPtr.freed := by
  unfold _GENERICSTACK_INIT
  split
  · simp
  · rename_i h
    have h0 : cfg.GENERICSTACK_DEFAULT_LENGTH = 0 := by omega
    simp [h0]

theorem EXTEND_INIT_postcondition {cfg : genericStackConfig} {fuel : Nat} {allocOk : Bool}
    {s0 s2 : genericStack} {lengthl : Nat}
    (h : _GENERICSTACK_EXTEND cfg fuel allocOk (_GENERICSTACK_INIT cfg s0) lengthl 0 =
      Outcome.ok (true, s2)) :
    s2.usedl = 0 ∧ s2.initialLengthl = cfg.GENERICSTACK_DEFAULT_LENGTH ∧ s2.errori = 0 ∧
    (lengthl ≤ cfg.GENERICSTACK_DEFAULT_LENGTH →
      s2.heapl = 0 ∧ s2.lengthl = cfg.GENERICSTACK_DEFAULT_LENGTH ∧ s2.heapItems = none) ∧
    (cfg.GENERICSTACK_DEFAULT_LENGTH < lengthl → lengthl < sizeModulus cfg →
      s2.heapl = s2.lengthl ∧ isSmallestPowerOfTwoGE lengthl s2.heapl ∧
        s2.items = genericStackItemsPtr.heapItems) := by
  obtain ⟨i1, i2, i3, i4, i5, i6, _⟩ := INIT_fields cfg s0
  obtain ⟨s1, hcap, e1, e2, e3, e4, e5, e6⟩ := EXTEND_fields h
  obtain ⟨c1, c2, _⟩ := extendCapacity_ok hcap
  have hsame : s2 = s1 := by
    unfold _GENERICSTACK_EXTEND at h
    rw [hcap] at h
    simp only [Outcome.bind_ok] at h
    rw [if_neg (Nat.not_lt_zero _)] at h
    simp only [Outcome.ok.injEq, Prod.mk.injEq, true_and] at h
    exact h.symm
  refine ⟨by rw [e1, c1, i1], by rw [e6, c2, i6], ?_, ?_, ?_⟩
  · rw [e4]
    rcases (extendCapacity_frame hcap).1 with he | he
    · rw [he, i4]
    · by_cases hng : lengthl ≤ cfg.GENERICSTACK_DEFAULT_LENGTH ∨
          lengthl ≤ (_GENERICSTACK_INIT cfg s0).heapl
      · rw [extendCapacity_nogrow cfg fuel allocOk _ lengthl hng] at hcap
        simp only [Outcome.ok.injEq, Prod.mk.injEq, true_and] at hcap
        rw [← hcap, i4]
      · obtain ⟨p, _, _, _, _, _, g3, _⟩ :=
          extendCapacity_grow_true (by omega) (by omega) hcap
        rw [g3, i4]
  · intro hle
    rw [extendCapacity_nogrow cfg fuel allocOk _ lengthl (Or.inl hle)] at hcap
    simp only [Outcome.ok.injEq, Prod.mk.injEq, true_and] at hcap
    rw [hsame, ← hcap]
    exact ⟨i2, i5, i3⟩
  · intro hgt hM
    have hh : (_GENERICSTACK_INIT cfg s0).heapl < lengthl := by omega
    obtain ⟨p, hp, hle, _, g1, g2, _, g4, _⟩ := extendCapacity_grow_true hgt hh hcap
    refine ⟨by rw [e2, e3, g1, g2], ?_, by rw [e5, g4]⟩
    rw [e2, g1]
    exact newHeapl_pow hp (by omega) hM (by omega)

theorem heapStep_refl (cfg : genericStackConfig) (s : genericStack) : heapStep cfg s s :=
  Or.inl ⟨Iff.rfl, rfl, rfl⟩

theorem heapStep_trans {cfg : genericStackConfig} {s s1 s2 : genericStack}
    (h1 : heapStep cfg s s1) (h2 : heapStep cfg s1 s2) : heapStep cfg s s2 := by
  rcases h2 with ⟨a1, a2, a3⟩ | h2
  · rcases h1 with ⟨b1, b2, b3⟩ | ⟨b1, b2, b3, b4⟩
    · exact Or.inl ⟨a1.trans b1, a2.trans b2, a3.trans b3⟩
    · refine Or.inr ⟨fun hc => b1 (a1.mp hc), a3.trans b2, ?_, ?_⟩
      · rw [a2]
        exact b3
      · rw [a2]
        exact b4
  · exact Or.inr h2

theorem setBlock_heapStep (cfg : genericStackConfig) {s : genericStack}
    {blk : List genericStackItem} (blk2 : List genericStackItem) (hb : s.block = some blk) :
    heapStep cfg s (s.setBlock blk2) := by
  left
  unfold genericStack.block at hb
  unfold genericStack.setBlock
  cases hi : s.items <;> simp_all

theorem extendCapacity_heapStep {cfg : genericStackConfig} {fuel : Nat} {allocOk : Bool}
    {s s1 : genericStack} {wantedl : Nat} {rcb : Bool} (hco : s.heapCoherent)
    (hM : wantedl < sizeModulus cfg)
    (h : extendCapacity cfg fuel allocOk s wantedl = Outcome.ok (rcb, s1)) :
    heapStep cfg s s1 := by
  by_cases hng : wantedl ≤ cfg.GENERICSTACK_DEFAULT_LENGTH ∨ wantedl ≤ s.heapl
  · rw [extendCapacity_nogrow cfg fuel allocOk s wantedl hng] at h
    simp only [Outcome.ok.injEq, Prod.mk.injEq] at h
    obtain ⟨_, h2⟩ := h
    subst h2
    exact heapStep_refl cfg s
  · have hd : cfg.GENERICSTACK_DEFAULT_LENGTH < wantedl := by omega
    have hh : s.heapl < wantedl := by omega
    cases rcb with
    | true =>
      obtain ⟨p, hp, hle, _, g1, _, _, g4, blk1, g5, _⟩ := extendCapacity_grow_true hd hh h
      obtain ⟨hpow, _, _⟩ := newHeapl_pow hp (by omega) hM (by omega)
      refine Or.inr ⟨by rw [g5]; simp, g4, ?_, by rw [g1]; omega⟩
      rw [g1]
      exact hpow
    | false =>
      obtain ⟨p, _, hcase⟩ := extendCapacity_grow hd hh h
      rcases hcase with ⟨_, _, hs⟩ | ⟨_, hn, hc⟩ | ⟨_, hne, he⟩
      · subst hs
        exact heapStep_refl cfg s
      · obtain ⟨_, _, _, hfalse, _⟩ := CREATE_HEAP_ok hn hc
        obtain ⟨_, hs⟩ := hfalse rfl
        subst hs
        exact heapStep_refl cfg s
      · obtain ⟨_, _, _, hfalse, _⟩ := EXTEND_HEAP_ok he
        obtain ⟨_, a1, _, _, a4, a5⟩ := hfalse rfl
        have hi := hco hne
        have hi1 : s1.items = genericStackItemsPtr.heapItems := by rw [a4, hi]
        unfold genericStack.block at a5
        rw [hi, hi1] at a5
        simp only at a5
        exact Or.inl ⟨by rw [a5], a1, a4⟩

theorem NA_MEMSET_heapStep {cfg : genericStackConfig} {s s2 : genericStack} {startl endl : Nat}
    (h : _GENERICSTACK_NA_MEMSET cfg s startl endl = Outcome.ok s2) : heapStep cfg s s2 := by
  obtain ⟨blk, blk2, _, _, hb, hs2, _⟩ := NA_MEMSET_ok h
  rw [hs2]
  exact setBlock_heapStep cfg blk2 hb

theorem modify_heapStep (cfg : genericStackConfig) {s s2 : genericStack} {i : Nat}
    {f : genericStackItem → genericStackItem} (h : s.modify i f = Outcome.ok s2) :
    heapStep cfg s s2 := by
  obtain ⟨blk, item, hb, _, hs2⟩ := genericStack.modify_eq_ok h
  rw [hs2]
  exact setBlock_heapStep cfg _ hb

theorem EXTEND_heapStep {cfg : genericStackConfig} {fuel : Nat} {allocOk : Bool}
    {s s2 : genericStack} {wantedl targetIndicel : Nat} {rcb : Bool} (hco : s.heapCoherent)
    (hM : wantedl < sizeModulus cfg)
    (h : _GENERICSTACK_EXTEND cfg fuel allocOk s wantedl targetIndicel = Outcome.ok (rcb, s2)) :
    heapStep cfg s s2 := by
  unfold _GENERICSTACK_EXTEND at h
  obtain ⟨r, hr, hrest⟩ := Outcome.bind_eq_ok h
  obtain ⟨r1, s1⟩ := r
  have h1 := extendCapacity_heapStep hco hM hr
  simp only at hrest
  split at hrest
  · obtain ⟨s2b, hm, hfin⟩ := Outcome.bind_eq_ok hrest
    simp only [Outcome.ok.injEq, Prod.mk.injEq] at hfin
    obtain ⟨_, hs⟩ := hfin
    subst hs
    exact heapStep_trans h1 (NA_MEMSET_heapStep hm)
  · simp only [Outcome.ok.injEq, Prod.mk.injEq] at hrest
    obtain ⟨_, hs⟩ := hrest
    subst hs
    exact h1

theorem sizeAdd_lt_modulus (cfg : genericStackConfig) (a b : Nat) :
    sizeAdd cfg a b < sizeModulus cfg := by
  unfold sizeAdd
  exact Nat.mod_lt _ (sizeModulus_pos cfg)

theorem setter_heapStep {cfg : genericStackConfig} {fuel : Nat} {allocOk : Bool}
    {s s3 : genericStack} {indexl : Nat} {rcb : Bool}
    (f : genericStackItem → genericStackItem) (hco : s.heapCoherent)
    (h : (if cfg.GENERICSTACK_PARANOID ∧ sizeAdd cfg indexl 1 < indexl then
        Outcome.ok (false, { s with errori := 1 })
      else
        (_GENERICSTACK_EXTEND cfg fuel allocOk s (sizeAdd cfg indexl 1) indexl).bind fun r =>
          if r.1 then
            ((if r.2.usedl < sizeAdd cfg indexl 1 then
                { r.2 with usedl := sizeAdd cfg indexl 1 } else r.2).modify indexl f).bind
              fun s3 => Outcome.ok (true, s3)
          else Outcome.ok (false, r.2)) = Outcome.ok (rcb, s3)) :
    heapStep cfg s s3 := by
  split at h
  · simp only [Outcome.ok.injEq, Prod.mk.injEq] at h
    obtain ⟨_, hs⟩ := h
    subst hs
    exact heapStep_refl cfg s
  · obtain ⟨r, hr, hrest⟩ := Outcome.bind_eq_ok h
    obtain ⟨r1, s2⟩ := r
    have h1 := EXTEND_heapStep hco (sizeAdd_lt_modulus cfg indexl 1) hr
    simp only at hrest
    split at hrest
    · obtain ⟨s3b, hm, hfin⟩ := Outcome.bind_eq_ok hrest
      simp only [Outcome.ok.injEq, Prod.mk.injEq] at hfin
      obtain ⟨_, hs⟩ := hfin
      subst hs
      have hu : heapStep cfg s2 (if s2.usedl < sizeAdd cfg indexl 1 then
          { s2 with usedl := sizeAdd cfg indexl 1 } else s2) := by
        split
        · exact Or.inl ⟨Iff.rfl, rfl, rfl⟩
        · exact heapStep_refl cfg s2
      exact heapStep_trans h1 (heapStep_trans hu (modify_heapStep cfg hm))
    · simp only [Outcome.ok.injEq, Prod.mk.injEq] at hrest
      obtain ⟨_, hs⟩ := hrest
      subst hs
      exact h1

theorem SWITCH_heapStep {cfg : genericStackConfig} {s s2 : genericStack} {i1 i2 : Int}
    (h : GENERICSTACK_SWITCH cfg s i1 i2 = Outcome.ok s2) : heapStep cfg s s2 := by
  unfold GENERICSTACK_SWITCH at h
  simp only at h
  split at h
  · simp only [Outcome.ok.injEq] at h
    subst h
    exact heapStep_refl cfg s
  · split at h
    · obtain ⟨item, _, h1⟩ := Outcome.bind_eq_ok h
      obtain ⟨item2, _, h2⟩ := Outcome.bind_eq_ok h1
      obtain ⟨sa, hma, hmb⟩ := Outcome.bind_eq_ok h2
      exact heapStep_trans (modify_heapStep cfg hma) (modify_heapStep cfg hmb)
    · simp only [Outcome.ok.injEq] at h
      subst h
      exact heapStep_refl cfg s

theorem Operation.run_heapStep {cfg : genericStackConfig} {s s2 : genericStack}
    (op : Operation) (hop : op ≠ Operation.reset) (hco : s.heapCoherent)
    (h : op.run cfg s = Outcome.ok s2) : heapStep cfg s s2 := by
  cases op with
  | set fuel allocOk itemType dst var indexl =>
    unfold Operation.run at h
    obtain ⟨r, hr, hfin⟩ := Outcome.bind_eq_ok h
    obtain ⟨rcb, s3⟩ := r
    simp only [Outcome.ok.injEq] at hfin
    subst hfin
    exact setter_heapStep _ hco hr
  | setNA fuel allocOk indexl =>
    unfold Operation.run at h
    obtain ⟨r, hr, hfin⟩ := Outcome.bind_eq_ok h
    obtain ⟨rcb, s3⟩ := r
    simp only [Outcome.ok.injEq] at hfin
    subst hfin
    exact setter_heapStep _ hco hr
  | push fuel allocOk itemType dst var =>
    unfold Operation.run at h
    obtain ⟨r, hr, hfin⟩ := Outcome.bind_eq_ok h
    obtain ⟨rcb, s3⟩ := r
    simp only [Outcome.ok.injEq] at hfin
    subst hfin
    exact setter_heapStep _ hco hr
  | pushNA fuel allocOk =>
    unfold Operation.run at h
    obtain ⟨r, hr, hfin⟩ := Outcome.bind_eq_ok h
    obtain ⟨rcb, s3⟩ := r
    simp only [Outcome.ok.injEq] at hfin
    subst hfin
    exact setter_heapStep _ hco hr
  | pop dst =>
    unfold Operation.run GENERICSTACK_POP at h
    obtain ⟨r, hr, hfin⟩ := Outcome.bind_eq_ok h
    obtain ⟨var, hv, hr2⟩ := Outcome.bind_eq_ok hr
    simp only [Outcome.ok.injEq] at hr2 hfin
    subst hr2
    subst hfin
    exact Or.inl ⟨Iff.rfl, rfl, rfl⟩
  | popNA =>
    unfold Operation.run GENERICSTACK_POP_NA at h
    simp only [Outcome.ok.injEq] at h
    subst h
    exact Or.inl ⟨Iff.rfl, rfl, rfl⟩
  | relax =>
    unfold Operation.run _GENERICSTACK_RELAX at h
    simp only [Outcome.ok.injEq] at h
    subst h
    exact Or.inl ⟨Iff.rfl, rfl, rfl⟩
  | reset => exact absurd rfl hop
  | switch i1 i2 =>
    unfold Operation.run at h
    exact SWITCH_heapStep h

theorem heapStep_coherent {cfg : genericStackConfig} {s s2 : genericStack}
    (h : heapStep cfg s s2) (hco : s.heapCoherent) : s2.heapCoherent := by
  intro hne
  rcases h with ⟨a1, _, a3⟩ | ⟨_, b2, _⟩
  · rw [a3]
    exact hco (fun hc => hne (a1.mpr hc))
  · exact b2

theorem heapStep_shape {cfg : genericStackConfig} {s s2 : genericStack}
    (h : heapStep cfg s s2) (hsh : s.heapShape cfg) : s2.heapShape cfg := by
  unfold genericStack.heapShape at hsh ⊢
  rcases h with ⟨a1, a2, _⟩ | ⟨b1, _, b3, b4⟩
  · rw [a2]
    exact ⟨hsh.1, (not_congr a1).trans hsh.2⟩
  · exact ⟨Or.inr ⟨b3, b4⟩, ⟨fun _ => by omega, fun _ => b1⟩⟩

theorem constructed_cases {cfg : genericStackConfig} {s : genericStack}
    (h : constructed cfg s) :
    ∃ s0 : genericStack, s0.defaultItems.length = cfg.GENERICSTACK_DEFAULT_LENGTH ∧
      (s = _GENERICSTACK_INIT cfg s0 ∨
        ∃ (fuel : Nat) (allocOk : Bool) (lengthl : Nat) (s2 : genericStack),
          lengthl < sizeModulus cfg ∧
          _GENERICSTACK_EXTEND cfg fuel allocOk (_GENERICSTACK_INIT cfg s0) lengthl 0 =
            Outcome.ok (true, s2) ∧
          (s = s2 ∨ s = { s2 with initialLengthl := lengthl })) := by
  have hraw : (rawStack cfg).defaultItems.length = cfg.GENERICSTACK_DEFAULT_LENGTH := by
    unfold rawStack
    simp
  cases h with
  | new s hnew =>
    unfold _GENERICSTACK_NEW at hnew
    simp only [if_true, Option.some.injEq] at hnew
    exact ⟨rawStack cfg, hraw, Or.inl hnew.symm⟩
  | init s0 hlen => exact ⟨s0, hlen, Or.inl rfl⟩
  | newSized fuel allocOk lengthl s hM hnew =>
    unfold _GENERICSTACK_NEW_SIZED at hnew
    simp only [if_true] at hnew
    obtain ⟨r, hr, hfin⟩ := Outcome.bind_eq_ok hnew
    obtain ⟨rcb, s2⟩ := r
    cases rcb with
    | false => simp at hfin
    | true =>
      simp only [if_true, Outcome.ok.injEq, Option.some.injEq] at hfin
      exact ⟨rawStack cfg, hraw, Or.inr ⟨fuel, allocOk, lengthl, s2, hM, hr, Or.inl hfin.symm⟩⟩
  | initSized fuel allocOk lengthl s0 s hlen hM hinit =>
    unfold _GENERICSTACK_INIT_SIZED at hinit
    obtain ⟨r, hr, hfin⟩ := Outcome.bind_eq_ok hinit
    obtain ⟨rcb, s2⟩ := r
    cases rcb with
    | false => simp at hfin
    | true =>
      simp only [if_true, Outcome.ok.injEq, Prod.mk.injEq, true_and] at hfin
      exact ⟨s0, hlen, Or.inr ⟨fuel, allocOk, lengthl, s2, hM, hr, Or.inr hfin.symm⟩⟩

theorem INIT_heap (cfg : genericStackConfig) (s0 : genericStack) :
    (_GENERICSTACK_INIT cfg s0).heapShape cfg ∧ (_GENERICSTACK_INIT cfg s0).heapCoherent := by
  obtain ⟨_, i2, i3, _⟩ := INIT_fields cfg s0
  unfold genericStack.heapShape genericStack.heapCoherent
  rw [i2, i3]
  simp

theorem constructed_heap {cfg : genericStackConfig} {s : genericStack}
    (h : constructed cfg s) : s.heapShape cfg ∧ s.heapCoherent := by
  obtain ⟨s0, _, hcase⟩ := constructed_cases h
  obtain ⟨hsh, hco⟩ := INIT_heap cfg s0
  rcases hcase with hs | ⟨fuel, allocOk, lengthl, s2, hM, hext, hs⟩
  · rw [hs]
    exact ⟨hsh, hco⟩
  · have hstep := EXTEND_heapStep hco hM hext
    rcases hs with hs | hs
    · rw [hs]
      exact ⟨heapStep_shape hstep hsh, heapStep_coherent hstep hco⟩
    · have hstep2 : heapStep cfg (_GENERICSTACK_INIT cfg s0)
          { s2 with initialLengthl := lengthl } :=
        heapStep_trans hstep (Or.inl ⟨Iff.rfl, rfl, rfl⟩)
      rw [hs]
      exact ⟨heapStep_shape hstep2 hsh, heapStep_coherent hstep2 hco⟩

theorem doublingLoop_lt (cfg : genericStackConfig) (wantedl : Nat) :
    ∀ (fuel heapl previousHeapl p : Nat), heapl < sizeModulus cfg →
      doublingLoop cfg wantedl fuel heapl previousHeapl = Outcome.ok p →
      p < sizeModulus cfg := by
  intro fuel
  induction fuel with
  | zero =>
    intro heapl prev p hlt h
    unfold doublingLoop at h
    split at h
    · simp at h
    · simp only [Outcome.ok.injEq] at h
      omega
  | succ fuel ih =>
    intro heapl prev p hlt h
    unfold doublingLoop at h
    split at h
    · split at h
      · simp only [Outcome.ok.injEq] at h
        rw [← h]
        exact sizeModulus_pos cfg
      · have hm : sizeMul cfg heapl 2 < sizeModulus cfg := by
          unfold sizeMul
          exact Nat.mod_lt _ (sizeModulus_pos cfg)
        exact ih _ _ p hm h
    · simp only [Outcome.ok.injEq] at h
      omega

theorem newHeapl_lt {cfg : genericStackConfig} {fuel wantedl p : Nat}
    (hbits : 0 < cfg.sizeBits) (hM : wantedl < sizeModulus cfg)
    (h : newHeapl cfg fuel wantedl = Outcome.ok p) : p < sizeModulus cfg := by
  unfold newHeapl at h
  split at h
  · simp only [Outcome.ok.injEq] at h
    omega
  · have h1 : 1 < sizeModulus cfg := by
      unfold sizeModulus
      exact Nat.one_lt_two_pow (by omega)
    exact doublingLoop_lt cfg wantedl fuel 1 1 p h1 h

theorem EXTEND_HEAP_false {cfg : genericStackConfig} {allocOk : Bool} {s s1 : genericStack}
    {heapl : Nat} (h : _GENERICSTACK_EXTEND_HEAP cfg allocOk s heapl = Outcome.ok (false, s1)) :
    s1 = { s with errori := 1 } ∨ s1 = { s with heapItems := none, errori := 1 } := by
  unfold _GENERICSTACK_EXTEND_HEAP at h
  split at h
  · split at h
    · simp at h
    · split at h
      · simp at h
      · simp only [Outcome.ok.injEq, Prod.mk.injEq, true_and] at h
        exact Or.inl h.symm
  · split at h
    · simp at h
    · simp only [Outcome.ok.injEq, Prod.mk.injEq, true_and] at h
      exact Or.inr h.symm
  · simp at h
  · simp at h

theorem extendCapacity_wellFormed {cfg : genericStackConfig} {fuel : Nat} {allocOk : Bool}
    {s s1 : genericStack} {wantedl : Nat} {rcb : Bool} (hwf : s.wellFormed cfg)
    (hbits : 0 < cfg.sizeBits) (hM : wantedl < sizeModulus cfg)
    (h : extendCapacity cfg fuel allocOk s wantedl = Outcome.ok (rcb, s1)) :
    s1.wellFormed cfg := by
  by_cases hng : wantedl ≤ cfg.GENERICSTACK_DEFAULT_LENGTH ∨ wantedl ≤ s.heapl
  · rw [extendCapacity_nogrow cfg fuel allocOk s wantedl hng] at h
    simp only [Outcome.ok.injEq, Prod.mk.injEq] at h
    obtain ⟨_, h2⟩ := h
    subst h2
    exact hwf
  · have hd : cfg.GENERICSTACK_DEFAULT_LENGTH < wantedl := by omega
    have hh : s.heapl < wantedl := by omega
    obtain ⟨w1, w2, w3, w4, w5, w6, w7⟩ := hwf
    cases rcb with
    | true =>
      obtain ⟨c1, c2, c3, _⟩ := extendCapacity_ok h
      obtain ⟨p, hp, _, _, g1, g2, _, _, blk1, g5, g6⟩ := extendCapacity_grow_true hd hh h
      have hpM := newHeapl_lt hbits hM hp
      refine ⟨by rw [c3]; exact w1, by rw [c3]; exact w2, by rw [c1]; exact w3,
        by rw [g2]; exact hpM, by rw [g1]; exact hpM, by rw [c2]; exact w6, ?_⟩
      rw [g5]
      simp only [Option.getD_some]
      rw [g6]
      exact allocItems_lt cfg p
    | false =>
      obtain ⟨p, _, hcase⟩ := extendCapacity_grow hd hh h
      rcases hcase with ⟨_, _, hs⟩ | ⟨_, hn, hc⟩ | ⟨_, _, he⟩
      · subst hs
        exact ⟨w1, w2, w3, w4, w5, w6, w7⟩
      · obtain ⟨_, _, _, hfalse, _⟩ := CREATE_HEAP_ok hn hc
        obtain ⟨_, hs⟩ := hfalse rfl
        subst hs
        exact ⟨w1, w2, w3, w4, w5, w6, w7⟩
      · rcases EXTEND_HEAP_false he with hs | hs
        · subst hs
          exact ⟨w1, w2, w3, w4, w5, w6, w7⟩
        · subst hs
          refine ⟨w1, w2, w3, w4, w5, w6, ?_⟩
          simp only [Option.getD_none, List.length_nil]
          exact sizeModulus_pos cfg

theorem setBlock_wellFormed {cfg : genericStackConfig} {s : genericStack}
    {blk blk2 : List genericStackItem} (hwf : s.wellFormed cfg) (hb : s.block = some blk)
    (hlen : blk2.length = blk.length) : (s.setBlock blk2).wellFormed cfg := by
  obtain ⟨w1, w2, w3, w4, w5, w6, w7⟩ := hwf
  unfold genericStack.block at hb
  unfold genericStack.setBlock genericStack.wellFormed
  cases hi : s.items with
  | defaultItems =>
    simp only [hi, Option.some.injEq] at hb
    simp only
    rw [hlen, ← hb]
    exact ⟨w1, w2, w3, w4, w5, w6, w7⟩
  | heapItems =>
    simp only [hi] at hb
    simp only [Option.getD_some]
    rw [hb] at w7
    simp only [Option.getD_some] at w7
    rw [hlen]
    exact ⟨w1, w2, w3, w4, w5, w6, w7⟩
  | NULL => simp [hi] at hb
  | freed => simp [hi] at hb

theorem EXTEND_wellFormed {cfg : genericStackConfig} {fuel : Nat} {allocOk : Bool}
    {s s2 : genericStack} {wantedl targetIndicel : Nat} {rcb : Bool} (hwf : s.wellFormed cfg)
    (hbits : 0 < cfg.sizeBits) (hM : wantedl < sizeModulus cfg)
    (h : _GENERICSTACK_EXTEND cfg fuel allocOk s wantedl targetIndicel = Outcome.ok (rcb, s2)) :
    s2.wellFormed cfg := by
  unfold _GENERICSTACK_EXTEND at h
  obtain ⟨r, hr, hrest⟩ := Outcome.bind_eq_ok h
  obtain ⟨r1, s1⟩ := r
  have h1 := extendCapacity_wellFormed hwf hbits hM hr
  simp only at hrest
  split at hrest
  · obtain ⟨s2b, hm, hfin⟩ := Outcome.bind_eq_ok hrest
    simp only [Outcome.ok.injEq, Prod.mk.injEq] at hfin
    obtain ⟨_, hs⟩ := hfin
    subst hs
    obtain ⟨blk, blk2, _, _, hb, hs2, hlen, _⟩ := NA_MEMSET_ok hm
    rw [hs2]
    exact setBlock_wellFormed h1 hb hlen
  · simp only [Outcome.ok.injEq, Prod.mk.injEq] at hrest
    obtain ⟨_, hs⟩ := hrest
    subst hs
    exact h1

theorem modify_wellFormed {cfg : genericStackConfig} {s s2 : genericStack} {i : Nat}
    {f : genericStackItem → genericStackItem} (hwf : s.wellFormed cfg)
    (h : s.modify i f = Outcome.ok s2) : s2.wellFormed cfg := by
  obtain ⟨blk, item, hb, _, hs2⟩ := genericStack.modify_eq_ok h
  rw [hs2]
  exact setBlock_wellFormed hwf hb (List.length_set _ _ _)

theorem setter_wellFormed {cfg : genericStackConfig} {fuel : Nat} {allocOk : Bool}
    {s s3 : genericStack} {indexl : Nat} {rcb : Bool}
    (f : genericStackItem → genericStackItem) (hwf : s.wellFormed cfg)
    (hbits : 0 < cfg.sizeBits)
    (h : (if cfg.GENERICSTACK_PARANOID ∧ sizeAdd cfg indexl 1 < indexl then
        Outcome.ok (false, { s with errori := 1 })
      else
        (_GENERICSTACK_EXTEND cfg fuel allocOk s (sizeAdd cfg indexl 1) indexl).bind fun r =>
          if r.1 then
            ((if r.2.usedl < sizeAdd cfg indexl 1 then
                { r.2 with usedl := sizeAdd cfg indexl 1 } else r.2).modify indexl f).bind
              fun s3 => Outcome.ok (true, s3)
          else Outcome.ok (false, r.2)) = Outcome.ok (rcb, s3)) :
    s3.wellFormed cfg := by
  split at h
  · simp only [Outcome.ok.injEq, Prod.mk.injEq] at h
    obtain ⟨_, hs⟩ := h
    subst hs
    exact hwf
  · obtain ⟨r, hr, hrest⟩ := Outcome.bind_eq_ok h
    obtain ⟨r1, s2⟩ := r
    have h1 := EXTEND_wellFormed hwf hbits (sizeAdd_lt_modulus cfg indexl 1) hr
    simp only at hrest
    split at hrest
    · obtain ⟨s3b, hm, hfin⟩ := Outcome.bind_eq_ok hrest
      simp only [Outcome.ok.injEq, Prod.mk.injEq] at hfin
      obtain ⟨_, hs⟩ := hfin
      subst hs
      have hu : (if s2.usedl < sizeAdd cfg indexl 1 then
          { s2 with usedl := sizeAdd cfg indexl 1 } else s2).wellFormed cfg := by
        split
        · obtain ⟨w1, w2, _, w4, w5, w6, w7⟩ := h1
          exact ⟨w1, w2, sizeAdd_lt_modulus cfg indexl 1, w4, w5, w6, w7⟩
        · exact h1
      exact modify_wellFormed hu hm
    · simp only [Outcome.ok.injEq, Prod.mk.injEq] at hrest
      obtain ⟨_, hs⟩ := hrest
      subst hs
      exact h1

theorem SWITCH_wellFormed {cfg : genericStackConfig} {s s2 : genericStack} {i1 i2 : Int}
    (hwf : s.wellFormed cfg) (h : GENERICSTACK_SWITCH cfg s i1 i2 = Outcome.ok s2) :
    s2.wellFormed cfg := by
  unfold GENERICSTACK_SWITCH at h
  simp only at h
  split at h
  · simp only [Outcome.ok.injEq] at h
    subst h
    exact hwf
  · split at h
    · obtain ⟨item, _, h1⟩ := Outcome.bind_eq_ok h
      obtain ⟨item2, _, h2⟩ := Outcome.bind_eq_ok h1
      obtain ⟨sa, hma, hmb⟩ := Outcome.bind_eq_ok h2
      exact modify_wellFormed (modify_wellFormed hwf hma) hmb
    · simp only [Outcome.ok.injEq] at h
      subst h
      exact hwf

theorem sizeSub_lt_modulus (cfg : genericStackConfig) (a b : Nat) :
    sizeSub cfg a b < sizeModulus cfg := by
  unfold sizeSub
  exact Nat.mod_lt _ (sizeModulus_pos cfg)

theorem Operation.run_wellFormed {cfg : genericStackConfig} {s s2 : genericStack}
    (op : Operation) (hwf : s.wellFormed cfg) (hbits : 0 < cfg.sizeBits)
    (hop : op ≠ Operation.reset) (h : op.run cfg s = Outcome.ok s2) : s2.wellFormed cfg := by
  cases op with
  | set fuel allocOk itemType dst var indexl =>
    unfold Operation.run at h
    obtain ⟨r, hr, hfin⟩ := Outcome.bind_eq_ok h
    obtain ⟨rcb, s3⟩ := r
    simp only [Outcome.ok.injEq] at hfin
    subst hfin
    exact setter_wellFormed _ hwf hbits hr
  | setNA fuel allocOk indexl =>
    unfold Operation.run at h
    obtain ⟨r, hr, hfin⟩ := Outcome.bind_eq_ok h
    obtain ⟨rcb, s3⟩ := r
    simp only [Outcome.ok.injEq] at hfin
    subst hfin
    exact setter_wellFormed _ hwf hbits hr
  | push fuel allocOk itemType dst var =>
    unfold Operation.run at h
    obtain ⟨r, hr, hfin⟩ := Outcome.bind_eq_ok h
    obtain ⟨rcb, s3⟩ := r
    simp only [Outcome.ok.injEq] at hfin
    subst hfin
    exact setter_wellFormed _ hwf hbits hr
  | pushNA fuel allocOk =>
    unfold Operation.run at h
    obtain ⟨r, hr, hfin⟩ := Outcome.bind_eq_ok h
    obtain ⟨rcb, s3⟩ := r
    simp only [Outcome.ok.injEq] at hfin
    subst hfin
    exact setter_wellFormed _ hwf hbits hr
  | pop dst =>
    unfold Operation.run GENERICSTACK_POP at h
    obtain ⟨r, hr, hfin⟩ := Outcome.bind_eq_ok h
    obtain ⟨var, hv, hr2⟩ := Outcome.bind_eq_ok hr
    simp only [Outcome.ok.injEq] at hr2 hfin
    subst hr2
    subst hfin
    obtain ⟨w1, w2, _, w4, w5, w6, w7⟩ := hwf
    exact ⟨w1, w2, sizeSub_lt_modulus cfg _ _, w4, w5, w6, w7⟩
  | popNA =>
    unfold Operation.run GENERICSTACK_POP_NA at h
    simp only [Outcome.ok.injEq] at h
    subst h
    obtain ⟨w1, w2, _, w4, w5, w6, w7⟩ := hwf
    exact ⟨w1, w2, sizeSub_lt_modulus cfg _ _, w4, w5, w6, w7⟩
  | relax =>
    unfold Operation.run _GENERICSTACK_RELAX at h
    simp only [Outcome.ok.injEq] at h
    subst h
    obtain ⟨w1, w2, _, w4, w5, w6, w7⟩ := hwf
    exact ⟨w1, w2, sizeModulus_pos cfg, w4, w5, w6, w7⟩
  | reset => exact absurd rfl hop
  | switch i1 i2 =>
    unfold Operation.run at h
    exact SWITCH_wellFormed hwf h

theorem constructed_wellFormed {cfg : genericStackConfig} {s : genericStack}
    (hcfg : cfg.GENERICSTACK_DEFAULT_LENGTH < sizeModulus cfg) (hbits : 0 < cfg.sizeBits)
    (h : constructed cfg s) : s.wellFormed cfg ∧ s.usedl = 0 := by
  obtain ⟨s0, hlen, hcase⟩ := constructed_cases h
  obtain ⟨i1, i2, i3, _, i5, i6, i7, _⟩ := INIT_fields cfg s0
  have hM := sizeModulus_pos cfg
  have hinit : (_GENERICSTACK_INIT cfg s0).wellFormed cfg := by
    refine ⟨by rw [i7]; exact hlen, by rw [i7, hlen]; exact hcfg, by rw [i1]; exact hM,
      by rw [i5]; exact hcfg, by rw [i2]; exact hM, by rw [i6]; exact hcfg, ?_⟩
    rw [i3]
    exact hM
  rcases hcase with hs | ⟨fuel, allocOk, lengthl, s2, hlM, hext, hs⟩
  · rw [hs]
    exact ⟨hinit, i1⟩
  · have hwf2 := EXTEND_wellFormed hinit hbits hlM hext
    obtain ⟨a1, _⟩ := EXTEND_INIT_postcondition hext
    rcases hs with hs | hs
    · rw [hs]
      exact ⟨hwf2, a1⟩
    · rw [hs]
      obtain ⟨w1, w2, w3, w4, w5, _, w7⟩ := hwf2
      exact ⟨⟨w1, w2, w3, w4, w5, hlM, w7⟩, a1⟩

theorem extendCapacity_ensures {cfg : genericStackConfig} {fuel : Nat} {allocOk : Bool}
    {s s1 : genericStack} {wantedl : Nat}
    (h : extendCapacity cfg fuel allocOk s wantedl = Outcome.ok (true, s1)) :
    wantedl ≤ cfg.GENERICSTACK_DEFAULT_LENGTH ∨ wantedl ≤ s1.heapl := by
  by_cases hng : wantedl ≤ cfg.GENERICSTACK_DEFAULT_LENGTH ∨ wantedl ≤ s.heapl
  · rw [extendCapacity_nogrow cfg fuel allocOk s wantedl hng] at h
    simp only [Outcome.ok.injEq, Prod.mk.injEq, true_and] at h
    rw [← h]
    exact hng
  · obtain ⟨p, _, hle, _, g1, _⟩ := extendCapacity_grow_true (by omega) (by omega) h
    right
    rw [g1]
    exact hle

theorem extendCapacity_false_block {cfg : genericStackConfig} {fuel : Nat} {allocOk : Bool}
    {s s1 : genericStack} {wantedl : Nat}
    (h : extendCapacity cfg fuel allocOk s wantedl = Outcome.ok (false, s1)) :
    s1.block = s.block := by
  by_cases hng : wantedl ≤ cfg.GENERICSTACK_DEFAULT_LENGTH ∨ wantedl ≤ s.heapl
  · rw [extendCapacity_nogrow cfg fuel allocOk s wantedl hng] at h
    simp at h
  · obtain ⟨p, _, hcase⟩ := extendCapacity_grow (by omega) (by omega) h
    rcases hcase with ⟨_, _, hs⟩ | ⟨_, hn, hc⟩ | ⟨_, _, he⟩
    · rw [hs]
      rfl
    · obtain ⟨_, _, _, hfalse, _⟩ := CREATE_HEAP_ok hn hc
      obtain ⟨_, hs⟩ := hfalse rfl
      rw [hs]
      rfl
    · obtain ⟨_, _, _, hfalse, _⟩ := EXTEND_HEAP_ok he
      exact (hfalse rfl).2.2.2.2.2

theorem setter_populated {cfg : genericStackConfig} {fuel : Nat} {allocOk : Bool}
    {s s3 : genericStack} {indexl : Nat} {rcb : Bool}
    (f : genericStackItem → genericStackItem) (hwf : s.wellFormed cfg)
    (hwithin : s.withinCapacity cfg) (hpop : s.populatedDefined)
    (hidx : indexl < sizeModulus cfg)
    (hf : ∀ item, ∃ t, (f item).type = some t)
    (h : (if cfg.GENERICSTACK_PARANOID ∧ sizeAdd cfg indexl 1 < indexl then
        Outcome.ok (false, { s with errori := 1 })
      else
        (_GENERICSTACK_EXTEND cfg fuel allocOk s (sizeAdd cfg indexl 1) indexl).bind fun r =>
          if r.1 then
            ((if r.2.usedl < sizeAdd cfg indexl 1 then
                { r.2 with usedl := sizeAdd cfg indexl 1 } else r.2).modify indexl f).bind
              fun s3 => Outcome.ok (true, s3)
          else Outcome.ok (false, r.2)) = Outcome.ok (rcb, s3)) :
    s3.withinCapacity cfg ∧ s3.populatedDefined := by
  unfold genericStack.withinCapacity at hwithin ⊢
  split at h
  · simp only [Outcome.ok.injEq, Prod.mk.injEq] at h
    obtain ⟨_, hs⟩ := h
    subst hs
    exact ⟨hwithin, hpop⟩
  · obtain ⟨r, hr, hrest⟩ := Outcome.bind_eq_ok h
    obtain ⟨r1, s2⟩ := r
    obtain ⟨s1, hcap, e1, e2, _, _, _, _, hsame, hfill⟩ := EXTEND_ok hidx hr
    obtain ⟨c1, _, _, hcopy⟩ := extendCapacity_ok hcap
    have hheap : s.heapl ≤ s1.heapl := (extendCapacity_frame hcap).2.1
    have hkeep : ∀ blk1, s1.block = some blk1 → ∃ blk2, s2.block = some blk2 ∧
        blk2.length = blk1.length ∧ ∀ j, j < s.usedl → blk2[j]? = blk1[j]? := by
      intro blk1 hblk1
      by_cases ht : s1.usedl < indexl
      · obtain ⟨b1, b2, hb1, hb2, hl, _, hk, _⟩ := hfill ht
        rw [hb1] at hblk1
        simp only [Option.some.injEq] at hblk1
        subst hblk1
        exact ⟨b2, hb2, hl, fun j hj => hk j (Or.inl (by (clear hfill hsame hcopy; omega)))⟩
      · rw [hsame ht]
        exact ⟨blk1, hblk1, rfl, fun _ _ => rfl⟩
    simp only at hrest
    cases r1 with
    | false =>
      simp only [Bool.false_eq_true, if_false, Outcome.ok.injEq, Prod.mk.injEq] at hrest
      obtain ⟨_, hs⟩ := hrest
      subst hs
      refine ⟨by rw [e1, c1, e2]; (clear hfill hsame hcopy; omega), ?_⟩
      intro j hj
      have hj0 : j < s.usedl := by rw [e1, c1] at hj; exact hj
      obtain ⟨blk0, it, t, hb0, hg0, ht0⟩ := hpop j hj0
      have hb1 : s1.block = some blk0 := by rw [extendCapacity_false_block hcap, hb0]
      obtain ⟨blk2, hb2, _, hk⟩ := hkeep blk0 hb1
      exact ⟨blk2, it, t, hb2, by rw [hk j hj0, hg0], ht0⟩
    | true =>
      simp only [if_true] at hrest
      obtain ⟨s3b, hm, hfin⟩ := Outcome.bind_eq_ok hrest
      simp only [Outcome.ok.injEq, Prod.mk.injEq] at hfin
      obtain ⟨_, hs⟩ := hfin
      subst hs
      obtain ⟨blk2, item, hb2u, hget, hs3⟩ := genericStack.modify_eq_ok hm
      have hb2 : s2.block = some blk2 := by
        split at hb2u
        · exact hb2u
        · exact hb2u
      have hlt : indexl < blk2.length := (List.getElem?_eq_some_iff.mp hget).1
      have hlenM := EXTEND_block_length hwf hr hb2
      have hL : sizeAdd cfg indexl 1 = indexl + 1 := sizeAdd_of_lt (by (clear hfill hsame hcopy; omega))
      rw [hL] at hcap hb2u hs3
      have hens := extendCapacity_ensures hcap
      have hb3 : s3b.block = some (blk2.set indexl (f item)) := by
        rw [hs3]
        exact genericStack.block_setBlock hb2u
      obtain ⟨_, a2, _, a4, _⟩ := genericStack.setBlock_fields
        (if s2.usedl < indexl + 1 then { s2 with usedl := indexl + 1 } else s2)
        (blk2.set indexl (f item))
      rw [← hs3] at a2 a4
      have hu3 : s3b.usedl = max s.usedl (indexl + 1) := by
        rw [a2]
        split
        · simp only
          (clear hfill hsame hcopy; omega)
        · (clear hfill hsame hcopy; omega)
      have hh3 : s3b.heapl = s1.heapl := by
        rw [a4, ← e2]
        split <;> rfl
      refine ⟨by rw [hu3, hh3]; (clear hfill hsame hcopy; omega), ?_⟩
      intro j hj
      rw [hu3] at hj
      by_cases hji : j = indexl
      · obtain ⟨t, ht⟩ := hf item
        refine ⟨_, f item, t, hb3, ?_, ht⟩
        rw [hji]
        simp [hlt]
      · have hset : (blk2.set indexl (f item))[j]? = blk2[j]? :=
          List.getElem?_set_ne (fun hc => hji hc.symm)
        by_cases hj0 : j < s.usedl
        · obtain ⟨blk0, it, t, hb0, hg0, ht0⟩ := hpop j hj0
          obtain ⟨blk1, hb1, hpres⟩ := hcopy hwf.1 blk0 hb0
          obtain ⟨blk2b, hb2b, hl, hk⟩ := hkeep blk1 hb1
          rw [hb2] at hb2b
          simp only [Option.some.injEq] at hb2b
          subst hb2b
          have hjl : j < blk1.length := by
            by_cases hng : indexl + 1 ≤ cfg.GENERICSTACK_DEFAULT_LENGTH ∨ indexl + 1 ≤ s.heapl
            · rw [extendCapacity_nogrow cfg fuel allocOk s (indexl + 1) hng] at hcap
              simp only [Outcome.ok.injEq, Prod.mk.injEq, true_and] at hcap
              rw [← hcap, hb0] at hb1
              simp only [Option.some.injEq] at hb1
              rw [← hb1]
              exact (List.getElem?_eq_some_iff.mp hg0).1
            · (clear hfill hsame hcopy; omega)
          exact ⟨_, it, t, hb3, by rw [hset, hk j hj0]; exact hpres j it hj0 hjl hg0, ht0⟩
        · have hjlt : j < indexl := by (clear hfill hsame hcopy; omega)
          have ht : s1.usedl < indexl := by (clear hfill hsame hcopy; omega)
          obtain ⟨b1, b2, _, hb2c, _, _, _, hna⟩ := hfill ht
          rw [hb2] at hb2c
          simp only [Option.some.injEq] at hb2c
          subst hb2c
          obtain ⟨it, hg, hty⟩ := hna j (by (clear hfill hsame hcopy; omega)) hjlt
          exact ⟨_, it, GENERICSTACKITEMTYPE_NA, hb3, by rw [hset]; exact hg, hty⟩

theorem toInt_range (x : Int) : -2147483648 ≤ toInt x ∧ toInt x < 2147483648 := by
  unfold toInt intBits
  norm_num
  omega

theorem switchIndex_range (cfg : genericStackConfig) (s : genericStack) (i : Int) :
    -2147483648 ≤ switchIndex cfg s i ∧ switchIndex cfg s i < 2147483648 := by
  unfold switchIndex
  split
  · exact toInt_range _
  · exact toInt_range _

theorem SWITCH_populated {cfg : genericStackConfig} {s s2 : genericStack} {i1 i2 : Int}
    (hW : intBits ≤ cfg.sizeBits) (hpop : s.populatedDefined)
    (h : GENERICSTACK_SWITCH cfg s i1 i2 = Outcome.ok s2) : s2.populatedDefined := by
  have hu : s2.usedl = s.usedl := (SWITCH_frame h).2.2.2.1
  unfold GENERICSTACK_SWITCH at h
  simp only at h
  split at h
  · simp only [Outcome.ok.injEq] at h
    subst h
    exact hpop
  · rename_i hcond
    split at h
    · have hr1 := switchIndex_range cfg s i1
      have hr2 := switchIndex_range cfg s i2
      have hn1 : 0 ≤ switchIndex cfg s i1 := by
        by_contra hc
        exact hcond (Or.inl (by omega))
      have hn2 : 0 ≤ switchIndex cfg s i2 := by
        by_contra hc
        exact hcond (Or.inr (Or.inr (Or.inl (by omega))))
      have hlt1 : (switchIndex cfg s i1).toNat < s.usedl := by
        by_contra hc
        apply hcond
        right
        left
        rw [intToSize_of_nonneg hW hn1 hr1.2]
        omega
      have hlt2 : (switchIndex cfg s i2).toNat < s.usedl := by
        by_contra hc
        apply hcond
        right
        right
        right
        rw [intToSize_of_nonneg hW hn2 hr2.2]
        omega
      obtain ⟨item, hl1, h1⟩ := Outcome.bind_eq_ok h
      obtain ⟨item2, hl2, h2⟩ := Outcome.bind_eq_ok h1
      obtain ⟨sa, hma, hmb⟩ := Outcome.bind_eq_ok h2
      obtain ⟨blk, hb, hg1⟩ := genericStack.load_eq_ok.mp hl1
      obtain ⟨blk0, hb0, hg2⟩ := genericStack.load_eq_ok.mp hl2
      rw [hb] at hb0
      simp only [Option.some.injEq] at hb0
      subst hb0
      obtain ⟨blka, ita, hba, _, hsa⟩ := genericStack.modify_eq_ok hma
      rw [hb] at hba
      simp only [Option.some.injEq] at hba
      subst hba
      have hbsa : sa.block = some (blk.set (switchIndex cfg s i1).toNat item2) := by
        rw [hsa]
        exact genericStack.block_setBlock hb
      obtain ⟨blkb, itb, hbb, _, hsb⟩ := genericStack.modify_eq_ok hmb
      rw [hbsa] at hbb
      simp only [Option.some.injEq] at hbb
      subst hbb
      have hbs2 : s2.block = some ((blk.set (switchIndex cfg s i1).toNat item2).set
          (switchIndex cfg s i2).toNat item) := by
        rw [hsb]
        exact genericStack.block_setBlock hbsa
      have hty : ∀ n it, n < s.usedl → blk[n]? = some it → ∃ t, it.type = some t := by
        intro n it hn hg
        obtain ⟨blk1, it1, t, hb1, hg1b, ht1⟩ := hpop n hn
        rw [hb] at hb1
        simp only [Option.some.injEq] at hb1
        subst hb1
        rw [hg] at hg1b
        simp only [Option.some.injEq] at hg1b
        subst hg1b
        exact ⟨t, ht1⟩
      have hlen1 : (switchIndex cfg s i1).toNat < blk.length :=
        (List.getElem?_eq_some_iff.mp hg1).1
      have hlen2 : (switchIndex cfg s i2).toNat < blk.length :=
        (List.getElem?_eq_some_iff.mp hg2).1
      intro j hj
      rw [hu] at hj
      by_cases hj2 : j = (switchIndex cfg s i2).toNat
      · obtain ⟨t, ht⟩ := hty _ item hlt1 hg1
        refine ⟨_, item, t, hbs2, ?_, ht⟩
        rw [hj2]
        simp [hlen2]
      · by_cases hj1 : j = (switchIndex cfg s i1).toNat
        · obtain ⟨t, ht⟩ := hty _ item2 hlt2 hg2
          refine ⟨_, item2, t, hbs2, ?_, ht⟩
          rw [List.getElem?_set_ne (fun hc => hj2 hc.symm), hj1]
          simp [hlen1]
        · obtain ⟨blk1, it1, t, hb1, hg1b, ht1⟩ := hpop j hj
          rw [hb] at hb1
          simp only [Option.some.injEq] at hb1
          subst hb1
          refine ⟨_, it1, t, hbs2, ?_, ht1⟩
          rw [List.getElem?_set_ne (fun hc => hj2 hc.symm),
            List.getElem?_set_ne (fun hc => hj1 hc.symm)]
          exact hg1b
    · simp only [Outcome.ok.injEq] at h
      subst h
      exact hpop

theorem Operation.run_populated {cfg : genericStackConfig} {s s2 : genericStack}
    (op : Operation) (hW : intBits ≤ cfg.sizeBits) (hwf : s.wellFormed cfg)
    (hwithin : s.withinCapacity cfg) (hpop : s.populatedDefined)
    (hperm : permittedWithoutReset cfg s op) (h : op.run cfg s = Outcome.ok s2) :
    s2.withinCapacity cfg ∧ s2.populatedDefined := by
  cases op with
  | set fuel allocOk itemType dst var indexl =>
    unfold Operation.run at h
    obtain ⟨r, hr, hfin⟩ := Outcome.bind_eq_ok h
    obtain ⟨rcb, s3⟩ := r
    simp only [Outcome.ok.injEq] at hfin
    subst hfin
    exact setter_populated _ hwf hwithin hpop hperm (fun _ => ⟨itemType, rfl⟩) hr
  | setNA fuel allocOk indexl =>
    unfold Operation.run at h
    obtain ⟨r, hr, hfin⟩ := Outcome.bind_eq_ok h
    obtain ⟨rcb, s3⟩ := r
    simp only [Outcome.ok.injEq] at hfin
    subst hfin
    exact setter_populated _ hwf hwithin hpop hperm
      (fun _ => ⟨GENERICSTACKITEMTYPE_NA, rfl⟩) hr
  | push fuel allocOk itemType dst var =>
    unfold Operation.run at h
    obtain ⟨r, hr, hfin⟩ := Outcome.bind_eq_ok h
    obtain ⟨rcb, s3⟩ := r
    simp only [Outcome.ok.injEq] at hfin
    subst hfin
    exact setter_populated _ hwf hwithin hpop hwf.2.2.1 (fun _ => ⟨itemType, rfl⟩) hr
  | pushNA fuel allocOk =>
    unfold Operation.run at h
    obtain ⟨r, hr, hfin⟩ := Outcome.bind_eq_ok h
    obtain ⟨rcb, s3⟩ := r
    simp only [Outcome.ok.injEq] at hfin
    subst hfin
    exact setter_populated _ hwf hwithin hpop hwf.2.2.1
      (fun _ => ⟨GENERICSTACKITEMTYPE_NA, rfl⟩) hr
  | pop dst =>
    unfold Operation.run GENERICSTACK_POP at h
    obtain ⟨r, hr, hfin⟩ := Outcome.bind_eq_ok h
    obtain ⟨var, hv, hr2⟩ := Outcome.bind_eq_ok hr
    simp only [Outcome.ok.injEq] at hr2 hfin
    subst hr2
    subst hfin
    have hpos : 0 < s.usedl := hperm
    have hsub : sizeSub cfg s.usedl 1 = s.usedl - 1 := sizeSub_of_le hpos hwf.2.2.1
    unfold genericStack.withinCapacity at hwithin ⊢
    refine ⟨by simp only [hsub]; omega, ?_⟩
    intro j hj
    simp only [hsub] at hj
    exact hpop j (by omega)
  | popNA =>
    unfold Operation.run GENERICSTACK_POP_NA at h
    simp only [Outcome.ok.injEq] at h
    subst h
    have hpos : 0 < s.usedl := hperm
    have hsub : sizeSub cfg s.usedl 1 = s.usedl - 1 := sizeSub_of_le hpos hwf.2.2.1
    unfold genericStack.withinCapacity at hwithin ⊢
    refine ⟨by simp only [hsub]; omega, ?_⟩
    intro j hj
    simp only [hsub] at hj
    exact hpop j (by omega)
  | relax =>
    unfold Operation.run _GENERICSTACK_RELAX at h
    simp only [Outcome.ok.injEq] at h
    subst h
    unfold genericStack.withinCapacity
    refine ⟨Nat.zero_le _, ?_⟩
    intro j hj
    exact absurd hj (Nat.not_lt_zero _)
  | reset => exact absurd hperm (fun hc => hc)
  | switch i1 i2 =>
    unfold Operation.run at h
    obtain ⟨_, a2, _, a4, _⟩ := SWITCH_frame h
    unfold genericStack.withinCapacity at hwithin ⊢
    exact ⟨by rw [a2, a4]; exact hwithin, SWITCH_populated hW hpop h⟩

theorem doublingLoop_builds_agree (cfg : genericStackConfig) (wantedl : Nat)
    (hbits : 0 < cfg.sizeBits) (hw : wantedl ≤ 2 ^ (cfg.sizeBits - 1)) :
    ∀ (fuel k previousHeapl : Nat), previousHeapl ≤ 2 ^ k →
      doublingLoop { cfg with GENERICSTACK_PARANOID := true } wantedl fuel (2 ^ k)
          previousHeapl =
        doublingLoop { cfg with GENERICSTACK_PARANOID := false } wantedl fuel (2 ^ k)
          previousHeapl := by
  intro fuel
  induction fuel with
  | zero =>
    intro k prev _
    rfl
  | succ fuel ih =>
    intro k prev hprev
    unfold doublingLoop
    by_cases hlt : 2 ^ k < wantedl
    · have hk : k + 1 < cfg.sizeBits := by
        have h2 : 2 ^ k < 2 ^ (cfg.sizeBits - 1) := lt_of_lt_of_le hlt hw
        have := (Nat.pow_lt_pow_iff_right (by decide : 1 < 2)).mp h2
        omega
      have hmP : sizeMul { cfg with GENERICSTACK_PARANOID := true } (2 ^ k) 2 = 2 ^ (k + 1) :=
        @sizeMul_two_pow { cfg with GENERICSTACK_PARANOID := true } k hk
      have hmD : sizeMul { cfg with GENERICSTACK_PARANOID := false } (2 ^ k) 2 = 2 ^ (k + 1) :=
        @sizeMul_two_pow { cfg with GENERICSTACK_PARANOID := false } k hk
      have hle : 2 ^ k ≤ 2 ^ (k + 1) := Nat.pow_le_pow_right (by decide) (by omega)
      rw [if_pos hlt, if_pos hlt, hmP, hmD, if_neg (fun hc => by omega),
        if_neg (fun hc => by simp at hc)]
      exact ih (k + 1) (2 ^ (k + 1)) (le_refl _)
    · rw [if_neg hlt, if_neg hlt]

theorem newHeapl_builds_agree (cfg : genericStackConfig) (fuel wantedl : Nat)
    (hbits : 0 < cfg.sizeBits) (hw : wantedl ≤ 2 ^ (cfg.sizeBits - 1)) :
    newHeapl { cfg with GENERICSTACK_PARANOID := true } fuel wantedl =
      newHeapl { cfg with GENERICSTACK_PARANOID := false } fuel wantedl := by
  unfold newHeapl
  have h := doublingLoop_builds_agree cfg wantedl hbits hw fuel 0 1 (le_refl _)
  simp only [pow_zero] at h
  rw [h]
  rfl

theorem extendCapacity_builds_agree (cfg : genericStackConfig) (fuel : Nat) (allocOk : Bool)
    (s : genericStack) (wantedl : Nat) (hbits : 0 < cfg.sizeBits)
    (hw : wantedl ≤ 2 ^ (cfg.sizeBits - 1)) :
    extendCapacity { cfg with GENERICSTACK_PARANOID := true } fuel allocOk s wantedl =
      extendCapacity { cfg with GENERICSTACK_PARANOID := false } fuel allocOk s wantedl := by
  unfold extendCapacity
  rw [newHeapl_builds_agree cfg fuel wantedl hbits hw]
  rfl

theorem EXTEND_builds_agree (cfg : genericStackConfig) (fuel : Nat) (allocOk : Bool)
    (s : genericStack) (wantedl targetIndicel : Nat) (hbits : 0 < cfg.sizeBits)
    (hw : wantedl ≤ 2 ^ (cfg.sizeBits - 1)) :
    _GENERICSTACK_EXTEND { cfg with GENERICSTACK_PARANOID := true } fuel allocOk s wantedl
        targetIndicel =
      _GENERICSTACK_EXTEND { cfg with GENERICSTACK_PARANOID := false } fuel allocOk s wantedl
        targetIndicel := by
  unfold _GENERICSTACK_EXTEND
  rw [extendCapacity_builds_agree cfg fuel allocOk s wantedl hbits hw]
  rfl

theorem fillItems_some (f : genericStackItem → genericStackItem) :
    ∀ (count : Nat) (blk : List genericStackItem) (start : Nat),
      start + count ≤ blk.length → ∃ blk2, fillItems f blk start count = some blk2 := by
  intro count
  induction count with
  | zero =>
    intro blk start _
    exact ⟨blk, rfl⟩
  | succ count ih =>
    intro blk start hle
    have hlt : start < blk.length := by omega
    have hget : blk[start]? = some blk[start] := List.getElem?_eq_getElem hlt
    unfold fillItems
    simp only [hget]
    exact ih _ _ (by rw [List.length_set]; omega)

theorem genericStack.setBlock_setBlock (s : genericStack) (a b : List genericStackItem) :
    (s.setBlock a).setBlock b = s.setBlock b := by
  obtain ⟨items, d, h, il, hl, ll, ul, e⟩ := s
  cases items <;> rfl

theorem genericStack.setBlock_self {s : genericStack} {blk : List genericStackItem}
    (hb : s.block = some blk) : s.setBlock blk = s := by
  obtain ⟨items, d, h, il, hl, ll, ul, e⟩ := s
  cases items with
  | defaultItems =>
    simp only [genericStack.block, Option.some.injEq] at hb
    subst hb
    rfl
  | heapItems =>
    simp only [genericStack.block] at hb
    subst hb
    rfl
  | NULL => rfl
  | freed => rfl

theorem switchIndex_setBlock (cfg : genericStackConfig) (s : genericStack)
    (blk : List genericStackItem) (i : Int) :
    switchIndex cfg (s.setBlock blk) i = switchIndex cfg s i := by
  unfold switchIndex
  rw [(s.setBlock_fields blk).2.1]

theorem swap_twice_list {blk : List genericStackItem} {n1 n2 : Nat} {a b : genericStackItem}
    (hg1 : blk[n1]? = some a) (hg2 : blk[n2]? = some b) :
    (((blk.set n1 b).set n2 a).set n1 a).set n2 b = blk := by
  have hlt1 : n1 < blk.length := (List.getElem?_eq_some_iff.mp hg1).1
  have hlt2 : n2 < blk.length := (List.getElem?_eq_some_iff.mp hg2).1
  apply List.ext_getElem?
  intro j
  by_cases h2 : j = n2
  · rw [h2, hg2]
    simp [hlt2]
  · rw [List.getElem?_set_ne (fun hc => h2 hc.symm)]
    by_cases h1 : j = n1
    · rw [h1, hg1]
      simp [hlt1]
    · rw [List.getElem?_set_ne (fun hc => h1 hc.symm),
        List.getElem?_set_ne (fun hc => h2 hc.symm),
        List.getElem?_set_ne (fun hc => h1 hc.symm)]

theorem SWITCH_swap_eq {cfg : genericStackConfig} {s : genericStack} {i1 i2 : Int}
    {n1 n2 : Nat} {blk : List genericStackItem} {a b : genericStackItem}
    (e1 : switchIndex cfg s i1 = (n1 : Int)) (e2 : switchIndex cfg s i2 = (n2 : Int))
    (hcond : ¬ (((n1 : Int) < 0) ∨ s.usedl ≤ intToSize cfg (n1 : Int) ∨
      ((n2 : Int) < 0) ∨ s.usedl ≤ intToSize cfg (n2 : Int)))
    (hne : n1 ≠ n2) (hb : s.block = some blk)
    (hg1 : blk[n1]? = some a) (hg2 : blk[n2]? = some b) :
    GENERICSTACK_SWITCH cfg s i1 i2 = Outcome.ok (s.setBlock ((blk.set n1 b).set n2 a)) := by
  have hneI : (n1 : Int) ≠ (n2 : Int) := by exact_mod_cast hne
  have hl1 : s.load n1 = Outcome.ok a := load_of_block hb hg1
  have hl2 : s.load n2 = Outcome.ok b := load_of_block hb hg2
  have hb1 : (s.setBlock (blk.set n1 b)).block = some (blk.set n1 b) :=
    genericStack.block_setBlock hb
  have hg2b : (blk.set n1 b)[n2]? = some b := by
    rw [List.getElem?_set_ne hne]
    exact hg2
  unfold GENERICSTACK_SWITCH
  simp only [e1, e2, if_neg hcond, hneI, ne_eq, not_false_eq_true, if_true, Int.toNat_ofNat,
    hl1, hl2, Outcome.bind_ok]
  unfold genericStack.modify
  simp only [hb, hg1, Outcome.bind_ok]
  rw [hb1]
  simp only [hg2b]
  rw [genericStack.setBlock_setBlock]

/-! ## The claims -/

/-- C1. Push/Pop round trip: on a well-formed stack, when a typed push of `var` returns
success, the discriminant read by `GENERICSTACKITEMTYPE` at the new top (index `usedl - 1`)
is the pushed type, and the pop of the same member that follows returns exactly `var` and
leaves `usedl` at its value before the push. -/
theorem push_pop_round_trip (cfg : genericStackConfig) (fuel : Nat) (allocOk : Bool)
    (itemType : genericStackItemType) (dst : genericStackItemMember)
    (s s1 : genericStack) (var : Int) (hwf : s.wellFormed cfg)
    (h : GENERICSTACK_PUSH cfg fuel allocOk itemType dst s var = Outcome.ok (true, s1)) :
    GENERICSTACKITEMTYPE s1 (s1.usedl - 1) = Outcome.ok itemType ∧
    GENERICSTACK_POP cfg s1 dst = Outcome.ok (var, { s1 with usedl := s.usedl }) := by
  unfold GENERICSTACK_PUSH at h
  obtain ⟨_, blk2, _, hlt, hrep, hb3, hu, _⟩ := SET_BY_TYPE_spec hwf h
  have hused : s1.usedl = s.usedl + 1 := by
    rw [hu]
    omega
  have hget : (blk2.set s.usedl
      { type := some itemType, u := genericStackItemUnion.stored dst var })[s.usedl]? =
      some { type := some itemType, u := genericStackItemUnion.stored dst var } := by
    simp [List.getElem?_set, hlt]
  constructor
  · rw [hused, Nat.add_sub_cancel]
    exact typeOf_of_block hb3 hget rfl
  · unfold GENERICSTACK_POP
    have hsub : sizeSub cfg s1.usedl 1 = s.usedl := by
      rw [hused, sizeSub_of_le (by omega) hrep]
      omega
    simp only [hsub]
    have hb : ({ s1 with usedl := s.usedl } : genericStack).block =
        some (blk2.set s.usedl
          { type := some itemType, u := genericStackItemUnion.stored dst var }) := hb3
    rw [get_of_block hb hget]
    rfl

set_option maxRecDepth 100000 in
/-- Instance of C1: `GENERICSTACK_PUSH_INT(stackp, 42)` on a new stack, then the type read at
the top and `GENERICSTACK_POP_INT`. -/
theorem push_pop_round_trip_witness :
    newStack.wellFormed defaultConfig ∧
    GENERICSTACK_PUSH_INT defaultConfig 0 true newStack 42 = Outcome.ok (true, onePushStack) ∧
    GENERICSTACKITEMTYPE onePushStack (onePushStack.usedl - 1) =
      Outcome.ok GENERICSTACKITEMTYPE_INT ∧
    GENERICSTACK_POP_INT defaultConfig onePushStack =
      Outcome.ok (42, { onePushStack with usedl := newStack.usedl }) :=
  ⟨by decide, by decide,
    push_pop_round_trip defaultConfig 0 true GENERICSTACKITEMTYPE_INT genericStackItemMember.i
      newStack onePushStack 42 (by decide) (by decide)⟩

/-- C2. Set postcondition: for every stack, every index `indexl` with `indexl + 1`
representable in `size_t`, every item type, member and value, a setter that returns never
leaves `usedl` smaller than it was; and when it returns success, slot `indexl` holds the
written discriminant and payload and `usedl` is `max (old usedl) (indexl + 1)`. -/
theorem set_postcondition (cfg : genericStackConfig) (fuel : Nat) (allocOk : Bool)
    (itemType : genericStackItemType) (dst : genericStackItemMember)
    (s s3 : genericStack) (var : Int) (indexl : Nat) (rcb : Bool)
    (hrep : indexl + 1 < sizeModulus cfg)
    (h : __GENERICSTACK_SET_BY_TYPE cfg fuel allocOk itemType dst s var indexl =
      Outcome.ok (rcb, s3)) :
    s.usedl ≤ s3.usedl ∧
    (rcb = true →
      s3.load indexl =
        Outcome.ok { type := some itemType, u := genericStackItemUnion.stored dst var } ∧
      GENERICSTACKITEMTYPE s3 indexl = Outcome.ok itemType ∧
      GENERICSTACK_GET s3 dst indexl = Outcome.ok var ∧
      s3.usedl = max s.usedl (indexl + 1)) := by
  cases rcb with
  | false =>
    refine ⟨?_, by simp⟩
    unfold __GENERICSTACK_SET_BY_TYPE at h
    simp only at h
    by_cases hp : cfg.GENERICSTACK_PARANOID = true ∧ sizeAdd cfg indexl 1 < indexl
    · rw [if_pos hp] at h
      simp only [Outcome.ok.injEq, Prod.mk.injEq, true_and] at h
      subst h
      exact le_refl _
    · rw [if_neg hp] at h
      obtain ⟨r, hr, hrest⟩ := Outcome.bind_eq_ok h
      obtain ⟨rcb2, s2⟩ := r
      cases rcb2 with
      | true =>
        simp only [if_true] at hrest
        obtain ⟨_, _, hfin⟩ := Outcome.bind_eq_ok hrest
        simp at hfin
      | false =>
        simp only [Bool.false_eq_true, if_false, Outcome.ok.injEq, Prod.mk.injEq,
          true_and] at hrest
        subst hrest
        obtain ⟨s1, hcap, e1, _⟩ := EXTEND_fields hr
        obtain ⟨c1, _⟩ := extendCapacity_ok hcap
        rw [e1, c1]
  | true =>
    obtain ⟨s2, blk2, hext, _, hlt, hb3, hu, _⟩ := SET_BY_TYPE_ok h
    have hadd : sizeAdd cfg indexl 1 = indexl + 1 := sizeAdd_of_lt hrep
    rw [hadd] at hext hu
    obtain ⟨s1, hcap, e1, _⟩ := EXTEND_fields hext
    obtain ⟨c1, _⟩ := extendCapacity_ok hcap
    have hget : (blk2.set indexl
        { type := some itemType, u := genericStackItemUnion.stored dst var })[indexl]? =
        some { type := some itemType, u := genericStackItemUnion.stored dst var } := by
      simp [List.getElem?_set, hlt]
    have hused : s3.usedl = max s.usedl (indexl + 1) := by rw [hu, e1, c1]
    exact ⟨by rw [hused]; exact le_max_left _ _,
      fun _ => ⟨load_of_block hb3 hget, typeOf_of_block hb3 hget rfl, get_of_block hb3 hget,
        hused⟩⟩

set_option maxRecDepth 100000 in
/-- Instance of C2: `GENERICSTACK_SET_INT(stackp, 42, 5)` on a new stack. -/
theorem set_postcondition_witness :
    _GENERICSTACK_SET_INT defaultConfig 0 true newStack 42 5 = Outcome.ok (true, sparseStack) ∧
    GENERICSTACK_GET_INT sparseStack 5 = Outcome.ok 42 ∧
    sparseStack.usedl = max newStack.usedl (5 + 1) :=
  have h := set_postcondition defaultConfig 0 true GENERICSTACKITEMTYPE_INT
    genericStackItemMember.i newStack sparseStack 42 5 true (by decide) (by decide)
  ⟨by decide, (h.2 rfl).2.2.1, (h.2 rfl).2.2.2⟩

/-- C3. Sparse fill: on a well-formed stack, for every index `indexl >= usedl`, a
successful setter leaves every slot in `[old usedl, indexl)` with the sentinel discriminant
`GENERICSTACKITEMTYPE_NA` (as `GENERICSTACK_IS_NA` reports), makes `usedl` equal to
`indexl + 1`, and the getter at `indexl` returns the value written. -/
theorem sparse_fill (cfg : genericStackConfig) (fuel : Nat) (allocOk : Bool)
    (itemType : genericStackItemType) (dst : genericStackItemMember)
    (s s3 : genericStack) (var : Int) (indexl : Nat) (hwf : s.wellFormed cfg)
    (hge : s.usedl ≤ indexl)
    (h : __GENERICSTACK_SET_BY_TYPE cfg fuel allocOk itemType dst s var indexl =
      Outcome.ok (true, s3)) :
    (∀ k, s.usedl ≤ k → k < indexl → GENERICSTACK_IS_NA s3 k = Outcome.ok true) ∧
    s3.usedl = indexl + 1 ∧
    GENERICSTACK_GET s3 dst indexl = Outcome.ok var := by
  obtain ⟨_, blk2, _, hlt, _, hb3, hu, _, _, _, _, _, _, hna⟩ := SET_BY_TYPE_spec hwf h
  have hused : s3.usedl = indexl + 1 := by
    rw [hu]
    omega
  have hget : (blk2.set indexl
      { type := some itemType, u := genericStackItemUnion.stored dst var })[indexl]? =
      some { type := some itemType, u := genericStackItemUnion.stored dst var } := by
    simp [List.getElem?_set, hlt]
  refine ⟨?_, hused, get_of_block hb3 hget⟩
  intro k hk1 hk2
  obtain ⟨item, hitem, htype⟩ := hna k hk1 hk2
  have hk : (blk2.set indexl
      { type := some itemType, u := genericStackItemUnion.stored dst var })[k]? = some item := by
    rw [List.getElem?_set_ne (by omega)]
    exact hitem
  unfold GENERICSTACK_IS_NA GENERICSTACK_IS GENERICSTACK_EXISTS
  have hex : k < s3.usedl := by omega
  simp [hex, typeOf_of_block hb3 hk htype]

set_option maxRecDepth 100000 in
/-- Instance of C3, the example of the specification: on an empty stack `Set(5, Int, 42)` gives
`Used() == 6`, `IsType(k, NA)` for `k` in `[0, 5)` and `Get(5) == 42`. -/
theorem sparse_fill_witness :
    newStack.usedl = 0 ∧
    _GENERICSTACK_SET_INT defaultConfig 0 true newStack 42 5 = Outcome.ok (true, sparseStack) ∧
    (∀ k, 0 ≤ k → k < 5 → GENERICSTACK_IS_NA sparseStack k = Outcome.ok true) ∧
    sparseStack.usedl = 6 ∧
    GENERICSTACK_GET_INT sparseStack 5 = Outcome.ok 42 :=
  ⟨by decide, by decide,
    sparse_fill defaultConfig 0 true GENERICSTACKITEMTYPE_INT genericStackItemMember.i
      newStack sparseStack 42 5 (by decide) (by decide) (by decide)⟩

/-- C4. Growth preserves data: on a well-formed stack whose populated slots lie within
its capacity, a successful setter (a push is the setter at index `usedl`) whose required
length `indexl + 1` exceeds both `GENERICSTACK_DEFAULT_LENGTH` and `heapl`, so that the
heap block is created or reallocated, ends on the heap with a larger `heapl`, and every
slot `j < usedl` other than the slot written holds exactly the item, discriminant and
payload, it held before. -/
theorem growth_preserves_data (cfg : genericStackConfig) (fuel : Nat) (allocOk : Bool)
    (itemType : genericStackItemType) (dst : genericStackItemMember)
    (s s3 : genericStack) (var : Int) (indexl : Nat) (hwf : s.wellFormed cfg)
    (hwithin : s.withinCapacity cfg)
    (hgrowD : cfg.GENERICSTACK_DEFAULT_LENGTH < indexl + 1) (hgrowH : s.heapl < indexl + 1)
    (h : __GENERICSTACK_SET_BY_TYPE cfg fuel allocOk itemType dst s var indexl =
      Outcome.ok (true, s3)) :
    (s.heapl < s3.heapl ∧ s3.lengthl = s3.heapl ∧
      s3.items = genericStackItemsPtr.heapItems) ∧
    ∀ j item, j < s.usedl → j ≠ indexl → s.load j = Outcome.ok item →
      s3.load j = Outcome.ok item := by
  obtain ⟨s1, blk2, hcap, hlt, _, hb3, _, g1, g2, _, g4, _, hpres, _⟩ := SET_BY_TYPE_spec hwf h
  obtain ⟨p, _, hle, _, a2, a3, _, a5, _⟩ := extendCapacity_grow_true hgrowD hgrowH hcap
  refine ⟨⟨by rw [g1, a2]; omega, by rw [g2, g1, a2, a3], by rw [g4, a5]⟩, ?_⟩
  intro j item hj hne hload
  obtain ⟨blk, hblk, hget⟩ := genericStack.load_eq_ok.mp hload
  have hjlt : j < indexl := by
    unfold genericStack.withinCapacity at hwithin
    omega
  have h2 := hpres blk j item hblk hj (by omega) hget
  apply load_of_block hb3
  rw [List.getElem?_set_ne (by omega)]
  exact h2

set_option maxRecDepth 1000000 in
/-- Instance of C4: the setter at index 128 of a stack whose embedded array of 128 items is full
migrates to a heap block of 256 items and keeps the 128 items. -/
theorem growth_preserves_data_witness :
    fullStack.wellFormed defaultConfig ∧ fullStack.withinCapacity defaultConfig ∧
    _GENERICSTACK_SET_INT defaultConfig 64 true fullStack 42 128 =
      Outcome.ok (true, grownStack) ∧
    (fullStack.heapl < grownStack.heapl ∧ grownStack.lengthl = grownStack.heapl ∧
      grownStack.items = genericStackItemsPtr.heapItems) ∧
    ∀ j item, j < fullStack.usedl → j ≠ 128 → fullStack.load j = Outcome.ok item →
      grownStack.load j = Outcome.ok item :=
  ⟨by decide, by decide, by decide,
    growth_preserves_data defaultConfig 64 true GENERICSTACKITEMTYPE_INT
      genericStackItemMember.i fullStack grownStack 42 128 (by decide) (by decide)
      (by decide) (by decide) (by decide)⟩

/-- C5. No premature allocation: starting from a freshly constructed default stack, after
each push of any sequence of at most `GENERICSTACK_DEFAULT_LENGTH` pushes (typed or NA,
whatever the allocator would answer), every push so far has returned success, `heapl` is
0, the heap block is absent, `lengthl` is `GENERICSTACK_DEFAULT_LENGTH` and `usedl` is the
number of pushes made. -/
theorem no_premature_allocation (cfg : genericStackConfig) (calls : List PushCall)
    (s0 : genericStack)
    (hcfg : cfg.GENERICSTACK_DEFAULT_LENGTH < sizeModulus cfg)
    (hnew : _GENERICSTACK_NEW cfg true = some s0)
    (hlen : calls.length ≤ cfg.GENERICSTACK_DEFAULT_LENGTH) :
    ∀ n, n ≤ calls.length →
      ∃ s1, runPushes cfg s0 (calls.take n) = Outcome.ok (List.replicate n true, s1) ∧
        s1.heapl = 0 ∧ s1.heapItems = none ∧
        s1.lengthl = cfg.GENERICSTACK_DEFAULT_LENGTH ∧ s1.usedl = n := by
  intro n hn
  have hs0 : s0 = _GENERICSTACK_INIT cfg (rawStack cfg) := by
    unfold _GENERICSTACK_NEW at hnew
    simpa using hnew.symm
  have htake : (calls.take n).length = n := by
    rw [List.length_take]
    omega
  by_cases hpos : 0 < cfg.GENERICSTACK_DEFAULT_LENGTH
  · have hin : s0.inline cfg := by
      rw [hs0]
      unfold genericStack.inline _GENERICSTACK_INIT rawStack
      simp [hpos]
    have hu0 : s0.usedl = 0 := by
      rw [hs0]
      unfold _GENERICSTACK_INIT
      simp [hpos]
    obtain ⟨s1, hrun, hin1, hu1⟩ :=
      runPushes_inline cfg hcfg (calls.take n) s0 hin (by rw [htake, hu0]; omega)
    rw [htake] at hrun hu1
    exact ⟨s1, hrun, hin1.2.2.1, hin1.2.1, hin1.2.2.2.1, by rw [hu1, hu0]; omega⟩
  · have hn0 : n = 0 := by omega
    subst hn0
    refine ⟨s0, by simp [runPushes], ?_⟩
    rw [hs0]
    unfold _GENERICSTACK_INIT
    simp [hpos]
    omega

set_option maxRecDepth 1000000 in
/-- Instance of C5: 128 pushes on a new stack in the shipped configuration. -/
theorem no_premature_allocation_witness :
    _GENERICSTACK_NEW defaultConfig true = some newStack ∧
    runPushes defaultConfig newStack (List.replicate 128 (intPush 7)) =
      Outcome.ok (List.replicate 128 true, fullStack) ∧
    ∀ n, n ≤ (List.replicate 128 (intPush 7)).length →
      ∃ s1, runPushes defaultConfig newStack ((List.replicate 128 (intPush 7)).take n) =
          Outcome.ok (List.replicate n true, s1) ∧
        s1.heapl = 0 ∧ s1.heapItems = none ∧
        s1.lengthl = defaultConfig.GENERICSTACK_DEFAULT_LENGTH ∧ s1.usedl = n :=
  ⟨by decide, by decide,
    no_premature_allocation defaultConfig (List.replicate 128 (intPush 7)) newStack
      (by decide) (by decide) (by decide)⟩

/-- C6. Growth is power-of-two and exact: when `_GENERICSTACK_EXTEND` is called with
`wantedl` above both `GENERICSTACK_DEFAULT_LENGTH` and `heapl` and at most
`2 ^ (sizeBits - 1)`, with fuel for `sizeBits` iterations, there is a smallest power of two
`p >= wantedl` such that: the call never runs out of fuel; whenever the allocation
succeeds and the call returns, it returns success with `heapl = lengthl = p`; and when no
sentinel fill is due, the populated slots lie within the capacity and inside the embedded
array while there is no heap block, `items` points to the heap block once there is one, and
`p` items fit in `size_t` bytes, the call does return. -/
theorem growth_power_of_two (cfg : genericStackConfig) (fuel : Nat) (s : genericStack)
    (wantedl targetIndicel : Nat) (hbits : 0 < cfg.sizeBits)
    (hd : cfg.GENERICSTACK_DEFAULT_LENGTH < wantedl) (hh : s.heapl < wantedl)
    (hw : wantedl ≤ 2 ^ (cfg.sizeBits - 1)) (hfuel : cfg.sizeBits ≤ fuel) :
    ∃ p, isSmallestPowerOfTwoGE wantedl p ∧
      (∀ allocOk,
        _GENERICSTACK_EXTEND cfg fuel allocOk s wantedl targetIndicel ≠ Outcome.outOfFuel) ∧
      (∀ rcb s2,
        _GENERICSTACK_EXTEND cfg fuel true s wantedl targetIndicel = Outcome.ok (rcb, s2) →
        rcb = true ∧ s2.heapl = p ∧ s2.lengthl = p) ∧
      (targetIndicel ≤ s.usedl → s.withinCapacity cfg →
        (s.heapItems = none → s.usedl ≤ s.defaultItems.length) →
        (s.heapItems ≠ none → s.items = genericStackItemsPtr.heapItems) →
        0 < cfg.sizeofItem → p * cfg.sizeofItem < sizeModulus cfg →
        ∃ s2, _GENERICSTACK_EXTEND cfg fuel true s wantedl targetIndicel =
          Outcome.ok (true, s2)) := by
  obtain ⟨p, hp, hsmall, hppos, _⟩ := newHeapl_ok cfg fuel wantedl (by omega) hw hbits hfuel
  refine ⟨p, hsmall, fun _ => EXTEND_ne_outOfFuel hp, ?_, ?_⟩
  · intro rcb s2 h
    obtain ⟨s1, hcap, _, e2, e3, _⟩ := EXTEND_fields h
    cases rcb with
    | true =>
      obtain ⟨q, hq, _, _, a2, a3, _⟩ := extendCapacity_grow_true hd hh hcap
      rw [hp] at hq
      simp only [Outcome.ok.injEq] at hq
      subst hq
      exact ⟨rfl, by rw [e2, a2], by rw [e3, a3]⟩
    | false =>
      exfalso
      obtain ⟨q, hq, hcase⟩ := extendCapacity_grow hd hh hcap
      rw [hp] at hq
      simp only [Outcome.ok.injEq] at hq
      subst hq
      rcases hcase with ⟨h0, _, _⟩ | ⟨_, hn, hc⟩ | ⟨_, _, he⟩
      · omega
      · obtain ⟨_, _, _, hfalse, _⟩ := CREATE_HEAP_ok hn hc
        simpa using (hfalse rfl).1
      · obtain ⟨_, _, _, hfalse, _⟩ := EXTEND_HEAP_ok he
        simpa using (hfalse rfl).1
  · intro ht hinv hnone hsome hsz hfit
    have hused : s.usedl ≤ p := by
      have : wantedl ≤ p := hsmall.2.1
      unfold genericStack.withinCapacity at hinv
      omega
    have halloc : allocItems cfg p = p := allocItems_of_fit hsz hfit
    have hcap : ∃ s1, extendCapacity cfg fuel true s wantedl = Outcome.ok (true, s1) ∧
        s1.usedl = s.usedl := by
      unfold extendCapacity
      rw [if_neg (by omega), if_neg (by omega), hp]
      simp only [Outcome.bind_ok]
      rw [if_neg (by omega)]
      by_cases hn : s.heapItems = none
      · rw [if_pos hn]
        unfold _GENERICSTACK_CREATE_HEAP
        simp only [if_true]
        by_cases hc : 0 < cfg.GENERICSTACK_DEFAULT_LENGTH ∧ 0 < s.usedl
        · rw [if_pos hc, if_pos ⟨hnone hn, by simp [halloc, hused]⟩]
          exact ⟨_, rfl, rfl⟩
        · rw [if_neg hc]
          exact ⟨_, rfl, rfl⟩
      · rw [if_neg hn]
        unfold _GENERICSTACK_EXTEND_HEAP
        rw [hsome hn]
        simp only
        cases hh2 : s.heapItems with
        | none => exact absurd hh2 hn
        | some blk =>
          simp only [if_true]
          exact ⟨_, rfl, rfl⟩
    obtain ⟨s1, hs1, hu1⟩ := hcap
    refine ⟨s1, ?_⟩
    unfold _GENERICSTACK_EXTEND
    rw [hs1]
    simp only [Outcome.bind_ok]
    rw [if_neg (by omega)]

set_option maxRecDepth 1000000 in
/-- Instance of C6, the example of the specification: on a new stack the 129th push makes the
heap length 256, the smallest power of two above 129, and it is 256 after each push up to
the 256th. -/
theorem growth_power_of_two_witness :
    isSmallestPowerOfTwoGE 129 256 ∧
    _GENERICSTACK_EXTEND defaultConfig 64 true fullStack 129 128 =
      Outcome.ok (true, migratedStack) ∧
    heapLengthTrace defaultConfig newStack (List.replicate 256 (intPush 7)) =
      Outcome.ok (List.replicate 128 0 ++ List.replicate 128 256) ∧
    ∃ p, isSmallestPowerOfTwoGE 129 p ∧
      (∀ allocOk,
        _GENERICSTACK_EXTEND defaultConfig 64 allocOk fullStack 129 128 ≠ Outcome.outOfFuel) ∧
      (∀ rcb s2,
        _GENERICSTACK_EXTEND defaultConfig 64 true fullStack 129 128 = Outcome.ok (rcb, s2) →
        rcb = true ∧ s2.heapl = p ∧ s2.lengthl = p) ∧
      (128 ≤ fullStack.usedl → fullStack.withinCapacity defaultConfig →
        (fullStack.heapItems = none → fullStack.usedl ≤ fullStack.defaultItems.length) →
        (fullStack.heapItems ≠ none → fullStack.items = genericStackItemsPtr.heapItems) →
        0 < defaultConfig.sizeofItem → p * defaultConfig.sizeofItem < sizeModulus defaultConfig →
        ∃ s2, _GENERICSTACK_EXTEND defaultConfig 64 true fullStack 129 128 =
          Outcome.ok (true, s2)) :=
  ⟨isSmallestPowerOfTwoGE_129, by decide, by decide!,
    growth_power_of_two defaultConfig 64 fullStack 129 128 (by decide) (by decide)
      (by decide) (by decide) (by decide)⟩

/-- C7. Push is Set at the current top: a typed push is the setter called with index
`usedl`, with the same result and the same state; on a well-formed stack a successful push
increases `usedl` by exactly 1, leaves the pushed discriminant and value in the new top
slot, and leaves every slot below the old `usedl` unchanged. -/
theorem push_is_set_at_top (cfg : genericStackConfig) (fuel : Nat) (allocOk : Bool)
    (itemType : genericStackItemType) (dst : genericStackItemMember)
    (s : genericStack) (var : Int) (hwf : s.wellFormed cfg) :
    GENERICSTACK_PUSH cfg fuel allocOk itemType dst s var =
      __GENERICSTACK_SET_BY_TYPE cfg fuel allocOk itemType dst s var s.usedl ∧
    ∀ s1, GENERICSTACK_PUSH cfg fuel allocOk itemType dst s var = Outcome.ok (true, s1) →
      s1.usedl = s.usedl + 1 ∧
      s1.load s.usedl =
        Outcome.ok { type := some itemType, u := genericStackItemUnion.stored dst var } ∧
      ∀ j item, j < s.usedl → s.load j = Outcome.ok item → s1.load j = Outcome.ok item := by
  refine ⟨rfl, ?_⟩
  intro s1 h
  unfold GENERICSTACK_PUSH at h
  obtain ⟨_, blk2, _, hlt, _, hb3, hu, _, _, _, _, _, hpres, _⟩ := SET_BY_TYPE_spec hwf h
  refine ⟨by rw [hu]; omega, ?_, ?_⟩
  · apply load_of_block hb3
    simp [List.getElem?_set, hlt]
  · intro j item hj hload
    obtain ⟨blk, hblk, hget⟩ := genericStack.load_eq_ok.mp hload
    have h2 := hpres blk j item hblk hj (by omega) hget
    apply load_of_block hb3
    rw [List.getElem?_set_ne (by omega)]
    exact h2

set_option maxRecDepth 1000000 in
/-- Instance of C7: a push on a stack with `usedl = 6`. -/
theorem push_is_set_at_top_witness :
    sparseStack.wellFormed defaultConfig ∧
    GENERICSTACK_PUSH_INT defaultConfig 0 true sparseStack 9 =
      Outcome.ok (true, pushedSparseStack) ∧
    pushedSparseStack.usedl = sparseStack.usedl + 1 ∧
    pushedSparseStack.load sparseStack.usedl = Outcome.ok (intItem 9) ∧
    ∀ j item, j < sparseStack.usedl → sparseStack.load j = Outcome.ok item →
      pushedSparseStack.load j = Outcome.ok item :=
  ⟨by decide, by decide,
    (push_is_set_at_top defaultConfig 0 true GENERICSTACKITEMTYPE_INT genericStackItemMember.i
      sparseStack 9 (by decide)).2 pushedSparseStack (by decide)⟩

/-- C8. Pop is Get at `usedl - 1` followed by a decrement: for every stack whose `usedl` is
a positive `size_t` value, a typed pop returns what the getter of the same member returns
at index `usedl - 1`, in the state that differs from the old one only in `usedl`, which is
smaller by exactly 1; every slot, `lengthl`, `heapl` and `errori` are unchanged. -/
theorem pop_is_get_then_decrement (cfg : genericStackConfig) (s : genericStack)
    (dst : genericStackItemMember) (hpos : 0 < s.usedl) (hty : s.usedl < sizeModulus cfg) :
    GENERICSTACK_POP cfg s dst =
      (GENERICSTACK_GET s dst (s.usedl - 1)).bind
        (fun var => Outcome.ok (var, { s with usedl := s.usedl - 1 })) ∧
    ∀ var s1, GENERICSTACK_POP cfg s dst = Outcome.ok (var, s1) →
      GENERICSTACK_GET s dst (s.usedl - 1) = Outcome.ok var ∧
      s1.usedl + 1 = s.usedl ∧ s1.lengthl = s.lengthl ∧ s1.heapl = s.heapl ∧
      s1.errori = s.errori ∧ s1.initialLengthl = s.initialLengthl ∧ s1.items = s.items ∧
      s1.defaultItems = s.defaultItems ∧ s1.heapItems = s.heapItems ∧
      ∀ j, s1.load j = s.load j := by
  have hsub : sizeSub cfg s.usedl 1 = s.usedl - 1 := sizeSub_of_le hpos hty
  have heq : GENERICSTACK_POP cfg s dst =
      (GENERICSTACK_GET s dst (s.usedl - 1)).bind
        (fun var => Outcome.ok (var, { s with usedl := s.usedl - 1 })) := by
    unfold GENERICSTACK_POP
    simp only [hsub]
    rfl
  refine ⟨heq, ?_⟩
  intro var s1 h
  rw [heq] at h
  obtain ⟨v, hv, hs⟩ := Outcome.bind_eq_ok h
  simp only [Outcome.ok.injEq, Prod.mk.injEq] at hs
  obtain ⟨hv2, hs1⟩ := hs
  subst hv2
  subst hs1
  refine ⟨hv, ?_, rfl, rfl, rfl, rfl, rfl, rfl, rfl, fun j => rfl⟩
  simp only
  omega

set_option maxRecDepth 1000000 in
/-- Instance of C8: a pop on a stack with `usedl = 6` whose top slot holds the `int` 42. -/
theorem pop_is_get_then_decrement_witness :
    0 < sparseStack.usedl ∧ sparseStack.usedl < sizeModulus defaultConfig ∧
    GENERICSTACK_GET_INT sparseStack 5 = Outcome.ok 42 ∧
    GENERICSTACK_POP_INT defaultConfig sparseStack =
      Outcome.ok (42, { sparseStack with usedl := 5 }) ∧
    GENERICSTACK_POP defaultConfig sparseStack genericStackItemMember.i =
      (GENERICSTACK_GET sparseStack genericStackItemMember.i (sparseStack.usedl - 1)).bind
        (fun var => Outcome.ok (var, { sparseStack with usedl := sparseStack.usedl - 1 })) :=
  ⟨by decide, by decide, by decide, by decide,
    (pop_is_get_then_decrement defaultConfig sparseStack genericStackItemMember.i
      (by decide) (by decide)).1⟩

/-- C9 (amended). Switch swaps two slots with negative-index addressing, on a stack of at
most `2^31` items: when `int` is no wider than `size_t`, `usedl <= 2^31`, and the
normalised values `n1`, `n2` of the arguments lie in `[0, usedl)`, differ, and designate
slots holding `item1` and `item2`, then `GENERICSTACK_SWITCH` returns a state in which slot
`n1` holds `item2` and slot `n2` holds `item1` (discriminant and payload), every other slot
is as before, and `usedl`, `lengthl`, `heapl`, `errori`, `initialLengthl` and `items` are
unchanged. -/
theorem switch_swaps (cfg : genericStackConfig) (s : genericStack) (i1 i2 : Int)
    (n1 n2 : Nat) (item1 item2 : genericStackItem)
    (hW : intBits ≤ cfg.sizeBits) (hused : s.usedl ≤ 2147483648)
    (hn1 : normalisedIndex s.usedl i1 = (n1 : Int)) (hn2 : normalisedIndex s.usedl i2 = (n2 : Int))
    (hr1 : n1 < s.usedl) (hr2 : n2 < s.usedl) (hne : n1 ≠ n2)
    (hl1 : s.load n1 = Outcome.ok item1) (hl2 : s.load n2 = Outcome.ok item2) :
    ∃ s1, GENERICSTACK_SWITCH cfg s i1 i2 = Outcome.ok s1 ∧
      s1.load n1 = Outcome.ok item2 ∧ s1.load n2 = Outcome.ok item1 ∧
      (∀ j, j ≠ n1 → j ≠ n2 → s1.load j = s.load j) ∧
      s1.usedl = s.usedl ∧ s1.lengthl = s.lengthl ∧ s1.heapl = s.heapl ∧
      s1.errori = s.errori ∧ s1.initialLengthl = s.initialLengthl ∧ s1.items = s.items := by
  have hi1 : -2147483648 ≤ i1 ∧ i1 < 2147483648 := by
    unfold normalisedIndex at hn1
    split at hn1 <;> omega
  have hi2 : -2147483648 ≤ i2 ∧ i2 < 2147483648 := by
    unfold normalisedIndex at hn2
    split at hn2 <;> omega
  have e1 : switchIndex cfg s i1 = (n1 : Int) := by
    rw [switchIndex_normalised hW s hused hi1.1 hi1.2, hn1]
  have e2 : switchIndex cfg s i2 = (n2 : Int) := by
    rw [switchIndex_normalised hW s hused hi2.1 hi2.2, hn2]
  obtain ⟨blk, hblk, hg1⟩ := genericStack.load_eq_ok.mp hl1
  obtain ⟨blk0, hblk0, hg2⟩ := genericStack.load_eq_ok.mp hl2
  rw [hblk] at hblk0
  simp only [Option.some.injEq] at hblk0
  subst hblk0
  have hlt1 : n1 < blk.length := (List.getElem?_eq_some_iff.mp hg1).1
  have hlt2 : n2 < blk.length := (List.getElem?_eq_some_iff.mp hg2).1
  have hcond : ¬ (((n1 : Int) < 0) ∨ s.usedl ≤ intToSize cfg (n1 : Int) ∨
      ((n2 : Int) < 0) ∨ s.usedl ≤ intToSize cfg (n2 : Int)) := by
    have c1 := switch_in_range_test hW s hused hr1
    have c2 := switch_in_range_test hW s hused hr2
    tauto
  have hneI : (n1 : Int) ≠ (n2 : Int) := by exact_mod_cast hne
  have hb1 : (s.setBlock (blk.set n1 item2)).block = some (blk.set n1 item2) :=
    genericStack.block_setBlock hblk
  have hg2b : (blk.set n1 item2)[n2]? = some item2 := by
    rw [List.getElem?_set_ne hne]
    exact hg2
  have hrun : GENERICSTACK_SWITCH cfg s i1 i2 =
      Outcome.ok ((s.setBlock (blk.set n1 item2)).setBlock
        ((blk.set n1 item2).set n2 item1)) := by
    unfold GENERICSTACK_SWITCH
    simp only [e1, e2, if_neg hcond, hneI, ne_eq, not_false_eq_true, if_true, Int.toNat_ofNat,
      hl1, hl2, Outcome.bind_ok]
    unfold genericStack.modify
    simp only [hblk, hg1, Outcome.bind_ok]
    rw [hb1]
    simp only [hg2b]
  have hbfin : ((s.setBlock (blk.set n1 item2)).setBlock
      ((blk.set n1 item2).set n2 item1)).block = some ((blk.set n1 item2).set n2 item1) :=
    genericStack.block_setBlock hb1
  have hf1 := s.setBlock_fields (blk.set n1 item2)
  have hf2 := (s.setBlock (blk.set n1 item2)).setBlock_fields ((blk.set n1 item2).set n2 item1)
  refine ⟨_, hrun, ?_, ?_, ?_, ?_, ?_, ?_, ?_, ?_, ?_⟩
  · apply load_of_block hbfin
    rw [List.getElem?_set_ne (fun e => hne e.symm)]
    simp [List.getElem?_set, hlt1]
  · apply load_of_block hbfin
    simp [List.getElem?_set, hlt2]
  · intro j hj1 hj2
    have hget : ((blk.set n1 item2).set n2 item1)[j]? = blk[j]? := by
      rw [List.getElem?_set_ne (fun e => hj2 e.symm),
        List.getElem?_set_ne (fun e => hj1 e.symm)]
    simp only [genericStack.load, hbfin, hblk, hget]
  · rw [hf2.2.1, hf1.2.1]
  · rw [hf2.2.2.1, hf1.2.2.1]
  · rw [hf2.2.2.2.1, hf1.2.2.2.1]
  · rw [hf2.2.2.2.2.1, hf1.2.2.2.2.1]
  · rw [hf2.2.2.2.2.2, hf1.2.2.2.2.2]
  · rw [hf2.1, hf1.1]

set_option maxRecDepth 1000000 in
/-- Instance of C9, the example of the specification: `Switch(-1, -2)` on a stack with
`Used() == 3` swaps `items[2]` and `items[1]`. -/
theorem switch_swaps_witness :
    threeStack.usedl = 3 ∧
    GENERICSTACK_SWITCH defaultConfig threeStack (-1) (-2) = Outcome.ok switchedStack ∧
    ∃ s1, GENERICSTACK_SWITCH defaultConfig threeStack (-1) (-2) = Outcome.ok s1 ∧
      s1.load 2 = Outcome.ok (intItem 20) ∧ s1.load 1 = Outcome.ok (intItem 30) ∧
      (∀ j, j ≠ 2 → j ≠ 1 → s1.load j = threeStack.load j) ∧
      s1.usedl = threeStack.usedl ∧ s1.lengthl = threeStack.lengthl ∧
      s1.heapl = threeStack.heapl ∧ s1.errori = threeStack.errori ∧
      s1.initialLengthl = threeStack.initialLengthl ∧ s1.items = threeStack.items :=
  ⟨by decide, by decide,
    switch_swaps defaultConfig threeStack (-1) (-2) 2 1 (intItem 30) (intItem 20)
      (by decide) (by decide) (by decide) (by decide) (by decide) (by decide) (by decide)
      (by decide) (by decide)⟩

/-- C9 as stated fails on a stack of more than `2^31` items: with `usedl = 2^31 + 1`
the arguments `-1` and `0` normalise to the populated slots `2^31` and `0`, which hold
different items, yet `GENERICSTACK_SWITCH` converts `usedl + (-1) = 2^31` to the `int`
`-2^31`, sets `errori` and swaps nothing. -/
theorem switch_swaps_counterexample :
    normalisedIndex hugeStack.usedl (-1) = 2147483648 ∧
    normalisedIndex hugeStack.usedl 0 = 0 ∧
    2147483648 < hugeStack.usedl ∧ 0 < hugeStack.usedl ∧
    hugeStack.load 2147483648 = Outcome.ok (intItem 42) ∧
    hugeStack.load 0 = Outcome.ok (intItem 7) ∧
    hugeStack.errori = 0 ∧
    GENERICSTACK_SWITCH defaultConfig hugeStack (-1) 0 =
      Outcome.ok { hugeStack with errori := 1 } := by
  have hb : hugeStack.block = some (List.replicate 2147483648 (intItem 7) ++ intItem 42 ::
      List.replicate 2147483647 freshItem) := rfl
  refine ⟨by decide, by decide, by decide, by decide, ?_, ?_, rfl, ?_⟩
  · apply load_of_block hb
    rw [List.getElem?_append_right (by rw [List.length_replicate]), List.length_replicate,
      Nat.sub_self, List.getElem?_cons_zero]
  · apply load_of_block hb
    rw [List.getElem?_append_left (by rw [List.length_replicate]; decide)]
    exact List.getElem?_replicate_of_lt (by decide)
  · have e1 : switchIndex defaultConfig hugeStack (-1) = -2147483648 := by decide
    have e2 : switchIndex defaultConfig hugeStack 0 = 0 := by decide
    unfold GENERICSTACK_SWITCH
    simp only [e1, e2]
    rfl

/-- C10 (amended). Switch rejects out-of-range indices without mutation, for `int`
arguments: when `int` is no wider than `size_t` and both arguments are `int` values, if at
least one normalised index is `< 0` or `>= usedl`, then `GENERICSTACK_SWITCH` returns the
state in which `errori` is 1 and every slot, `usedl`, `lengthl` and `heapl` are as before. -/
theorem switch_rejects_out_of_range (cfg : genericStackConfig) (s : genericStack) (i1 i2 : Int)
    (hW : intBits ≤ cfg.sizeBits)
    (hi1 : -2147483648 ≤ i1 ∧ i1 < 2147483648) (hi2 : -2147483648 ≤ i2 ∧ i2 < 2147483648)
    (hout : normalisedIndex s.usedl i1 < 0 ∨ (s.usedl : Int) ≤ normalisedIndex s.usedl i1 ∨
      normalisedIndex s.usedl i2 < 0 ∨ (s.usedl : Int) ≤ normalisedIndex s.usedl i2) :
    GENERICSTACK_SWITCH cfg s i1 i2 = Outcome.ok { s with errori := 1 } := by
  have hcond : switchIndex cfg s i1 < 0 ∨ s.usedl ≤ intToSize cfg (switchIndex cfg s i1) ∨
      switchIndex cfg s i2 < 0 ∨ s.usedl ≤ intToSize cfg (switchIndex cfg s i2) := by
    rcases hout with h | h | h | h
    · rcases switch_detects_out_of_range hW s hi1.1 hi1.2 (Or.inl h) with c | c
      · exact Or.inl c
      · exact Or.inr (Or.inl c)
    · rcases switch_detects_out_of_range hW s hi1.1 hi1.2 (Or.inr h) with c | c
      · exact Or.inl c
      · exact Or.inr (Or.inl c)
    · rcases switch_detects_out_of_range hW s hi2.1 hi2.2 (Or.inl h) with c | c
      · exact Or.inr (Or.inr (Or.inl c))
      · exact Or.inr (Or.inr (Or.inr c))
    · rcases switch_detects_out_of_range hW s hi2.1 hi2.2 (Or.inr h) with c | c
      · exact Or.inr (Or.inr (Or.inl c))
      · exact Or.inr (Or.inr (Or.inr c))
  unfold GENERICSTACK_SWITCH
  simp only [if_pos hcond]

set_option maxRecDepth 1000000 in
/-- Instance of C10, the example of the specification: `Switch(0, 100)` on a stack with
`Used() == 3` sets `errori` and changes nothing else. -/
theorem switch_rejects_out_of_range_witness :
    threeStack.usedl = 3 ∧
    GENERICSTACK_SWITCH defaultConfig threeStack 0 100 =
      Outcome.ok { threeStack with errori := 1 } :=
  ⟨by decide,
    switch_rejects_out_of_range defaultConfig threeStack 0 100 (by decide) (by decide)
      (by decide) (by decide)⟩

set_option maxRecDepth 1000000 in
/-- C10 as stated fails for an argument outside the range of `int`: on a stack with
`usedl = 3`, the argument `2^32` normalises to `2^32 >= usedl`, yet the cast to `int`
makes it 0 and `GENERICSTACK_SWITCH(stackp, 0, 4294967296)` returns the state unchanged,
`errori` still 0. -/
theorem switch_rejects_out_of_range_counterexample :
    threeStack.usedl = 3 ∧ threeStack.errori = 0 ∧
    normalisedIndex threeStack.usedl 4294967296 = 4294967296 ∧
    (threeStack.usedl : Int) ≤ normalisedIndex threeStack.usedl 4294967296 ∧
    GENERICSTACK_SWITCH defaultConfig threeStack 0 4294967296 = Outcome.ok threeStack := by
  decide

set_option maxRecDepth 1000000 in
/-- C11, evaluated at the failing input.  On a new stack in the shipped configuration,
`GENERICSTACK_SET_INT(stackp, 42, 1000)` with a failing `malloc`: the capacity decision
returns failure with `errori = 1` and everything else as before, but `_GENERICSTACK_EXTEND`
then runs the sentinel fill of slots 0 to 999 on the embedded array of 128 items, a write
outside the array, so the call has no defined result. -/
theorem failed_growth_fills_out_of_bounds :
    newStack.block = some (List.replicate 128 freshItem) ∧
    extendCapacity defaultConfig 64 false newStack 1001 =
      Outcome.ok (false, { newStack with errori := 1 }) ∧
    _GENERICSTACK_NA_MEMSET defaultConfig { newStack with errori := 1 } 0 999 =
      Outcome.undefined ∧
    _GENERICSTACK_EXTEND defaultConfig 64 false newStack 1001 1000 = Outcome.undefined ∧
    _GENERICSTACK_SET_INT defaultConfig 64 false newStack 42 1000 = Outcome.undefined := by
  decide

/-- C12. Capacity overflow is reported, not allocated, in a build with
`GENERICSTACK_PARANOID`: for every `wantedl` in the `size_t` range that exceeds
`GENERICSTACK_DEFAULT_LENGTH`, `heapl` and `2 ^ (sizeBits - 1)` (so it is not a power of two
and doubling from 1 wraps before reaching it), with fuel for `sizeBits` iterations, the
capacity decision of `_GENERICSTACK_EXTEND` returns failure in the state that differs from
the initial one in `errori = 1` only, whatever the allocator would answer: no allocation,
`heapl` and `lengthl` unchanged.  `_GENERICSTACK_EXTEND` returns exactly that when
`targetIndicel <= usedl`; it never runs out of fuel, and whenever it returns, it returns
failure with `errori = 1` and `heapl`, `lengthl`, `usedl` and `items` as before. -/
theorem capacity_overflow_reported (cfg : genericStackConfig) (fuel : Nat) (allocOk : Bool)
    (s : genericStack) (wantedl targetIndicel : Nat)
    (hpar : cfg.GENERICSTACK_PARANOID = true) (hbits : 0 < cfg.sizeBits)
    (hfuel : cfg.sizeBits ≤ fuel)
    (hd : cfg.GENERICSTACK_DEFAULT_LENGTH < wantedl) (hh : s.heapl < wantedl)
    (hw : 2 ^ (cfg.sizeBits - 1) < wantedl) (hM : wantedl < sizeModulus cfg) :
    extendCapacity cfg fuel allocOk s wantedl = Outcome.ok (false, { s with errori := 1 }) ∧
    (targetIndicel ≤ s.usedl →
      _GENERICSTACK_EXTEND cfg fuel allocOk s wantedl targetIndicel =
        Outcome.ok (false, { s with errori := 1 })) ∧
    _GENERICSTACK_EXTEND cfg fuel allocOk s wantedl targetIndicel ≠ Outcome.outOfFuel ∧
    ∀ rcb s2, _GENERICSTACK_EXTEND cfg fuel allocOk s wantedl targetIndicel =
        Outcome.ok (rcb, s2) →
      rcb = false ∧ s2.errori = 1 ∧ s2.heapl = s.heapl ∧ s2.lengthl = s.lengthl ∧
        s2.usedl = s.usedl ∧ s2.items = s.items := by
  have hp : newHeapl cfg fuel wantedl = Outcome.ok 0 :=
    newHeapl_paranoid_wrap hpar hbits hw hM hfuel
  have hcap : extendCapacity cfg fuel allocOk s wantedl =
      Outcome.ok (false, { s with errori := 1 }) := by
    unfold extendCapacity
    rw [if_neg (by omega), if_neg (by omega), hp]
    simp
  refine ⟨hcap, ?_, EXTEND_ne_outOfFuel hp, ?_⟩
  · intro ht
    unfold _GENERICSTACK_EXTEND
    rw [hcap]
    simp only [Outcome.bind_ok]
    rw [if_neg (show ¬ s.usedl < targetIndicel by omega)]
  · intro rcb s2 h
    obtain ⟨s1, h1, a1, a2, a3, a4, a5, _⟩ := EXTEND_fields h
    rw [hcap] at h1
    simp only [Outcome.ok.injEq, Prod.mk.injEq] at h1
    obtain ⟨hr, hs⟩ := h1
    subst hs
    exact ⟨hr.symm, a4, a2, a3, a1, a5⟩

/-- Instance of C12: in the paranoid build of the shipped configuration, sized
initialisation of a new stack to `2^63 + 1` items fails at once without allocating. -/
theorem capacity_overflow_reported_witness :
    paranoidConfig.GENERICSTACK_PARANOID = true ∧
    paranoidConfig.GENERICSTACK_DEFAULT_LENGTH < 9223372036854775809 ∧
    2 ^ (paranoidConfig.sizeBits - 1) < 9223372036854775809 ∧
    9223372036854775809 < sizeModulus paranoidConfig ∧
    (extendCapacity paranoidConfig 64 true newStack 9223372036854775809 =
        Outcome.ok (false, { newStack with errori := 1 }) ∧
      ((0 : Nat) ≤ newStack.usedl →
        _GENERICSTACK_EXTEND paranoidConfig 64 true newStack 9223372036854775809 0 =
          Outcome.ok (false, { newStack with errori := 1 })) ∧
      _GENERICSTACK_EXTEND paranoidConfig 64 true newStack 9223372036854775809 0 ≠
        Outcome.outOfFuel ∧
      ∀ rcb s2, _GENERICSTACK_EXTEND paranoidConfig 64 true newStack 9223372036854775809 0 =
          Outcome.ok (rcb, s2) →
        rcb = false ∧ s2.errori = 1 ∧ s2.heapl = newStack.heapl ∧
          s2.lengthl = newStack.lengthl ∧ s2.usedl = newStack.usedl ∧
          s2.items = newStack.items) :=
  ⟨by decide, by decide, by decide, by decide,
    capacity_overflow_reported paranoidConfig 64 true newStack 9223372036854775809 0
      (by decide) (by decide) (by decide) (by decide) (by decide) (by decide) (by decide)⟩

/-- Counterexample to C12 as stated: in the shipped build, where `GENERICSTACK_PARANOID` is
not defined, `_GENERICSTACK_EXTEND` called on a new stack with `wantedl = 2^63 + 1` does
not return failure: whatever the fuel and the allocator, the doubling loop is still
running when the fuel is spent, the candidate having wrapped to 0. -/
theorem capacity_overflow_reported_counterexample :
    defaultConfig.GENERICSTACK_PARANOID = false ∧
    defaultConfig.GENERICSTACK_DEFAULT_LENGTH < 9223372036854775809 ∧
    newStack.heapl < 9223372036854775809 ∧
    2 ^ (defaultConfig.sizeBits - 1) < 9223372036854775809 ∧
    9223372036854775809 < sizeModulus defaultConfig ∧
    ∀ (fuel : Nat) (allocOk : Bool),
      _GENERICSTACK_EXTEND defaultConfig fuel allocOk newStack 9223372036854775809 0 =
        Outcome.outOfFuel :=
  ⟨by decide, by decide, by decide, by decide, by decide,
    fun fuel allocOk => EXTEND_default_diverges fuel allocOk newStack 0
      (by decide) (by decide) (by decide) (by decide) (by decide) (by decide)⟩

/-- C13. Termination of the operations that can grow the stack, when the required length
is at most `2 ^ (sizeBits - 1)` or the build defines `GENERICSTACK_PARANOID`: with fuel for
`sizeBits` iterations of the doubling loop, for every stack state, every allocator answer
and every `wantedl` under that guard, `_GENERICSTACK_EXTEND` and sized construction never
run out of fuel, and neither does a setter at an index whose required length
`indexl + 1` (in `size_t`) is `wantedl`, nor a push when `usedl + 1` is `wantedl`.  With
`GENERICSTACK_PARANOID` this covers every `wantedl`, the values above `2 ^ (sizeBits - 1)`
that are not powers of two included.  The other operations contain no loop. -/
theorem operations_terminate (cfg : genericStackConfig) (fuel : Nat) (allocOk : Bool)
    (s : genericStack) (wantedl : Nat) (hbits : 0 < cfg.sizeBits)
    (hfuel : cfg.sizeBits ≤ fuel)
    (hguard : cfg.GENERICSTACK_PARANOID = true ∨ wantedl ≤ 2 ^ (cfg.sizeBits - 1)) :
    (∀ s0 targetIndicel,
      _GENERICSTACK_EXTEND cfg fuel allocOk s0 wantedl targetIndicel ≠ Outcome.outOfFuel) ∧
    _GENERICSTACK_INIT_SIZED cfg fuel allocOk s wantedl ≠ Outcome.outOfFuel ∧
    (∀ structOk, _GENERICSTACK_NEW_SIZED cfg fuel structOk allocOk wantedl ≠
      Outcome.outOfFuel) ∧
    (∀ indexl, sizeAdd cfg indexl 1 = wantedl →
      (∀ itemType dst var,
        __GENERICSTACK_SET_BY_TYPE cfg fuel allocOk itemType dst s var indexl ≠
          Outcome.outOfFuel) ∧
      _GENERICSTACK_SET_NA cfg fuel allocOk s indexl ≠ Outcome.outOfFuel) ∧
    (sizeAdd cfg s.usedl 1 = wantedl →
      (∀ itemType dst var,
        GENERICSTACK_PUSH cfg fuel allocOk itemType dst s var ≠ Outcome.outOfFuel) ∧
      GENERICSTACK_PUSH_NA cfg fuel allocOk s ≠ Outcome.outOfFuel) := by
  have hext : ∀ s0 targetIndicel,
      _GENERICSTACK_EXTEND cfg fuel allocOk s0 wantedl targetIndicel ≠ Outcome.outOfFuel :=
    fun s0 targetIndicel => EXTEND_terminates allocOk s0 wantedl targetIndicel hbits hfuel hguard
  have hset : ∀ indexl, sizeAdd cfg indexl 1 = wantedl →
      (∀ itemType dst var,
        __GENERICSTACK_SET_BY_TYPE cfg fuel allocOk itemType dst s var indexl ≠
          Outcome.outOfFuel) ∧
      _GENERICSTACK_SET_NA cfg fuel allocOk s indexl ≠ Outcome.outOfFuel := by
    intro indexl hi
    have h := hext s indexl
    rw [← hi] at h
    exact ⟨fun itemType dst var => SET_BY_TYPE_ne_outOfFuel itemType dst var h,
      SET_NA_ne_outOfFuel h⟩
  refine ⟨hext, ?_, ?_, hset, ?_⟩
  · unfold _GENERICSTACK_INIT_SIZED
    apply bind_ne_outOfFuel (hext _ _)
    intro r
    split <;> simp
  · intro structOk
    unfold _GENERICSTACK_NEW_SIZED
    split
    · apply bind_ne_outOfFuel (hext _ _)
      intro r
      split <;> simp
    · simp
  · intro hu
    exact hset s.usedl hu

/-- Instance of C13: in the shipped build a setter at index 128 of a full embedded array
(required length 129) leaves the doubling loop; in the paranoid build so does sized
construction with `2^63 + 1` items. -/
theorem operations_terminate_witness :
    ((∀ s0 targetIndicel,
        _GENERICSTACK_EXTEND defaultConfig 64 true s0 129 targetIndicel ≠
          Outcome.outOfFuel) ∧
      _GENERICSTACK_INIT_SIZED defaultConfig 64 true fullStack 129 ≠ Outcome.outOfFuel ∧
      (∀ structOk, _GENERICSTACK_NEW_SIZED defaultConfig 64 structOk true 129 ≠
        Outcome.outOfFuel) ∧
      (∀ indexl, sizeAdd defaultConfig indexl 1 = 129 →
        (∀ itemType dst var,
          __GENERICSTACK_SET_BY_TYPE defaultConfig 64 true itemType dst fullStack var indexl ≠
            Outcome.outOfFuel) ∧
        _GENERICSTACK_SET_NA defaultConfig 64 true fullStack indexl ≠ Outcome.outOfFuel) ∧
      (sizeAdd defaultConfig fullStack.usedl 1 = 129 →
        (∀ itemType dst var,
          GENERICSTACK_PUSH defaultConfig 64 true itemType dst fullStack var ≠
            Outcome.outOfFuel) ∧
        GENERICSTACK_PUSH_NA defaultConfig 64 true fullStack ≠ Outcome.outOfFuel)) ∧
    sizeAdd defaultConfig fullStack.usedl 1 = 129 ∧
    _GENERICSTACK_NEW_SIZED paranoidConfig 64 true true 9223372036854775809 =
      Outcome.ok none :=
  ⟨operations_terminate defaultConfig 64 true fullStack 129 (by decide) (by decide)
      (Or.inr (by decide)),
    by decide, by decide⟩

/-- Counterexample to C13 as stated: in the shipped build, where `GENERICSTACK_PARANOID` is
not defined, `GENERICSTACK_SET_INT(stackp, 42, 9223372036854775808)` on a new stack (index
`2^63`, required length `2^63 + 1`) is still inside the doubling loop when the fuel is
spent, whatever the fuel: the candidate wraps to 0 and stays there. -/
theorem operations_terminate_counterexample :
    (9223372036854775808 : Nat) < sizeModulus defaultConfig ∧
    ¬ ∃ (fuel : Nat) (allocOk : Bool),
      _GENERICSTACK_SET_INT defaultConfig fuel allocOk newStack 42 9223372036854775808 ≠
        Outcome.outOfFuel := by
  refine ⟨by decide, ?_⟩
  rintro ⟨fuel, allocOk, h⟩
  apply h
  unfold _GENERICSTACK_SET_INT __GENERICSTACK_SET_BY_TYPE
  have hadd : sizeAdd defaultConfig 9223372036854775808 1 = 9223372036854775809 := by decide
  simp only [hadd]
  rw [if_neg (by decide),
    EXTEND_default_diverges fuel allocOk newStack 9223372036854775808
      (by decide) (by decide) (by decide) (by decide) (by decide) (by decide)]
  rfl

set_option maxRecDepth 1000000 in
/-- C14, evaluated at the failing input.  From a new stack in the shipped configuration
(where `usedl <= lengthl`), `GENERICSTACK_RESET` followed by `GENERICSTACK_PUSH_INT(stackp, 42)`
succeeds and leaves `usedl = 1` with `lengthl = 0`. -/
theorem reset_breaks_capacity_invariant :
    _GENERICSTACK_NEW defaultConfig true = some newStack ∧
    newStack.usedl ≤ newStack.lengthl ∧
    (_GENERICSTACK_RESET newStack).lengthl = 0 ∧
    GENERICSTACK_PUSH_INT defaultConfig 64 true (_GENERICSTACK_RESET newStack) 42 =
      Outcome.ok (true, resetPushedStack) ∧
    runOperations defaultConfig newStack
        [Operation.reset,
          Operation.push 64 true GENERICSTACKITEMTYPE_INT genericStackItemMember.i 42] =
      Outcome.ok resetPushedStack ∧
    resetPushedStack.usedl = 1 ∧ resetPushedStack.lengthl = 0 ∧
    ¬ resetPushedStack.usedl ≤ resetPushedStack.lengthl := by
  decide

set_option maxRecDepth 1000000 in
/-- C15, evaluated at the failing input.  A new stack in the shipped configuration
receives 128 pushes, then a 129th that migrates it to the heap, then `GENERICSTACK_RESET`:
the heap block is freed and `heapItems` is `NULL`, but `items` still designates the freed
block, not the embedded array.  A following `GENERICSTACK_PUSH_INT(stackp, 42)` or
`GENERICSTACK_SET_INT(stackp, 42, 5)` passes the capacity decision without allocating and
writes through `items`, and `GENERICSTACK_GET_INT` reads through it: no defined result. -/
theorem reset_leaves_items_dangling :
    runPushes defaultConfig newStack (List.replicate 128 (intPush 7)) =
      Outcome.ok (List.replicate 128 true, fullStack) ∧
    GENERICSTACK_PUSH_INT defaultConfig 64 true fullStack 42 = Outcome.ok (true, grownStack) ∧
    grownStack.items = genericStackItemsPtr.heapItems ∧
    _GENERICSTACK_RESET grownStack = resetGrownStack ∧
    resetGrownStack.heapItems = none ∧
    resetGrownStack.items = genericStackItemsPtr.freed ∧
    resetGrownStack.block = none ∧
    _GENERICSTACK_EXTEND defaultConfig 64 true resetGrownStack 1 0 =
      Outcome.ok (true, resetGrownStack) ∧
    GENERICSTACK_PUSH_INT defaultConfig 64 true resetGrownStack 42 = Outcome.undefined ∧
    _GENERICSTACK_SET_INT defaultConfig 64 true resetGrownStack 42 5 = Outcome.undefined ∧
    GENERICSTACK_GET_INT resetGrownStack 0 = Outcome.undefined := by
  decide

/-- C16. Reset postcondition: after `_GENERICSTACK_RESET` the heap block is absent and
`usedl = heapl = lengthl = 0`; and when a following setter at an index whose required
length `indexl + 1` exceeds `GENERICSTACK_DEFAULT_LENGTH` returns success (a push is the
setter at `usedl`), the allocator was called and succeeded, the block came from
`_GENERICSTACK_CREATE_HEAP` (a fresh `malloc`, not a `realloc`), `items` designates it,
and `heapl = lengthl` is the smallest power of two that is at least `indexl + 1`. -/
theorem reset_postcondition (cfg : genericStackConfig) (fuel : Nat) (allocOk : Bool)
    (itemType : genericStackItemType) (dst : genericStackItemMember)
    (s s3 : genericStack) (var : Int) (indexl : Nat)
    (hd : cfg.GENERICSTACK_DEFAULT_LENGTH < indexl + 1) (hM : indexl + 1 < sizeModulus cfg)
    (h : __GENERICSTACK_SET_BY_TYPE cfg fuel allocOk itemType dst (_GENERICSTACK_RESET s) var
      indexl = Outcome.ok (true, s3)) :
    (_GENERICSTACK_RESET s).heapItems = none ∧ (_GENERICSTACK_RESET s).usedl = 0 ∧
    (_GENERICSTACK_RESET s).heapl = 0 ∧ (_GENERICSTACK_RESET s).lengthl = 0 ∧
    allocOk = true ∧
    (∃ s1, _GENERICSTACK_CREATE_HEAP cfg allocOk (_GENERICSTACK_RESET s) s3.heapl =
      Outcome.ok (true, s1)) ∧
    s3.items = genericStackItemsPtr.heapItems ∧
    (∃ blk, s3.heapItems = some blk ∧ blk.length = allocItems cfg s3.heapl) ∧
    isSmallestPowerOfTwoGE (indexl + 1) s3.heapl ∧ s3.lengthl = s3.heapl := by
  obtain ⟨r1, r2, r3, r4, _⟩ := RESET_fields s
  have hadd : sizeAdd cfg indexl 1 = indexl + 1 := sizeAdd_of_lt hM
  obtain ⟨s2, blk2, hext, hb2, hlt, hb3, _, e1, e2, _, e4, _⟩ := SET_BY_TYPE_ok h
  rw [hadd] at hext
  obtain ⟨s1, hcap, _, f2, f3, _, f5, _, hsame, hfill⟩ := EXTEND_ok (by omega) hext
  have hh : (_GENERICSTACK_RESET s).heapl < indexl + 1 := by omega
  obtain ⟨p, hp, hle, ha, g1, g2, _, g4, blk1, g5, g6⟩ := extendCapacity_grow_true hd hh hcap
  have hp0 : p ≠ 0 := by omega
  have hcreate : _GENERICSTACK_CREATE_HEAP cfg allocOk (_GENERICSTACK_RESET s) p =
      Outcome.ok (true, s1) := by
    obtain ⟨q, hq, hcase⟩ := extendCapacity_grow hd hh hcap
    rw [hp] at hq
    simp only [Outcome.ok.injEq] at hq
    subst hq
    rcases hcase with ⟨hz, _⟩ | ⟨_, _, hc⟩ | ⟨_, hne, _⟩
    · exact absurd hz hp0
    · exact hc
    · exact absurd r1 hne
  have hheap : s3.heapl = p := by rw [e1, f2, g1]
  have hitems : s3.items = genericStackItemsPtr.heapItems := by rw [e4, f5, g4]
  have hs1b : s1.block = some blk1 := by
    unfold genericStack.block
    rw [g4]
    exact g5
  have hlen2 : blk2.length = blk1.length := by
    by_cases ht : s1.usedl < indexl
    · obtain ⟨b1, b2, hb1, hb2b, hl, _⟩ := hfill ht
      rw [hb1] at hs1b
      rw [hb2b] at hb2
      simp only [Option.some.injEq] at hs1b hb2
      rw [← hb2, hl, hs1b]
    · rw [hsame ht, hs1b] at hb2
      simp only [Option.some.injEq] at hb2
      rw [hb2]
  have hs3h : s3.heapItems = some (blk2.set indexl
      { type := some itemType, u := genericStackItemUnion.stored dst var }) := by
    unfold genericStack.block at hb3
    rw [hitems] at hb3
    exact hb3
  refine ⟨r1, r2, r3, r4, ha, ⟨s1, by rw [hheap]; exact hcreate⟩, hitems,
    ⟨_, hs3h, by rw [List.length_set, hlen2, g6, hheap]⟩, ?_, by rw [e2, f3, g2, hheap]⟩
  rw [hheap]
  exact newHeapl_pow hp (by omega) hM hp0

set_option maxRecDepth 1000000 in
/-- Instance of C16: after the reset of a stack that had grown to a heap block of 256 items,
the setter at index 128 allocates a fresh block of 256 items, the smallest power of two
that is at least 129. -/
theorem reset_postcondition_witness :
    _GENERICSTACK_RESET grownStack = resetGrownStack ∧
    __GENERICSTACK_SET_BY_TYPE defaultConfig 64 true GENERICSTACKITEMTYPE_INT
        genericStackItemMember.i (_GENERICSTACK_RESET grownStack) 42 128 =
      Outcome.ok (true, regrownStack) ∧
    regrownStack.heapl = 256 ∧
    ((_GENERICSTACK_RESET grownStack).heapItems = none ∧
      (_GENERICSTACK_RESET grownStack).usedl = 0 ∧
      (_GENERICSTACK_RESET grownStack).heapl = 0 ∧
      (_GENERICSTACK_RESET grownStack).lengthl = 0 ∧
      true = true ∧
      (∃ s1, _GENERICSTACK_CREATE_HEAP defaultConfig true (_GENERICSTACK_RESET grownStack)
        regrownStack.heapl = Outcome.ok (true, s1)) ∧
      regrownStack.items = genericStackItemsPtr.heapItems ∧
      (∃ blk, regrownStack.heapItems = some blk ∧
        blk.length = allocItems defaultConfig regrownStack.heapl) ∧
      isSmallestPowerOfTwoGE (128 + 1) regrownStack.heapl ∧
      regrownStack.lengthl = regrownStack.heapl) :=
  ⟨by decide, by decide, by decide,
    reset_postcondition defaultConfig 64 true GENERICSTACKITEMTYPE_INT
      genericStackItemMember.i grownStack regrownStack 42 128 (by decide) (by decide)
      (by decide)⟩

/-- C17. Relax empties logically but keeps capacity: after `_GENERICSTACK_RELAX`, `usedl`
is 0 while `heapl`, `lengthl`, `items`, the block it designates and `errori` are
unchanged.  When `items` designates a live block with at least one slot and the capacity
`_GENERICSTACK_EXTEND` compares with is at least 1 (`GENERICSTACK_DEFAULT_LENGTH > 0` or
`heapl > 0`), the next push, typed or NA, succeeds whatever the allocator would answer
and whatever the fuel: the capacity decision returns success on the unchanged stack (no
`malloc`, no `realloc`), `heapl`, `lengthl`, `items` and `errori` are still unchanged after
the push, `usedl` is 1 and slot 0 of the same block holds the pushed item. -/
theorem relax_keeps_capacity (cfg : genericStackConfig) (fuel : Nat) (allocOk : Bool)
    (itemType : genericStackItemType) (dst : genericStackItemMember)
    (s : genericStack) (var : Int) (blk : List genericStackItem)
    (hbits : 0 < cfg.sizeBits) (hb : s.block = some blk) (hlen : 0 < blk.length)
    (hcap : 0 < cfg.GENERICSTACK_DEFAULT_LENGTH ∨ 0 < s.heapl) :
    (_GENERICSTACK_RELAX s).usedl = 0 ∧ (_GENERICSTACK_RELAX s).heapl = s.heapl ∧
    (_GENERICSTACK_RELAX s).lengthl = s.lengthl ∧ (_GENERICSTACK_RELAX s).items = s.items ∧
    (_GENERICSTACK_RELAX s).block = s.block ∧
    (_GENERICSTACK_RELAX s).heapItems = s.heapItems ∧
    (_GENERICSTACK_RELAX s).errori = s.errori ∧
    extendCapacity cfg fuel allocOk (_GENERICSTACK_RELAX s) 1 =
      Outcome.ok (true, _GENERICSTACK_RELAX s) ∧
    (∃ s1, GENERICSTACK_PUSH cfg fuel allocOk itemType dst (_GENERICSTACK_RELAX s) var =
        Outcome.ok (true, s1) ∧
      s1.heapl = s.heapl ∧ s1.lengthl = s.lengthl ∧ s1.items = s.items ∧
      s1.errori = s.errori ∧ s1.usedl = 1 ∧
      s1.block = some (blk.set 0
        { type := some itemType, u := genericStackItemUnion.stored dst var })) ∧
    ∃ s1, GENERICSTACK_PUSH_NA cfg fuel allocOk (_GENERICSTACK_RELAX s) =
        Outcome.ok (true, s1) ∧
      s1.heapl = s.heapl ∧ s1.lengthl = s.lengthl ∧ s1.items = s.items ∧
      s1.errori = s.errori ∧ s1.usedl = 1 ∧
      s1.block = some (blk.set 0 { blk[0] with type := some GENERICSTACKITEMTYPE_NA }) := by
  have hpar : ¬ (cfg.GENERICSTACK_PARANOID = true ∧
      sizeAdd cfg (_GENERICSTACK_RELAX s).usedl 1 < (_GENERICSTACK_RELAX s).usedl) := by
    intro hc
    have h0 : (_GENERICSTACK_RELAX s).usedl = 0 := rfl
    rw [h0] at hc
    omega
  have hb0 : (_GENERICSTACK_RELAX s).block = some blk := hb
  refine ⟨rfl, rfl, rfl, rfl, rfl, rfl, rfl, ?_, ?_, ?_⟩
  · exact (set_first_slot_in_place cfg fuel allocOk (_GENERICSTACK_RELAX s) blk id hbits rfl
      hb0 hlen hcap).1
  · obtain ⟨_, s1, hrun, hrest⟩ := set_first_slot_in_place cfg fuel allocOk
      (_GENERICSTACK_RELAX s) blk
      (fun _ => { type := some itemType, u := genericStackItemUnion.stored dst var })
      hbits rfl hb0 hlen hcap
    refine ⟨s1, ?_, hrest⟩
    unfold GENERICSTACK_PUSH __GENERICSTACK_SET_BY_TYPE
    simp only
    rw [if_neg hpar]
    exact hrun
  · obtain ⟨_, s1, hrun, hrest⟩ := set_first_slot_in_place cfg fuel allocOk
      (_GENERICSTACK_RELAX s) blk
      (fun item => { item with type := some GENERICSTACKITEMTYPE_NA })
      hbits rfl hb0 hlen hcap
    refine ⟨s1, ?_, hrest⟩
    unfold GENERICSTACK_PUSH_NA _GENERICSTACK_SET_NA
    simp only
    rw [if_neg hpar]
    exact hrun

set_option maxRecDepth 1000000 in
/-- Instance of C17: a stack holding three `int` items in its embedded array is relaxed and
receives a push, with an allocator that would fail. -/
theorem relax_keeps_capacity_witness :
    threeStack.block =
      some (intItem 10 :: intItem 20 :: intItem 30 :: List.replicate 125 freshItem) ∧
    GENERICSTACK_PUSH defaultConfig 0 false GENERICSTACKITEMTYPE_INT genericStackItemMember.i
        (_GENERICSTACK_RELAX threeStack) 42 = Outcome.ok (true, relaxedPushedStack) ∧
    ((_GENERICSTACK_RELAX threeStack).usedl = 0 ∧
      (_GENERICSTACK_RELAX threeStack).heapl = threeStack.heapl ∧
      (_GENERICSTACK_RELAX threeStack).lengthl = threeStack.lengthl ∧
      (_GENERICSTACK_RELAX threeStack).items = threeStack.items ∧
      (_GENERICSTACK_RELAX threeStack).block = threeStack.block ∧
      (_GENERICSTACK_RELAX threeStack).heapItems = threeStack.heapItems ∧
      (_GENERICSTACK_RELAX threeStack).errori = threeStack.errori ∧
      extendCapacity defaultConfig 0 false (_GENERICSTACK_RELAX threeStack) 1 =
        Outcome.ok (true, _GENERICSTACK_RELAX threeStack) ∧
      (∃ s1, GENERICSTACK_PUSH defaultConfig 0 false GENERICSTACKITEMTYPE_INT
          genericStackItemMember.i (_GENERICSTACK_RELAX threeStack) 42 =
          Outcome.ok (true, s1) ∧
        s1.heapl = threeStack.heapl ∧ s1.lengthl = threeStack.lengthl ∧
        s1.items = threeStack.items ∧ s1.errori = threeStack.errori ∧ s1.usedl = 1 ∧
        s1.block = some ((intItem 10 :: intItem 20 :: intItem 30 ::
            List.replicate 125 freshItem).set 0
          { type := some GENERICSTACKITEMTYPE_INT,
            u := genericStackItemUnion.stored genericStackItemMember.i 42 })) ∧
      ∃ s1, GENERICSTACK_PUSH_NA defaultConfig 0 false (_GENERICSTACK_RELAX threeStack) =
          Outcome.ok (true, s1) ∧
        s1.heapl = threeStack.heapl ∧ s1.lengthl = threeStack.lengthl ∧
        s1.items = threeStack.items ∧ s1.errori = threeStack.errori ∧ s1.usedl = 1 ∧
        s1.block = some ((intItem 10 :: intItem 20 :: intItem 30 ::
            List.replicate 125 freshItem).set 0
          { (intItem 10 :: intItem 20 :: intItem 30 ::
              List.replicate 125 freshItem)[0] with
            type := some GENERICSTACKITEMTYPE_NA })) :=
  ⟨by decide, by decide,
    relax_keeps_capacity defaultConfig 0 false GENERICSTACKITEMTYPE_INT
      genericStackItemMember.i threeStack 42
      (intItem 10 :: intItem 20 :: intItem 30 :: List.replicate 125 freshItem)
      (by decide) (by decide) (by decide) (Or.inl (by decide))⟩

/-- Counterexample to C17 as stated: when `GENERICSTACK_DEFAULT_LENGTH` is 0 a new stack has
no storage at all, so after `_GENERICSTACK_RELAX` the next push must allocate: with a
failing `malloc` it returns failure and sets `errori`, and with a successful one `heapl`
and `lengthl` change from 0 to 1. -/
theorem relax_keeps_capacity_counterexample :
    _GENERICSTACK_NEW zeroDefaultConfig true = some zeroDefaultStack ∧
    _GENERICSTACK_RELAX zeroDefaultStack = zeroDefaultStack ∧
    zeroDefaultStack.heapl = 0 ∧ zeroDefaultStack.lengthl = 0 ∧ zeroDefaultStack.errori = 0 ∧
    GENERICSTACK_PUSH_INT zeroDefaultConfig 64 false (_GENERICSTACK_RELAX zeroDefaultStack) 42 =
      Outcome.ok (false, { zeroDefaultStack with errori := 1 }) ∧
    ∃ s1, GENERICSTACK_PUSH_INT zeroDefaultConfig 64 true (_GENERICSTACK_RELAX zeroDefaultStack)
        42 = Outcome.ok (true, s1) ∧
      s1.heapl = 1 ∧ s1.lengthl = 1 ∧ s1.items = genericStackItemsPtr.heapItems ∧
      s1.heapItems = some [intItem 42] := by
  refine ⟨by decide, by decide, by decide, by decide, by decide, by decide, ?_⟩
  exact ⟨{ zeroDefaultStack with
      items := genericStackItemsPtr.heapItems
      heapItems := some [intItem 42]
      heapl := 1
      lengthl := 1
      usedl := 1 }, by decide, rfl, rfl, rfl, rfl⟩

/-- C18. The error flag is sticky: when `errori` is non-zero, it is non-zero after every
sequence of `Set`, `Push`, `Pop`, `Relax`, `Reset` and `Switch` operations that runs to
completion (typed or NA, each succeeding or failing), and `GENERICSTACK_ERROR_RESET` then
makes it zero, changing nothing else. -/
theorem error_flag_sticky (cfg : genericStackConfig) (ops : List Operation)
    (s s2 : genericStack) (herr : s.errori ≠ 0)
    (h : runOperations cfg s ops = Outcome.ok s2) :
    s2.errori ≠ 0 ∧ (GENERICSTACK_ERROR_RESET s2).errori = 0 ∧
    GENERICSTACK_ERROR_RESET s2 = { s2 with errori := 0 } := by
  refine ⟨?_, rfl, rfl⟩
  induction ops generalizing s with
  | nil =>
    unfold runOperations at h
    simp only [Outcome.ok.injEq] at h
    subst h
    exact herr
  | cons op rest ih =>
    unfold runOperations at h
    obtain ⟨s1, h1, h2⟩ := Outcome.bind_eq_ok h
    apply ih s1 _ h2
    rcases (Operation.run_frame op h1).1 with he | he
    · rw [he]
      exact herr
    · rw [he]
      decide

set_option maxRecDepth 1000000 in
/-- Instance of C18: the flag set by an invalid switch survives a push, a valid switch, a
pop, a set, a relax, an NA push, a reset and another push, all successful. -/
theorem error_flag_sticky_witness :
    GENERICSTACK_SWITCH defaultConfig threeStack 0 7 = Outcome.ok erroredStack ∧
    erroredStack.errori ≠ 0 ∧
    runOperations defaultConfig erroredStack batchOperations = Outcome.ok batchedStack ∧
    (batchedStack.errori ≠ 0 ∧ (GENERICSTACK_ERROR_RESET batchedStack).errori = 0 ∧
      GENERICSTACK_ERROR_RESET batchedStack = { batchedStack with errori := 0 }) :=
  ⟨by decide, by decide, by decide,
    error_flag_sticky defaultConfig batchOperations erroredStack batchedStack (by decide)
      (by decide)⟩

/-- C19. Growth is monotonic: in a state where `lengthl` is at most the larger of
`GENERICSTACK_DEFAULT_LENGTH` and `heapl` (it is `GENERICSTACK_DEFAULT_LENGTH` after
`_GENERICSTACK_INIT`, `heapl` after a growth and 0 after `_GENERICSTACK_RESET`, and every
operation keeps it so), every operation other than `Reset` that returns, with success or
with failure, leaves `lengthl` and `heapl` at least as large as they were. -/
theorem growth_monotonic (cfg : genericStackConfig) (op : Operation) (s s2 : genericStack)
    (hlen : s.lengthl ≤ max cfg.GENERICSTACK_DEFAULT_LENGTH s.heapl)
    (hop : op ≠ Operation.reset) (h : op.run cfg s = Outcome.ok s2) :
    s.lengthl ≤ s2.lengthl ∧ s.heapl ≤ s2.heapl ∧
    s2.lengthl ≤ max cfg.GENERICSTACK_DEFAULT_LENGTH s2.heapl ∧
    (∀ s0, (_GENERICSTACK_INIT cfg s0).lengthl ≤
      max cfg.GENERICSTACK_DEFAULT_LENGTH (_GENERICSTACK_INIT cfg s0).heapl) ∧
    (_GENERICSTACK_RESET s).lengthl ≤
      max cfg.GENERICSTACK_DEFAULT_LENGTH (_GENERICSTACK_RESET s).heapl := by
  obtain ⟨h1, h2⟩ := (Operation.run_frame op h).2 hop
  obtain ⟨h3, h4⟩ := h2 hlen
  refine ⟨h3, h1, h4, ?_, ?_⟩
  · intro s0
    unfold _GENERICSTACK_INIT
    split
    · simp
    · simp
  · rw [(RESET_fields s).2.2.2.1]
    exact Nat.zero_le _

set_option maxRecDepth 1000000 in
/-- Instance of C19: the 129th push on a full embedded array takes `lengthl` from 128 to 256
and `heapl` from 0 to 256. -/
theorem growth_monotonic_witness :
    (Operation.push 64 true GENERICSTACKITEMTYPE_INT genericStackItemMember.i 42).run
        defaultConfig fullStack = Outcome.ok grownStack ∧
    fullStack.lengthl = 128 ∧ grownStack.lengthl = 256 ∧
    (fullStack.lengthl ≤ grownStack.lengthl ∧ fullStack.heapl ≤ grownStack.heapl ∧
      grownStack.lengthl ≤ max defaultConfig.GENERICSTACK_DEFAULT_LENGTH grownStack.heapl ∧
      (∀ s0, (_GENERICSTACK_INIT defaultConfig s0).lengthl ≤
        max defaultConfig.GENERICSTACK_DEFAULT_LENGTH
          (_GENERICSTACK_INIT defaultConfig s0).heapl) ∧
      (_GENERICSTACK_RESET fullStack).lengthl ≤
        max defaultConfig.GENERICSTACK_DEFAULT_LENGTH (_GENERICSTACK_RESET fullStack).heapl) :=
  ⟨by decide, by decide, by decide,
    growth_monotonic defaultConfig
      (Operation.push 64 true GENERICSTACKITEMTYPE_INT genericStackItemMember.i 42)
      fullStack grownStack (by decide) (by decide) (by decide)⟩

/-- C20. Type predicates and no coercion: on every stack `GENERICSTACK_EXISTS` at `i` holds
iff `i < usedl`, and `GENERICSTACK_IS_*` for the type `T` at `i` yields true iff `i < usedl`
and the discriminant of slot `i` is `T` (beyond `usedl` it yields false without reading the
slot).  Hence after a typed setter for `itemType` has returned success at `indexl` on a
well-formed stack, the predicate for `itemType` yields true at `indexl` and the predicate
for every other type, `GENERICSTACKITEMTYPE_NA` included, yields false. -/
theorem type_predicates (cfg : genericStackConfig) (fuel : Nat) (allocOk : Bool)
    (itemType : genericStackItemType) (dst : genericStackItemMember)
    (s s3 : genericStack) (var : Int) (indexl : Nat) (hwf : s.wellFormed cfg)
    (h : __GENERICSTACK_SET_BY_TYPE cfg fuel allocOk itemType dst s var indexl =
      Outcome.ok (true, s3)) :
    (∀ (t : genericStack) (i : Nat), GENERICSTACK_EXISTS t i = true ↔ i < t.usedl) ∧
    (∀ (t : genericStack) (T : genericStackItemType) (i : Nat),
      GENERICSTACK_IS t T i = Outcome.ok true ↔
        (i < t.usedl ∧ GENERICSTACKITEMTYPE t i = Outcome.ok T)) ∧
    (∀ (t : genericStack) (T : genericStackItemType) (i : Nat), ¬ i < t.usedl →
      GENERICSTACK_IS t T i = Outcome.ok false) ∧
    GENERICSTACK_EXISTS s3 indexl = true ∧
    GENERICSTACKITEMTYPE s3 indexl = Outcome.ok itemType ∧
    GENERICSTACK_IS s3 itemType indexl = Outcome.ok true ∧
    ∀ T2, T2 ≠ itemType → GENERICSTACK_IS s3 T2 indexl = Outcome.ok false := by
  obtain ⟨s1, blk2, _, hlt, _, hb3, hu, _⟩ := SET_BY_TYPE_spec hwf h
  have hget : (blk2.set indexl
      { type := some itemType, u := genericStackItemUnion.stored dst var })[indexl]? =
      some { type := some itemType, u := genericStackItemUnion.stored dst var } := by
    simp [hlt]
  have hty : GENERICSTACKITEMTYPE s3 indexl = Outcome.ok itemType :=
    typeOf_of_block hb3 hget rfl
  have hex : indexl < s3.usedl := by
    rw [hu]
    omega
  refine ⟨?_, IS_iff, ?_, ?_, hty, (IS_iff s3 itemType indexl).mpr ⟨hex, hty⟩, ?_⟩
  · intro t i
    unfold GENERICSTACK_EXISTS
    simp
  · intro t T i hi
    unfold GENERICSTACK_IS GENERICSTACK_EXISTS
    simp [hi]
  · unfold GENERICSTACK_EXISTS
    simp [hex]
  · intro T2 hne
    unfold GENERICSTACK_IS GENERICSTACK_EXISTS
    simp only [hex, decide_True, if_true, hty, Outcome.bind_ok]
    have hne2 : ¬ itemType = T2 := fun hc => hne hc.symm
    simp [hne2]

set_option maxRecDepth 1000000 in
/-- Instance of C20: after `GENERICSTACK_SET_INT(stackp, 42, 5)` on a new stack, slot 5 is an
`int` and nothing else, the filled slot 4 is NA, and slot 6 does not exist. -/
theorem type_predicates_witness :
    newStack.wellFormed defaultConfig ∧
    __GENERICSTACK_SET_BY_TYPE defaultConfig 64 true GENERICSTACKITEMTYPE_INT
        genericStackItemMember.i newStack 42 5 = Outcome.ok (true, sparseStack) ∧
    GENERICSTACK_IS_NA sparseStack 4 = Outcome.ok true ∧
    GENERICSTACK_IS sparseStack GENERICSTACKITEMTYPE_INT 4 = Outcome.ok false ∧
    GENERICSTACK_EXISTS sparseStack 6 = false ∧
    ((∀ (t : genericStack) (i : Nat), GENERICSTACK_EXISTS t i = true ↔ i < t.usedl) ∧
      (∀ (t : genericStack) (T : genericStackItemType) (i : Nat),
        GENERICSTACK_IS t T i = Outcome.ok true ↔
          (i < t.usedl ∧ GENERICSTACKITEMTYPE t i = Outcome.ok T)) ∧
      (∀ (t : genericStack) (T : genericStackItemType) (i : Nat), ¬ i < t.usedl →
        GENERICSTACK_IS t T i = Outcome.ok false) ∧
      GENERICSTACK_EXISTS sparseStack 5 = true ∧
      GENERICSTACKITEMTYPE sparseStack 5 = Outcome.ok GENERICSTACKITEMTYPE_INT ∧
      GENERICSTACK_IS sparseStack GENERICSTACKITEMTYPE_INT 5 = Outcome.ok true ∧
      ∀ T2, T2 ≠ GENERICSTACKITEMTYPE_INT →
        GENERICSTACK_IS sparseStack T2 5 = Outcome.ok false) :=
  ⟨by decide, by decide, by decide, by decide, by decide,
    type_predicates defaultConfig 64 true GENERICSTACKITEMTYPE_INT genericStackItemMember.i
      newStack sparseStack 42 5 (by decide) (by decide)⟩

set_option maxRecDepth 1000000 in
/-- C21, evaluated at the failing input, with the part of the claim the code satisfies.
`GENERICSTACK_NEW_SIZED(stackp, 10)` in the shipped configuration succeeds and leaves
`initialLengthl = 128`, not 10, while `GENERICSTACK_INIT_SIZED(stackp, 10)` leaves 10:
`_GENERICSTACK_NEW_SIZED` never assigns `initialLengthl`, so after every successful call it
is `GENERICSTACK_DEFAULT_LENGTH`.  The rest of the postcondition holds in every
configuration: after `_GENERICSTACK_INIT`, `usedl = heapl = 0`, no heap block, `errori = 0`
and `lengthl = initialLengthl = GENERICSTACK_DEFAULT_LENGTH`; after a successful sized
construction of either kind `usedl = 0`, and `heapl = 0` with
`lengthl = GENERICSTACK_DEFAULT_LENGTH` when `n <= GENERICSTACK_DEFAULT_LENGTH`, otherwise
`heapl = lengthl` is the smallest power of two that is at least `n`. -/
theorem new_sized_keeps_default_initial_length :
    _GENERICSTACK_NEW_SIZED defaultConfig 64 true true 10 = Outcome.ok (some newStack) ∧
    newStack.initialLengthl = 128 ∧ newStack.initialLengthl ≠ 10 ∧
    _GENERICSTACK_INIT_SIZED defaultConfig 64 true (rawStack defaultConfig) 10 =
      Outcome.ok (true, initSizedStack) ∧
    initSizedStack.initialLengthl = 10 ∧
    (∀ (cfg : genericStackConfig) (fuel : Nat) (allocOk : Bool) (n : Nat) (s : genericStack),
      _GENERICSTACK_NEW_SIZED cfg fuel true allocOk n = Outcome.ok (some s) →
      s.initialLengthl = cfg.GENERICSTACK_DEFAULT_LENGTH ∧ s.usedl = 0 ∧
      (n ≤ cfg.GENERICSTACK_DEFAULT_LENGTH →
        s.heapl = 0 ∧ s.lengthl = cfg.GENERICSTACK_DEFAULT_LENGTH) ∧
      (cfg.GENERICSTACK_DEFAULT_LENGTH < n → n < sizeModulus cfg →
        s.heapl = s.lengthl ∧ isSmallestPowerOfTwoGE n s.heapl)) ∧
    (∀ (cfg : genericStackConfig) (fuel : Nat) (allocOk : Bool) (n : Nat)
        (s0 s : genericStack),
      _GENERICSTACK_INIT_SIZED cfg fuel allocOk s0 n = Outcome.ok (true, s) →
      s.initialLengthl = n ∧ s.usedl = 0 ∧
      (n ≤ cfg.GENERICSTACK_DEFAULT_LENGTH →
        s.heapl = 0 ∧ s.lengthl = cfg.GENERICSTACK_DEFAULT_LENGTH) ∧
      (cfg.GENERICSTACK_DEFAULT_LENGTH < n → n < sizeModulus cfg →
        s.heapl = s.lengthl ∧ isSmallestPowerOfTwoGE n s.heapl)) ∧
    ∀ (cfg : genericStackConfig) (s0 : genericStack),
      (_GENERICSTACK_INIT cfg s0).usedl = 0 ∧ (_GENERICSTACK_INIT cfg s0).heapl = 0 ∧
      (_GENERICSTACK_INIT cfg s0).heapItems = none ∧ (_GENERICSTACK_INIT cfg s0).errori = 0 ∧
      (_GENERICSTACK_INIT cfg s0).lengthl = cfg.GENERICSTACK_DEFAULT_LENGTH ∧
      (_GENERICSTACK_INIT cfg s0).initialLengthl = cfg.GENERICSTACK_DEFAULT_LENGTH := by
  refine ⟨by decide, by decide, by decide, by decide, by decide, ?_, ?_, ?_⟩
  · intro cfg fuel allocOk n s h
    unfold _GENERICSTACK_NEW_SIZED at h
    simp only [if_true] at h
    obtain ⟨r, hr, hfin⟩ := Outcome.bind_eq_ok h
    obtain ⟨rcb, s2⟩ := r
    cases rcb with
    | false => simp at hfin
    | true =>
      simp only [if_true, Outcome.ok.injEq, Option.some.injEq] at hfin
      subst hfin
      obtain ⟨a1, a2, _, a4, a5⟩ := EXTEND_INIT_postcondition hr
      exact ⟨a2, a1, fun hle => ⟨(a4 hle).1, (a4 hle).2.1⟩,
        fun hgt hM => ⟨(a5 hgt hM).1, (a5 hgt hM).2.1⟩⟩
  · intro cfg fuel allocOk n s0 s h
    unfold _GENERICSTACK_INIT_SIZED at h
    obtain ⟨r, hr, hfin⟩ := Outcome.bind_eq_ok h
    obtain ⟨rcb, s2⟩ := r
    cases rcb with
    | false => simp at hfin
    | true =>
      simp only [if_true, Outcome.ok.injEq, Prod.mk.injEq, true_and] at hfin
      subst hfin
      obtain ⟨a1, _, _, a4, a5⟩ := EXTEND_INIT_postcondition hr
      exact ⟨rfl, a1, fun hle => ⟨(a4 hle).1, (a4 hle).2.1⟩,
        fun hgt hM => ⟨(a5 hgt hM).1, (a5 hgt hM).2.1⟩⟩
  · intro cfg s0
    obtain ⟨i1, i2, i3, i4, i5, i6, _⟩ := INIT_fields cfg s0
    exact ⟨i1, i2, i3, i4, i5, i6⟩

set_option maxRecDepth 1000000 in
/-- C22, evaluated at the failing input.  On a new stack in the shipped configuration,
`GENERICSTACK_SET_INT(stackp, 42, 128)` with a failing `malloc`: the capacity decision
returns failure, and `_GENERICSTACK_EXTEND` then performs the sentinel fill of slots 0 to
127, so the call returns failure with every slot of the embedded array written. -/
theorem failed_capacity_check_fills_storage :
    extendCapacity defaultConfig 64 false newStack 129 =
      Outcome.ok (false, { newStack with errori := 1 }) ∧
    _GENERICSTACK_EXTEND defaultConfig 64 false newStack 129 128 =
      Outcome.ok (false, failedFillStack) ∧
    _GENERICSTACK_SET_INT defaultConfig 64 false newStack 42 128 =
      Outcome.ok (false, failedFillStack) ∧
    newStack.usedl = 0 ∧ failedFillStack.usedl = 0 ∧
    (∀ j, j < 128 → newStack.load j = Outcome.ok freshItem) ∧
    (∀ j, j < 128 → failedFillStack.load j = Outcome.ok zeroItem) := by
  decide

set_option maxRecDepth 1000000 in
/-- C23, evaluated at the failing input.  A new stack in the shipped configuration has
`lengthl = 128` and no heap block; after `GENERICSTACK_RESET` there is still no heap block
and the embedded array is still what `items` designates, but `lengthl` is 0, not
`GENERICSTACK_DEFAULT_LENGTH`; it stays 0 after a following successful push. -/
theorem reset_zeroes_length_of_inline_stack :
    _GENERICSTACK_NEW defaultConfig true = some newStack ∧
    newStack.heapItems = none ∧ newStack.lengthl = defaultConfig.GENERICSTACK_DEFAULT_LENGTH ∧
    runOperations defaultConfig newStack [Operation.reset] = Outcome.ok resetNewStack ∧
    resetNewStack.heapItems = none ∧
    resetNewStack.items = genericStackItemsPtr.defaultItems ∧
    resetNewStack.lengthl = 0 ∧
    resetNewStack.lengthl ≠ defaultConfig.GENERICSTACK_DEFAULT_LENGTH ∧
    runOperations defaultConfig newStack
        [Operation.reset,
          Operation.push 64 true GENERICSTACKITEMTYPE_INT genericStackItemMember.i 42] =
      Outcome.ok resetPushedStack ∧
    resetPushedStack.heapItems = none ∧
    resetPushedStack.lengthl ≠ defaultConfig.GENERICSTACK_DEFAULT_LENGTH := by
  decide

/-- C24. Populated slots are always defined: when `GENERICSTACK_DEFAULT_LENGTH` items fit
in the address space and `int` is no wider than `size_t`, in every state reachable from a
successful construction by any sequence of `Set`, `Push` (typed or NA), `Pop` with
`usedl > 0`, `Relax` and `Switch`, each running to a state with success or failure, every
slot below `usedl` lies in the block `items` designates and `GENERICSTACKITEMTYPE` reads
from it a member of the enumeration, never indeterminate memory; moreover `usedl` is at
most the larger of `GENERICSTACK_DEFAULT_LENGTH` and `heapl`. -/
theorem populated_slots_defined (cfg : genericStackConfig) (s : genericStack)
    (hcfg : cfg.GENERICSTACK_DEFAULT_LENGTH < sizeModulus cfg) (hW : intBits ≤ cfg.sizeBits)
    (hr : reachableBy cfg (permittedWithoutReset cfg) s) :
    (∀ j, j < s.usedl → ∃ t, GENERICSTACKITEMTYPE s j = Outcome.ok t) ∧
    s.usedl ≤ max cfg.GENERICSTACK_DEFAULT_LENGTH s.heapl := by
  have hbits : 0 < cfg.sizeBits := by
    unfold intBits at hW
    omega
  have key : s.wellFormed cfg ∧ s.withinCapacity cfg ∧ s.populatedDefined := by
    induction hr with
    | start s hc =>
      obtain ⟨hwf, hu⟩ := constructed_wellFormed hcfg hbits hc
      unfold genericStack.withinCapacity
      refine ⟨hwf, by rw [hu]; exact Nat.zero_le _, ?_⟩
      intro j hj
      rw [hu] at hj
      exact absurd hj (Nat.not_lt_zero _)
    | step s s2 op _ hperm hrun ih =>
      obtain ⟨hwf, hwithin, hpop⟩ := ih
      have hop : op ≠ Operation.reset := by
        intro hc
        rw [hc] at hperm
        exact hperm
      obtain ⟨h1, h2⟩ := Operation.run_populated op hW hwf hwithin hpop hperm hrun
      exact ⟨Operation.run_wellFormed op hwf hbits hop hrun, h1, h2⟩
  obtain ⟨_, hwithin, hpop⟩ := key
  refine ⟨?_, hwithin⟩
  intro j hj
  obtain ⟨blk, item, t, hb, hg, ht⟩ := hpop j hj
  exact ⟨t, typeOf_of_block hb hg ht⟩

set_option maxRecDepth 1000000 in
/-- Instance of C24: `GENERICSTACK_SET_INT(stackp, 42, 5)` on a new stack in the shipped
configuration: slots 0 to 4 read as NA and slot 5 as `int`. -/
theorem populated_slots_defined_witness :
    GENERICSTACKITEMTYPE sparseStack 0 = Outcome.ok GENERICSTACKITEMTYPE_NA ∧
    GENERICSTACKITEMTYPE sparseStack 5 = Outcome.ok GENERICSTACKITEMTYPE_INT ∧
    sparseStack.usedl = 6 ∧
    ((∀ j, j < sparseStack.usedl → ∃ t, GENERICSTACKITEMTYPE sparseStack j = Outcome.ok t) ∧
      sparseStack.usedl ≤ max defaultConfig.GENERICSTACK_DEFAULT_LENGTH sparseStack.heapl) :=
  ⟨by decide, by decide, by decide,
    populated_slots_defined defaultConfig sparseStack (by decide) (by decide)
      (reachableBy.step newStack sparseStack
        (Operation.set 64 true GENERICSTACKITEMTYPE_INT genericStackItemMember.i 42 5)
        (reachableBy.start newStack (constructed.new newStack (by decide)))
        (show 5 < sizeModulus defaultConfig by decide) (by decide))⟩

/-- C25. Heap storage is permanent until Reset: when the heap block is present and is the
active storage (`items` designates it), after any `Set`, `Push`, `Pop`, `Relax` or `Switch`
that runs to a state, with success or with failure, the heap block is still present and
`items` still designates it. -/
theorem heap_storage_permanent (cfg : genericStackConfig) (op : Operation)
    (s s2 : genericStack) (hheap : s.heapItems ≠ none)
    (hitems : s.items = genericStackItemsPtr.heapItems) (hop : op ≠ Operation.reset)
    (h : op.run cfg s = Outcome.ok s2) :
    s2.heapItems ≠ none ∧ s2.items = genericStackItemsPtr.heapItems := by
  rcases Operation.run_heapStep op hop (fun _ => hitems) h with ⟨a1, _, a3⟩ | ⟨b1, b2, _⟩
  · exact ⟨fun hc => hheap (a1.mp hc), by rw [a3, hitems]⟩
  · exact ⟨b1, b2⟩

set_option maxRecDepth 1000000 in
/-- Instance of C25: on a stack of 129 items in a heap block of 256, a setter at index 256
whose `realloc` fails returns failure and leaves the heap block in place. -/
theorem heap_storage_permanent_witness :
    (Operation.set 64 false GENERICSTACKITEMTYPE_INT genericStackItemMember.i 42 256).run
        defaultConfig grownStack = Outcome.ok failedGrowStack ∧
    _GENERICSTACK_SET_INT defaultConfig 64 false grownStack 42 256 =
      Outcome.ok (false, failedGrowStack) ∧
    (failedGrowStack.heapItems ≠ none ∧
      failedGrowStack.items = genericStackItemsPtr.heapItems) :=
  ⟨by decide, by decide,
    heap_storage_permanent defaultConfig
      (Operation.set 64 false GENERICSTACKITEMTYPE_INT genericStackItemMember.i 42 256)
      grownStack failedGrowStack (by decide) (by decide) (by decide) (by decide)⟩

/-- C26. `_GENERICSTACK_EXTEND` is a no-op when the heap is already large enough: for every
stack, when `wantedl <= heapl` and `targetIndicel <= usedl`, the call returns success and
the state it returns is the state it was given, whatever the fuel and the allocator. -/
theorem ensure_capacity_noop (cfg : genericStackConfig) (fuel : Nat) (allocOk : Bool)
    (s : genericStack) (wantedl targetIndicel : Nat) (hh : wantedl ≤ s.heapl)
    (ht : targetIndicel ≤ s.usedl) :
    _GENERICSTACK_EXTEND cfg fuel allocOk s wantedl targetIndicel = Outcome.ok (true, s) := by
  unfold _GENERICSTACK_EXTEND
  rw [extendCapacity_nogrow cfg fuel allocOk s wantedl (Or.inr hh)]
  simp only [Outcome.bind_ok]
  rw [if_neg (show ¬ s.usedl < targetIndicel by omega)]

/-- Instance of C26: on a stack of 129 items in a heap block of 256, a request for 200 slots
with target index 100, with an allocator that would fail. -/
theorem ensure_capacity_noop_witness :
    defaultConfig.GENERICSTACK_DEFAULT_LENGTH < 200 ∧ 200 ≤ grownStack.heapl ∧
    100 ≤ grownStack.usedl ∧
    _GENERICSTACK_EXTEND defaultConfig 0 false grownStack 200 100 =
      Outcome.ok (true, grownStack) :=
  ⟨by decide, by decide, by decide,
    ensure_capacity_noop defaultConfig 0 false grownStack 200 100 (by decide) (by decide)⟩

/-- C27 (amended). Switch with equal indices is a no-op on stacks of at most 2^31 items:
when `int` is no wider than `size_t`, `usedl <= 2^31`, and the two arguments have the
same normalised value `n` (the argument itself when it is not negative, `usedl` plus the
argument otherwise) with `n < usedl`, `GENERICSTACK_SWITCH` returns the state it was
given, `errori` included. -/
theorem switch_equal_indices_noop (cfg : genericStackConfig) (s : genericStack) (i1 i2 : Int)
    (n : Nat) (hW : intBits ≤ cfg.sizeBits) (hused : s.usedl ≤ 2147483648)
    (hn1 : normalisedIndex s.usedl i1 = (n : Int)) (hn2 : normalisedIndex s.usedl i2 = (n : Int))
    (hr : n < s.usedl) :
    GENERICSTACK_SWITCH cfg s i1 i2 = Outcome.ok s := by
  have hi1 : -2147483648 ≤ i1 ∧ i1 < 2147483648 := by
    unfold normalisedIndex at hn1
    split at hn1 <;> omega
  have hi2 : -2147483648 ≤ i2 ∧ i2 < 2147483648 := by
    unfold normalisedIndex at hn2
    split at hn2 <;> omega
  have e1 : switchIndex cfg s i1 = (n : Int) := by
    rw [switchIndex_normalised hW s hused hi1.1 hi1.2, hn1]
  have e2 : switchIndex cfg s i2 = (n : Int) := by
    rw [switchIndex_normalised hW s hused hi2.1 hi2.2, hn2]
  have c := switch_in_range_test hW s hused hr
  have hcond : ¬ (((n : Int) < 0) ∨ s.usedl ≤ intToSize cfg (n : Int) ∨
      ((n : Int) < 0) ∨ s.usedl ≤ intToSize cfg (n : Int)) := by
    intro hc
    rcases hc with h | h | h | h
    · exact c (Or.inl h)
    · exact c (Or.inr h)
    · exact c (Or.inl h)
    · exact c (Or.inr h)
  unfold GENERICSTACK_SWITCH
  simp only [e1, e2, if_neg hcond, ne_eq, not_true_eq_false, if_false]

set_option maxRecDepth 1000000 in
/-- Instance of C27, the example of the specification: `Switch(0, 0)` on a stack with
`Used() == 3`; so is `Switch(-1, 2)`. -/
theorem switch_equal_indices_noop_witness :
    threeStack.usedl = 3 ∧
    GENERICSTACK_SWITCH defaultConfig threeStack (-1) 2 = Outcome.ok threeStack ∧
    GENERICSTACK_SWITCH defaultConfig threeStack 0 0 = Outcome.ok threeStack :=
  ⟨by decide, by decide,
    switch_equal_indices_noop defaultConfig threeStack 0 0 0 (by decide) (by decide)
      (by decide) (by decide) (by decide)⟩

/-- Counterexample to C27 as stated: on a stack of `2^31 + 1` items, `Switch(-1, -1)` names
the top slot `2^31` twice, inside `[0, used)`; the code computes the `int` index `-2^31`,
takes it for out of range and sets `errori`. -/
theorem switch_equal_indices_noop_counterexample :
    normalisedIndex hugeStack.usedl (-1) = 2147483648 ∧
    (2147483648 : Int) < (hugeStack.usedl : Int) ∧
    hugeStack.errori = 0 ∧
    GENERICSTACK_SWITCH defaultConfig hugeStack (-1) (-1) =
      Outcome.ok { hugeStack with errori := 1 } ∧
    ({ hugeStack with errori := 1 } : genericStack).errori ≠ hugeStack.errori := by
  refine ⟨by decide, by decide, rfl, ?_, by decide⟩
  have e1 : switchIndex defaultConfig hugeStack (-1) = -2147483648 := by decide
  unfold GENERICSTACK_SWITCH
  simp only [e1]
  rfl

/-- C28 (amended). Pop on an empty stack wraps around: for every well-formed stack with
`usedl = 0`, `GENERICSTACK_POP_NA` leaves `usedl = 2 ^ sizeBits - 1`, returns that index
and changes nothing else, `errori` included; a typed pop makes the same decrement and
then reads slot `2 ^ sizeBits - 1`, which lies outside every block, so it has no defined
result. -/
theorem pop_empty_wraps (cfg : genericStackConfig) (s : genericStack) (hu : s.usedl = 0)
    (hwf : s.wellFormed cfg) :
    GENERICSTACK_POP_NA cfg s =
      (2 ^ cfg.sizeBits - 1, { s with usedl := 2 ^ cfg.sizeBits - 1 }) ∧
    (GENERICSTACK_POP_NA cfg s).2.usedl = 2 ^ cfg.sizeBits - 1 ∧
    (GENERICSTACK_POP_NA cfg s).2.errori = s.errori ∧
    ∀ dst, GENERICSTACK_POP cfg s dst = Outcome.undefined := by
  have hsub : sizeSub cfg s.usedl 1 = 2 ^ cfg.sizeBits - 1 := by
    rw [hu]
    exact sizeSub_zero_one cfg
  have hna : GENERICSTACK_POP_NA cfg s =
      (2 ^ cfg.sizeBits - 1, { s with usedl := 2 ^ cfg.sizeBits - 1 }) := by
    unfold GENERICSTACK_POP_NA GENERICSTACK_GET_NA
    simp only [hsub]
  refine ⟨hna, by rw [hna], by rw [hna], ?_⟩
  intro dst
  unfold GENERICSTACK_POP GENERICSTACK_GET
  simp only [hsub]
  have hload : ({ s with usedl := 2 ^ cfg.sizeBits - 1 } : genericStack).load
      (2 ^ cfg.sizeBits - 1) = Outcome.undefined := by
    unfold genericStack.load
    cases hb : ({ s with usedl := 2 ^ cfg.sizeBits - 1 } : genericStack).block with
    | none => rfl
    | some blk =>
      have hb2 : s.block = some blk := hb
      have hlen := wellFormed_block hwf hb2
      unfold sizeModulus at hlen
      have hnone : blk[2 ^ cfg.sizeBits - 1]? = none :=
        List.getElem?_eq_none (by omega)
      simp only [hnone]
  rw [hload]
  rfl

set_option maxRecDepth 1000000 in
/-- Instance of C28: `GENERICSTACK_POP_NA` on a new stack in the shipped configuration
leaves `usedl = 2^64 - 1`. -/
theorem pop_empty_wraps_witness :
    newStack.usedl = 0 ∧
    (GENERICSTACK_POP_NA defaultConfig newStack).2.usedl = 18446744073709551615 ∧
    (GENERICSTACK_POP_NA defaultConfig newStack =
        (2 ^ defaultConfig.sizeBits - 1,
          { newStack with usedl := 2 ^ defaultConfig.sizeBits - 1 }) ∧
      (GENERICSTACK_POP_NA defaultConfig newStack).2.usedl = 2 ^ defaultConfig.sizeBits - 1 ∧
      (GENERICSTACK_POP_NA defaultConfig newStack).2.errori = newStack.errori ∧
      ∀ dst, GENERICSTACK_POP defaultConfig newStack dst = Outcome.undefined) :=
  ⟨by decide, by decide, pop_empty_wraps defaultConfig newStack (by decide) (by decide)⟩

set_option maxRecDepth 1000000 in
/-- Counterexample to C28 as stated: `GENERICSTACK_POP_INT` on a new stack in the shipped
configuration decrements `usedl` to `2^64 - 1` and reads `items[2^64 - 1]` of the embedded
array of 128 items: the pop does not complete with a defined result. -/
theorem pop_empty_wraps_counterexample :
    newStack.usedl = 0 ∧
    newStack.block = some (List.replicate 128 freshItem) ∧
    sizeSub defaultConfig newStack.usedl 1 = 18446744073709551615 ∧
    GENERICSTACK_POP_INT defaultConfig newStack = Outcome.undefined := by
  decide

set_option maxRecDepth 1000000 in
/-- C29, evaluated at the failing input.  `_GENERICSTACK_INIT` assigns 0 to `errori`: on a
stack whose error flag is set, the flag is clear after `_GENERICSTACK_INIT`, and after
`_GENERICSTACK_INIT_SIZED`, which calls it first; in every configuration and state the
flag is 0 after `_GENERICSTACK_INIT`. -/
theorem init_clears_error_flag :
    erroredStack.errori = 1 ∧
    (_GENERICSTACK_INIT defaultConfig erroredStack).errori = 0 ∧
    (_GENERICSTACK_INIT defaultConfig erroredStack).errori ≠ erroredStack.errori ∧
    (∃ s, _GENERICSTACK_INIT_SIZED defaultConfig 64 true erroredStack 10 =
        Outcome.ok (true, s) ∧ s.errori = 0) ∧
    ∀ (cfg : genericStackConfig) (s : genericStack), (_GENERICSTACK_INIT cfg s).errori = 0 := by
  refine ⟨by decide, by decide, by decide, ?_, ?_⟩
  · exact ⟨{ _GENERICSTACK_INIT defaultConfig erroredStack with initialLengthl := 10 },
      by decide, by decide⟩
  · intro cfg s
    unfold _GENERICSTACK_INIT
    split <;> rfl

/-- C30. Heap length shape invariant: in every state reachable from a successful
construction (default, or sized with a `size_t` length) by any sequence of `Set`, `Push`,
`Pop`, `Relax`, `Reset` and `Switch`, each running to a state with success or failure,
`heapl` is 0 or a power of two strictly greater than `GENERICSTACK_DEFAULT_LENGTH`, the
heap block is present if and only if `heapl > 0`, and when it is present `items`
designates it. -/
theorem heap_length_shape (cfg : genericStackConfig) (s : genericStack)
    (hr : reachableBy cfg (fun _ _ => True) s) :
    (s.heapl = 0 ∨ ((∃ k, s.heapl = 2 ^ k) ∧ cfg.GENERICSTACK_DEFAULT_LENGTH < s.heapl)) ∧
    (s.heapItems ≠ none ↔ 0 < s.heapl) ∧
    (s.heapItems ≠ none → s.items = genericStackItemsPtr.heapItems) := by
  have key : s.heapShape cfg ∧ s.heapCoherent := by
    induction hr with
    | start s hc => exact constructed_heap hc
    | step s s2 op _ _ hrun ih =>
      by_cases hop : op = Operation.reset
      · rw [hop] at hrun
        unfold Operation.run at hrun
        simp only [Outcome.ok.injEq] at hrun
        obtain ⟨r1, _, r3, _⟩ := RESET_fields s
        rw [hrun] at r1 r3
        unfold genericStack.heapShape genericStack.heapCoherent
        rw [r1, r3]
        simp
      · have hstep := Operation.run_heapStep op hop ih.2 hrun
        exact ⟨heapStep_shape hstep ih.1, heapStep_coherent hstep ih.2⟩
  exact ⟨key.1.1, key.1.2, key.2⟩

set_option maxRecDepth 1000000 in
/-- Instance of C30: `GENERICSTACK_NEW_SIZED(stackp, 200)` followed by a push, in the
shipped configuration: `heapl` is 256. -/
theorem heap_length_shape_witness :
    sizedPushedStack.heapl = 2 ^ 8 ∧
    ((sizedPushedStack.heapl = 0 ∨ ((∃ k, sizedPushedStack.heapl = 2 ^ k) ∧
        defaultConfig.GENERICSTACK_DEFAULT_LENGTH < sizedPushedStack.heapl)) ∧
      (sizedPushedStack.heapItems ≠ none ↔ 0 < sizedPushedStack.heapl) ∧
      (sizedPushedStack.heapItems ≠ none →
        sizedPushedStack.items = genericStackItemsPtr.heapItems)) :=
  ⟨by decide,
    heap_length_shape defaultConfig sizedPushedStack
      (reachableBy.step sizedStack sizedPushedStack
        (Operation.push 64 true GENERICSTACKITEMTYPE_INT genericStackItemMember.i 42)
        (reachableBy.start sizedStack
          (constructed.newSized 64 true 200 sizedStack (by decide) (by decide)))
        trivial (by decide))⟩

/-- C31 (amended). Switch is an involution on stacks of at most 2^31 items: when `int` is no
wider than `size_t`, `usedl <= 2^31`, and the normalised values `n1`, `n2` of the two
arguments (the argument itself when it is not negative, `usedl` plus the argument
otherwise) are below `usedl` and name slots of the block `items` designates,
`GENERICSTACK_SWITCH` succeeds, and applied a second time to the state it produced, with
the same arguments, it gives back the original state: every slot and every field. -/
theorem switch_involution (cfg : genericStackConfig) (s : genericStack) (i1 i2 : Int)
    (n1 n2 : Nat) (item1 item2 : genericStackItem)
    (hW : intBits ≤ cfg.sizeBits) (hused : s.usedl ≤ 2147483648)
    (hn1 : normalisedIndex s.usedl i1 = (n1 : Int)) (hn2 : normalisedIndex s.usedl i2 = (n2 : Int))
    (hr1 : n1 < s.usedl) (hr2 : n2 < s.usedl)
    (hl1 : s.load n1 = Outcome.ok item1) (hl2 : s.load n2 = Outcome.ok item2) :
    ∃ s1, GENERICSTACK_SWITCH cfg s i1 i2 = Outcome.ok s1 ∧
      GENERICSTACK_SWITCH cfg s1 i1 i2 = Outcome.ok s ∧
      (n1 ≠ n2 → s1.load n1 = Outcome.ok item2 ∧ s1.load n2 = Outcome.ok item1) := by
  have hi1 : -2147483648 ≤ i1 ∧ i1 < 2147483648 := by
    unfold normalisedIndex at hn1
    split at hn1 <;> omega
  have hi2 : -2147483648 ≤ i2 ∧ i2 < 2147483648 := by
    unfold normalisedIndex at hn2
    split at hn2 <;> omega
  have e1 : switchIndex cfg s i1 = (n1 : Int) := by
    rw [switchIndex_normalised hW s hused hi1.1 hi1.2, hn1]
  have e2 : switchIndex cfg s i2 = (n2 : Int) := by
    rw [switchIndex_normalised hW s hused hi2.1 hi2.2, hn2]
  have hcond : ¬ (((n1 : Int) < 0) ∨ s.usedl ≤ intToSize cfg (n1 : Int) ∨
      ((n2 : Int) < 0) ∨ s.usedl ≤ intToSize cfg (n2 : Int)) := by
    have c1 := switch_in_range_test hW s hused hr1
    have c2 := switch_in_range_test hW s hused hr2
    tauto
  by_cases hne : n1 = n2
  · have hsame : GENERICSTACK_SWITCH cfg s i1 i2 = Outcome.ok s := by
      rw [← hne] at e2 hcond
      unfold GENERICSTACK_SWITCH
      simp only [e1, e2, if_neg hcond, ne_eq, not_true_eq_false, if_false]
    exact ⟨s, hsame, hsame, fun hc => absurd hne hc⟩
  · obtain ⟨blk, hblk, hg1⟩ := genericStack.load_eq_ok.mp hl1
    obtain ⟨blk0, hblk0, hg2⟩ := genericStack.load_eq_ok.mp hl2
    rw [hblk] at hblk0
    simp only [Option.some.injEq] at hblk0
    subst hblk0
    have hlt1 : n1 < blk.length := (List.getElem?_eq_some_iff.mp hg1).1
    have hlt2 : n2 < blk.length := (List.getElem?_eq_some_iff.mp hg2).1
    have hb2 : (s.setBlock ((blk.set n1 item2).set n2 item1)).block =
        some ((blk.set n1 item2).set n2 item1) := genericStack.block_setBlock hblk
    have hu : (s.setBlock ((blk.set n1 item2).set n2 item1)).usedl = s.usedl :=
      (s.setBlock_fields _).2.1
    have hg1b : ((blk.set n1 item2).set n2 item1)[n1]? = some item2 := by
      rw [List.getElem?_set_ne (fun hc => hne hc.symm)]
      simp [hlt1]
    have hg2b : ((blk.set n1 item2).set n2 item1)[n2]? = some item1 := by
      simp [hlt2]
    have hfirst := SWITCH_swap_eq e1 e2 hcond hne hblk hg1 hg2
    have hsecond := SWITCH_swap_eq
      (show switchIndex cfg (s.setBlock ((blk.set n1 item2).set n2 item1)) i1 = (n1 : Int) by
        rw [switchIndex_setBlock, e1])
      (show switchIndex cfg (s.setBlock ((blk.set n1 item2).set n2 item1)) i2 = (n2 : Int) by
        rw [switchIndex_setBlock, e2])
      (show ¬ (((n1 : Int) < 0) ∨
          (s.setBlock ((blk.set n1 item2).set n2 item1)).usedl ≤ intToSize cfg (n1 : Int) ∨
          ((n2 : Int) < 0) ∨
          (s.setBlock ((blk.set n1 item2).set n2 item1)).usedl ≤ intToSize cfg (n2 : Int)) by
        rw [hu]
        exact hcond)
      hne hb2 hg1b hg2b
    rw [genericStack.setBlock_setBlock, swap_twice_list hg1 hg2,
      genericStack.setBlock_self hblk] at hsecond
    exact ⟨_, hfirst, hsecond, fun _ => ⟨load_of_block hb2 hg1b, load_of_block hb2 hg2b⟩⟩

set_option maxRecDepth 1000000 in
/-- Instance of C31: `Switch(-1, -2)` twice on a stack holding the `int` items 10, 20 and 30. -/
theorem switch_involution_witness :
    GENERICSTACK_SWITCH defaultConfig threeStack (-1) (-2) = Outcome.ok switchedStack ∧
    switchedStack ≠ threeStack ∧
    GENERICSTACK_SWITCH defaultConfig switchedStack (-1) (-2) = Outcome.ok threeStack ∧
    ∃ s1, GENERICSTACK_SWITCH defaultConfig threeStack (-1) (-2) = Outcome.ok s1 ∧
      GENERICSTACK_SWITCH defaultConfig s1 (-1) (-2) = Outcome.ok threeStack ∧
      (2 ≠ 1 → s1.load 2 = Outcome.ok (intItem 20) ∧ s1.load 1 = Outcome.ok (intItem 30)) :=
  ⟨by decide, by decide, by decide,
    switch_involution defaultConfig threeStack (-1) (-2) 2 1 (intItem 30) (intItem 20)
      (by decide) (by decide) (by decide) (by decide) (by decide) (by decide) (by decide)
      (by decide)⟩

/-- Counterexample to C31 as stated: on a stack of `2^31 + 1` items the arguments -1 and 0
name the slots `2^31` and 0, both inside `[0, used)`; the first `Switch(-1, 0)` computes the
`int` index `-2^31`, swaps nothing and sets `errori`, the second does the same, and the
state after the two calls differs from the original in `errori`. -/
theorem switch_involution_counterexample :
    normalisedIndex hugeStack.usedl (-1) = 2147483648 ∧
    normalisedIndex hugeStack.usedl 0 = 0 ∧
    (2147483648 : Int) < (hugeStack.usedl : Int) ∧
    hugeStack.errori = 0 ∧
    GENERICSTACK_SWITCH defaultConfig hugeStack (-1) 0 =
      Outcome.ok { hugeStack with errori := 1 } ∧
    GENERICSTACK_SWITCH defaultConfig { hugeStack with errori := 1 } (-1) 0 =
      Outcome.ok { hugeStack with errori := 1 } ∧
    ({ hugeStack with errori := 1 } : genericStack).errori ≠ hugeStack.errori := by
  refine ⟨by decide, by decide, by decide, rfl, ?_, ?_, by decide⟩
  · have e1 : switchIndex defaultConfig hugeStack (-1) = -2147483648 := by decide
    have e2 : switchIndex defaultConfig hugeStack 0 = 0 := by decide
    unfold GENERICSTACK_SWITCH
    simp only [e1, e2]
    rfl
  · have e1 : switchIndex defaultConfig { hugeStack with errori := 1 } (-1) = -2147483648 := by
      decide
    have e2 : switchIndex defaultConfig { hugeStack with errori := 1 } 0 = 0 := by decide
    unfold GENERICSTACK_SWITCH
    simp only [e1, e2]
    rfl

/-- C32. Switch index normalisation is exact in the `int` range: when `int` is no wider
than `size_t`, for every stack with `usedl <= 2^31` and every argument `i` with
`-2^31 <= i < 2^31`, the index `GENERICSTACK_SWITCH` computes (the argument cast to `int`
and, when negative, the `size_t` sum `usedl + i` converted back to `int`) is the integer
`usedl + i` when `i < 0` and `i` otherwise; and the range test of the code, which compares
the index with `usedl` after conversion to `size_t`, rejects it exactly when that integer
is not in `[0, usedl)`. -/
theorem switch_normalisation_exact (cfg : genericStackConfig) (s : genericStack) (i : Int)
    (hW : intBits ≤ cfg.sizeBits) (hused : s.usedl ≤ 2147483648)
    (h1 : -2147483648 ≤ i) (h2 : i < 2147483648) :
    switchIndex cfg s i = (if i < 0 then (s.usedl : Int) + i else i) ∧
    switchIndex cfg s i = normalisedIndex s.usedl i ∧
    ((switchIndex cfg s i < 0 ∨ s.usedl ≤ intToSize cfg (switchIndex cfg s i)) ↔
      ¬ (0 ≤ normalisedIndex s.usedl i ∧ normalisedIndex s.usedl i < (s.usedl : Int))) := by
  have hnorm : switchIndex cfg s i = normalisedIndex s.usedl i :=
    switchIndex_normalised hW s hused h1 h2
  have hval : normalisedIndex s.usedl i = (if i < 0 then (s.usedl : Int) + i else i) := rfl
  refine ⟨by rw [hnorm, hval], hnorm, ?_⟩
  rw [hnorm]
  have hlt : normalisedIndex s.usedl i < 2147483648 := by
    rw [hval]
    split <;> omega
  by_cases hneg : normalisedIndex s.usedl i < 0
  · constructor
    · intro _ hc
      omega
    · intro _
      exact Or.inl hneg
  · rw [intToSize_of_nonneg hW (by omega) hlt]
    constructor
    · intro hc hin
      rcases hc with hc | hc
      · exact hneg hc
      · omega
    · intro hc
      right
      by_contra hle
      apply hc
      omega

/-- Instance of C32: on a stack of three items, the argument -1 yields index 2, the argument
-4 yields -1 and the argument 3 yields 3; the last two are rejected. -/
theorem switch_normalisation_exact_witness :
    switchIndex defaultConfig threeStack (-1) = 2 ∧
    switchIndex defaultConfig threeStack (-4) = -1 ∧
    switchIndex defaultConfig threeStack 3 = 3 ∧
    (switchIndex defaultConfig threeStack (-1) =
        (if (-1 : Int) < 0 then (threeStack.usedl : Int) + (-1) else (-1)) ∧
      switchIndex defaultConfig threeStack (-1) = normalisedIndex threeStack.usedl (-1) ∧
      ((switchIndex defaultConfig threeStack (-1) < 0 ∨
          threeStack.usedl ≤ intToSize defaultConfig (switchIndex defaultConfig threeStack (-1))) ↔
        ¬ (0 ≤ normalisedIndex threeStack.usedl (-1) ∧
          normalisedIndex threeStack.usedl (-1) < (threeStack.usedl : Int)))) :=
  ⟨by decide, by decide, by decide,
    switch_normalisation_exact defaultConfig threeStack (-1) (by decide) (by decide)
      (by decide) (by decide)⟩

/-- C33. The default and `GENERICSTACK_PARANOID` builds of the setters agree on sensible
inputs: in two configurations that differ in `GENERICSTACK_PARANOID` only, for every stack,
every fuel and allocator answer, every item type, member and value and every index with
`indexl + 1 <= 2 ^ (sizeBits - 1)`, the typed setter gives the same outcome (the same return
code and the same state, or no defined result in both, or fuel exhausted in both), and so
do `_GENERICSTACK_SET_NA` and `_GENERICSTACK_EXTEND`. -/
theorem set_builds_agree (cfg : genericStackConfig) (fuel : Nat) (allocOk : Bool)
    (itemType : genericStackItemType) (dst : genericStackItemMember)
    (s : genericStack) (var : Int) (indexl : Nat) (hbits : 0 < cfg.sizeBits)
    (hidx : indexl + 1 ≤ 2 ^ (cfg.sizeBits - 1)) :
    __GENERICSTACK_SET_BY_TYPE { cfg with GENERICSTACK_PARANOID := true } fuel allocOk itemType
        dst s var indexl =
      __GENERICSTACK_SET_BY_TYPE { cfg with GENERICSTACK_PARANOID := false } fuel allocOk
        itemType dst s var indexl ∧
    _GENERICSTACK_SET_NA { cfg with GENERICSTACK_PARANOID := true } fuel allocOk s indexl =
      _GENERICSTACK_SET_NA { cfg with GENERICSTACK_PARANOID := false } fuel allocOk s indexl ∧
    _GENERICSTACK_EXTEND { cfg with GENERICSTACK_PARANOID := true } fuel allocOk s
        (indexl + 1) indexl =
      _GENERICSTACK_EXTEND { cfg with GENERICSTACK_PARANOID := false } fuel allocOk s
        (indexl + 1) indexl := by
  have hM : indexl + 1 < sizeModulus cfg := by
    unfold sizeModulus
    have : 2 ^ (cfg.sizeBits - 1) < 2 ^ cfg.sizeBits :=
      Nat.pow_lt_pow_right (by decide) (by omega)
    omega
  have haddP : sizeAdd { cfg with GENERICSTACK_PARANOID := true } indexl 1 = indexl + 1 :=
    @sizeAdd_of_lt { cfg with GENERICSTACK_PARANOID := true } indexl 1 hM
  have haddD : sizeAdd { cfg with GENERICSTACK_PARANOID := false } indexl 1 = indexl + 1 :=
    @sizeAdd_of_lt { cfg with GENERICSTACK_PARANOID := false } indexl 1 hM
  have hext := EXTEND_builds_agree cfg fuel allocOk s (indexl + 1) indexl hbits hidx
  refine ⟨?_, ?_, hext⟩
  · unfold __GENERICSTACK_SET_BY_TYPE
    simp only [haddP, haddD]
    rw [if_neg (fun hc => by omega), if_neg (fun hc => by simp at hc), hext]
  · unfold _GENERICSTACK_SET_NA
    simp only [haddP, haddD]
    rw [if_neg (fun hc => by omega), if_neg (fun hc => by simp at hc), hext]

set_option maxRecDepth 1000000 in
/-- Instance of C33: the setter at index 128 of a full embedded array, which grows the stack,
in the shipped configuration built with and without `GENERICSTACK_PARANOID`. -/
theorem set_builds_agree_witness :
    ({ defaultConfig with GENERICSTACK_PARANOID := true } : genericStackConfig) =
      paranoidConfig ∧
    ({ defaultConfig with GENERICSTACK_PARANOID := false } : genericStackConfig) =
      defaultConfig ∧
    __GENERICSTACK_SET_BY_TYPE paranoidConfig 64 true GENERICSTACKITEMTYPE_INT
        genericStackItemMember.i fullStack 42 128 = Outcome.ok (true, grownStack) ∧
    (__GENERICSTACK_SET_BY_TYPE { defaultConfig with GENERICSTACK_PARANOID := true } 64 true
          GENERICSTACKITEMTYPE_INT genericStackItemMember.i fullStack 42 128 =
        __GENERICSTACK_SET_BY_TYPE { defaultConfig with GENERICSTACK_PARANOID := false } 64 true
          GENERICSTACKITEMTYPE_INT genericStackItemMember.i fullStack 42 128 ∧
      _GENERICSTACK_SET_NA { defaultConfig with GENERICSTACK_PARANOID := true } 64 true
          fullStack 128 =
        _GENERICSTACK_SET_NA { defaultConfig with GENERICSTACK_PARANOID := false } 64 true
          fullStack 128 ∧
      _GENERICSTACK_EXTEND { defaultConfig with GENERICSTACK_PARANOID := true } 64 true
          fullStack (128 + 1) 128 =
        _GENERICSTACK_EXTEND { defaultConfig with GENERICSTACK_PARANOID := false } 64 true
          fullStack (128 + 1) 128) :=
  ⟨by decide, by decide, by decide,
    set_builds_agree defaultConfig 64 true GENERICSTACKITEMTYPE_INT genericStackItemMember.i
      fullStack 42 128 (by decide) (by decide)⟩

/-- C34. The two sentinel-fill implementations agree on discriminants: for every stack whose
`items` designates a live block of fewer than `2 ^ sizeBits` items and every range
`startl <= endl` inside that block, the loop variant of `_GENERICSTACK_NA_MEMSET`
(`GENERICSTACK_ZERO_INT_IS_NOT_ZERO_BYTES`) and the `memset` variant both return, change
nothing but the contents of the block, leave every slot of `[startl, endl]` with the
discriminant `GENERICSTACKITEMTYPE_NA` and leave every slot outside the range as it was;
in the range the loop variant keeps the payload while the `memset` variant leaves zero
bytes. -/
theorem sentinel_fills_agree (cfg : genericStackConfig) (s : genericStack)
    (blk : List genericStackItem) (startl endl : Nat) (hb : s.block = some blk)
    (hse : startl ≤ endl) (hend : endl < blk.length) (hlen : blk.length < sizeModulus cfg) :
    ∃ (blkL blkM : List genericStackItem),
      _GENERICSTACK_NA_MEMSET { cfg with GENERICSTACK_ZERO_INT_IS_NOT_ZERO_BYTES := true } s
          startl endl = Outcome.ok (s.setBlock blkL) ∧
      _GENERICSTACK_NA_MEMSET { cfg with GENERICSTACK_ZERO_INT_IS_NOT_ZERO_BYTES := false } s
          startl endl = Outcome.ok (s.setBlock blkM) ∧
      (s.setBlock blkL).block = some blkL ∧ (s.setBlock blkM).block = some blkM ∧
      blkL.length = blk.length ∧ blkM.length = blk.length ∧
      (∀ j, startl ≤ j → j ≤ endl →
        ∃ item, blk[j]? = some item ∧
          blkL[j]? = some { item with type := some GENERICSTACKITEMTYPE_NA } ∧
          blkM[j]? = some zeroItem ∧
          zeroItem.type = some GENERICSTACKITEMTYPE_NA) ∧
      (∀ j, j < startl ∨ endl < j → blkL[j]? = blk[j]? ∧ blkM[j]? = blk[j]?) ∧
      (∀ j : Nat, (blkL[j]?).map (fun (item : genericStackItem) => item.type) =
        (blkM[j]?).map (fun (item : genericStackItem) => item.type)) := by
  have hendM : endl < sizeModulus cfg := by omega
  have hcountM : sizeAdd { cfg with GENERICSTACK_ZERO_INT_IS_NOT_ZERO_BYTES := false }
      (sizeSub { cfg with GENERICSTACK_ZERO_INT_IS_NOT_ZERO_BYTES := false } endl startl) 1 =
      endl + 1 - startl := by
    have h1 : sizeSub { cfg with GENERICSTACK_ZERO_INT_IS_NOT_ZERO_BYTES := false } endl startl =
        endl - startl :=
      @sizeSub_of_le { cfg with GENERICSTACK_ZERO_INT_IS_NOT_ZERO_BYTES := false } endl startl
        hse hendM
    rw [h1]
    have h2 : endl - startl + 1 < sizeModulus cfg := by omega
    rw [@sizeAdd_of_lt { cfg with GENERICSTACK_ZERO_INT_IS_NOT_ZERO_BYTES := false }
      (endl - startl) 1 h2]
    omega
  have hfit : startl + (endl + 1 - startl) ≤ blk.length := by omega
  obtain ⟨blkL, hL⟩ := fillItems_some
    (fun item => { item with type := some GENERICSTACKITEMTYPE_NA }) _ blk startl hfit
  obtain ⟨blkM, hM⟩ := fillItems_some (fun _ => zeroItem) _ blk startl hfit
  obtain ⟨l1, _, l3⟩ := fillItems_spec _ _ _ _ _ hL
  obtain ⟨m1, _, m3⟩ := fillItems_spec _ _ _ _ _ hM
  have hin : ∀ j, startl ≤ j → j ≤ endl → (startl ≤ j ∧ j < startl + (endl + 1 - startl)) := by
    intro j h1 h2
    omega
  have hout : ∀ j, j < startl ∨ endl < j →
      ¬ (startl ≤ j ∧ j < startl + (endl + 1 - startl)) := by
    intro j h1
    omega
  refine ⟨blkL, blkM, ?_, ?_, genericStack.block_setBlock hb, genericStack.block_setBlock hb,
    l1, m1, ?_, ?_, ?_⟩
  · unfold _GENERICSTACK_NA_MEMSET
    simp only [hb, if_true, hL]
  · unfold _GENERICSTACK_NA_MEMSET
    simp only [hb, Bool.false_eq_true, if_false, hcountM, hM]
  · intro j h1 h2
    have hj : j < blk.length := by omega
    refine ⟨blk[j], List.getElem?_eq_getElem hj, ?_, ?_, rfl⟩
    · rw [l3 j, if_pos (hin j h1 h2), List.getElem?_eq_getElem hj]
      rfl
    · rw [m3 j, if_pos (hin j h1 h2), List.getElem?_eq_getElem hj]
      rfl
  · intro j hj
    exact ⟨by rw [l3 j, if_neg (hout j hj)], by rw [m3 j, if_neg (hout j hj)]⟩
  · intro j
    rw [l3 j, m3 j]
    by_cases hr : startl ≤ j ∧ j < startl + (endl + 1 - startl)
    · rw [if_pos hr, if_pos hr]
      cases blk[j]? with
      | none => rfl
      | some item => rfl
    · rw [if_neg hr, if_neg hr]

set_option maxRecDepth 1000000 in
/-- Instance of C34: both variants on slots 0 and 1 of a stack holding the `int` items 10, 20
and 30. -/
theorem sentinel_fills_agree_witness :
    _GENERICSTACK_NA_MEMSET
        { defaultConfig with GENERICSTACK_ZERO_INT_IS_NOT_ZERO_BYTES := true } threeStack 0 1 =
      Outcome.ok loopFilledStack ∧
    _GENERICSTACK_NA_MEMSET
        { defaultConfig with GENERICSTACK_ZERO_INT_IS_NOT_ZERO_BYTES := false } threeStack 0 1 =
      Outcome.ok zeroFilledStack ∧
    GENERICSTACKITEMTYPE loopFilledStack 1 = Outcome.ok GENERICSTACKITEMTYPE_NA ∧
    GENERICSTACKITEMTYPE zeroFilledStack 1 = Outcome.ok GENERICSTACKITEMTYPE_NA ∧
    GENERICSTACKITEMTYPE loopFilledStack 2 = Outcome.ok GENERICSTACKITEMTYPE_INT ∧
    GENERICSTACKITEMTYPE zeroFilledStack 2 = Outcome.ok GENERICSTACKITEMTYPE_INT ∧
    ∃ (blkL blkM : List genericStackItem),
      _GENERICSTACK_NA_MEMSET
          { defaultConfig with GENERICSTACK_ZERO_INT_IS_NOT_ZERO_BYTES := true } threeStack
          0 1 = Outcome.ok (threeStack.setBlock blkL) ∧
      _GENERICSTACK_NA_MEMSET
          { defaultConfig with GENERICSTACK_ZERO_INT_IS_NOT_ZERO_BYTES := false } threeStack
          0 1 = Outcome.ok (threeStack.setBlock blkM) ∧
      (threeStack.setBlock blkL).block = some blkL ∧
      (threeStack.setBlock blkM).block = some blkM ∧
      blkL.length =
        (intItem 10 :: intItem 20 :: intItem 30 :: List.replicate 125 freshItem).length ∧
      blkM.length =
        (intItem 10 :: intItem 20 :: intItem 30 :: List.replicate 125 freshItem).length ∧
      (∀ j, 0 ≤ j → j ≤ 1 →
        ∃ item,
          (intItem 10 :: intItem 20 :: intItem 30 :: List.replicate 125 freshItem)[j]? =
            some item ∧
          blkL[j]? = some { item with type := some GENERICSTACKITEMTYPE_NA } ∧
          blkM[j]? = some zeroItem ∧
          zeroItem.type = some GENERICSTACKITEMTYPE_NA) ∧
      (∀ j, j < 0 ∨ 1 < j →
        blkL[j]? =
            (intItem 10 :: intItem 20 :: intItem 30 :: List.replicate 125 freshItem)[j]? ∧
          blkM[j]? =
            (intItem 10 :: intItem 20 :: intItem 30 :: List.replicate 125 freshItem)[j]?) ∧
      (∀ j : Nat, (blkL[j]?).map (fun (item : genericStackItem) => item.type) =
        (blkM[j]?).map (fun (item : genericStackItem) => item.type)) :=
  ⟨by decide, by decide, by decide, by decide, by decide, by decide,
    sentinel_fills_agree defaultConfig threeStack
      (intItem 10 :: intItem 20 :: intItem 30 :: List.replicate 125 freshItem) 0 1
      (by decide) (by decide) (by decide) (by decide)⟩
